import Mathlib

/-!
# FUEX: breakpoint resolution and fusion orientation

A shallow embedding of `src/parser.go` (package `main` of FUEX) and theorems about it.

Conventions of the embedding.

* A Go `string` is a list of characters (`Str`); the program only slices strings at
  ASCII positions, so bytes and characters coincide where it matters.
* A run-time panic (index out of range, failed type assertion) is an explicit value:
  `none` for functions returning `Option`, `Res.panic` for `recordParser`.
* Go maps are total lookup functions returning `Option` (absent key = `none`).
* `int64` and `uint64` values are `Int` and `Nat`; the saturation done by
  `strconv.ParseInt` is written out.
-/

namespace FUEX

/-- A Go string. -/
abbrev Str := List Char

/-! ## Models of the Go standard library functions used by the program -/

/-- Model of `strings.Split(s, sep)` for a one-character separator: the pieces
between the occurrences of `sep`, always at least one piece. -/
def split (sep : Char) : Str → List Str
  | [] => [[]]
  | c :: cs =>
    if c = sep then [] :: split sep cs
    else
      match split sep cs with
      | [] => [[c]]
      | p :: ps => (c :: p) :: ps

/-- Model of `strings.Join(parts, sep)`. -/
def join (sep : Str) : List Str → Str
  | [] => []
  | [p] => p
  | p :: q :: ps => p ++ sep ++ join sep (q :: ps)

/-- Model of `strings.Contains(s, sub)`. -/
def contains : Str → Str → Bool
  | [], sub => sub.isEmpty
  | c :: cs, sub => sub.isPrefixOf (c :: cs) || contains cs sub

/-- Worker of `replaceAll`: the first argument counts the characters of a matched
occurrence that are still to be skipped. -/
def replaceAllAux (old new : Str) : Nat → Str → Str
  | _, [] => []
  | skip + 1, _ :: cs => replaceAllAux old new skip cs
  | 0, c :: cs =>
    if old.isPrefixOf (c :: cs) then new ++ replaceAllAux old new (old.length - 1) cs
    else c :: replaceAllAux old new 0 cs

/-- Model of `strings.ReplaceAll(s, old, new)` for a non-empty `old` (the program
calls it with the literals GENE_A and GENE_B only): non-overlapping occurrences are
replaced from left to right. -/
def replaceAll (s old new : Str) : Str := replaceAllAux old new 0 s

/-- Model of `strings.Replace(s, old, new, 1)` for a non-empty `old`: only the first
occurrence is replaced. -/
def replaceFirst (old new : Str) : Str → Str
  | [] => []
  | c :: cs =>
    if old.isPrefixOf (c :: cs) then new ++ (c :: cs).drop old.length
    else c :: replaceFirst old new cs

/-- Predicate `unicode.IsSpace`. -/
def isSpace (c : Char) : Bool :=
  let n := c.toNat
  (9 ≤ n && n ≤ 13) || n = 32 || n = 0x85 || n = 0xA0 || n = 0x1680 ||
  (0x2000 ≤ n && n ≤ 0x200A) || n = 0x2028 || n = 0x2029 || n = 0x202F ||
  n = 0x205F || n = 0x3000

/-- Model of `strings.TrimSpace`. -/
def trimSpace (s : Str) : Str :=
  ((s.dropWhile isSpace).reverse.dropWhile isSpace).reverse

/-- The decimal digit character of `d < 10`. -/
def digitChar (d : Nat) : Char := Char.ofNat (48 + d)

/-- Decimal digits of `n`, most significant first; the first argument bounds the
number of digits. -/
def natDigits : Nat → Nat → Str
  | 0, _ => []
  | fuel + 1, n =>
    if n < 10 then [digitChar n] else natDigits fuel (n / 10) ++ [digitChar (n % 10)]

/-- Model of `strconv.FormatUint(n, 10)`. -/
def formatUint (n : Nat) : Str := natDigits (n + 1) n

/-- Model of `strconv.Itoa` (and `strconv.FormatInt(n, 10)`). -/
def itoa (n : Int) : Str :=
  if n < 0 then '-' :: formatUint n.natAbs else formatUint n.natAbs

/-- Largest `uint64`. -/
def maxUint64 : Nat := 2 ^ 64 - 1

/-- The digit loop of `strconv.ParseUint(s, 10, 64)`: the value and whether no error
was raised. A character that is not a digit gives `(0, false)` (syntax error); an
overflow gives `(maxUint64, false)` (range error) as soon as it is detected. -/
def parseUintLoop : Str → Nat → Nat × Bool
  | [], n => (n, true)
  | c :: cs, n =>
    if !c.isDigit then (0, false)
    else if n ≥ maxUint64 / 10 + 1 then (maxUint64, false)
    else
      let n1 := n * 10 + (c.toNat - 48)
      if n1 > maxUint64 then (maxUint64, false) else parseUintLoop cs n1

/-- Model of `strconv.ParseUint(s, 10, 64)`. -/
def parseUint (s : Str) : Nat × Bool :=
  if s.isEmpty then (0, false) else parseUintLoop s 0

/-- Model of `strconv.ParseInt(s, 10, 64)`: the returned value and whether the
returned error is nil. Syntax errors return 0, range errors the nearest bound. -/
def parseInt (s : Str) : Int × Bool :=
  match s with
  | [] => (0, false)
  | c :: cs =>
    let neg := c = '-'
    let body := if c = '+' ∨ c = '-' then cs else c :: cs
    let (un, ok) := parseUint body
    -- a syntax error of ParseUint (value 0) is passed on; a range error (value
    -- maxUint64) falls through to the saturation below
    if !ok && un ≠ maxUint64 then (0, false)
    else if !neg && un ≥ 2 ^ 63 then (2 ^ 63 - 1, false)
    else if neg && un > 2 ^ 63 then (-(2 ^ 63), false)
    else (if neg then -(un : Int) else (un : Int), ok)

/-- Model of `strconv.Atoi` on a 64-bit platform (same values as `ParseInt`). -/
def atoi (s : Str) : Int × Bool := parseInt s

/-! ### The regular expression `CHR.+:\d+` -/

/-- Longest run of decimal digits at the head of the text. -/
def takeDigits : Str → Str
  | [] => []
  | c :: cs => if c.isDigit then c :: takeDigits cs else []

/-- Match of `:\d+` at the head of the text. -/
def matchColonDigits : Str → Option Str
  | ':' :: cs => if (takeDigits cs).isEmpty then none else some (':' :: takeDigits cs)
  | _ => none

/-- Preferred match of `.*:\d+` at the head of the text: the greedy `.` (any character
but a newline) is tried before the colon. -/
def matchDotsColonDigits : Str → Option Str
  | [] => none
  | c :: cs =>
    match (if c = '\n' then none else matchDotsColonDigits cs) with
    | some m => some (c :: m)
    | none => matchColonDigits (c :: cs)

/-- Preferred match of `CHR.+:\d+` at the head of the text. -/
def matchCHR : Str → Option Str
  | 'C' :: 'H' :: 'R' :: c :: cs =>
    if c = '\n' then none
    else (matchDotsColonDigits cs).map (fun m => 'C' :: 'H' :: 'R' :: c :: m)
  | _ => none

/-- Model of `regexp.MustCompile("CHR.+:\\d+").FindString`: the leftmost match, the
empty string when there is none. -/
def findCHR : Str → Str
  | [] => []
  | c :: cs =>
    match matchCHR (c :: cs) with
    | some m => m
    | none => findCHR cs

/-! ## Data model -/

/-- The Go struct `geneRecord`. `exon` and `intron` are `[][]int64`. -/
structure geneRecord where
  exon : List (List Int)
  intron : List (List Int)
  transRegion : Int × Int
  cdsRegion : Int × Int
  chr : Str
  strand : Str
  geneSymbol : Str
deriving DecidableEq

/-- The zero value of `geneRecord`, returned by a map lookup of an absent key. -/
def geneRecord.zero : geneRecord :=
  ⟨[], [], (0, 0), (0, 0), [], [], []⟩

/-- The map `tran2info`, transcript ID to transcript model. -/
abbrev TranInfo := Str → Option geneRecord

/-- The map `gene2tran`, gene symbol to transcript IDs (`none`: absent key, nil slice). -/
abbrev GeneTran := Str → Option (List Str)

/-- Lookup `tran2info[key]`: the zero value for an absent key. -/
def infoOf (m : TranInfo) (key : Str) : geneRecord := (m key).getD geneRecord.zero

/-! ## `breakSearch` and `breakCheck` -/

/-- One of the two loops of `breakSearch` (lines 132-137 and 138-143): the index of
the first interval with `edges[0] <= pos && pos < edges[1]`, counted from `idx`.
`none` is an index-out-of-range panic on a too short `edges`; the second bound is
only read when the first comparison holds. -/
def searchEdges (pos : Int) : List (List Int) → Nat → Option (Option Nat)
  | [], _ => some none
  | edges :: rest, idx =>
    match edges[0]? with
    | none => none
    | some lo =>
      if lo ≤ pos then
        match edges[1]? with
        | none => none
        | some hi => if pos < hi then some (some idx) else searchEdges pos rest (idx + 1)
      else searchEdges pos rest (idx + 1)

/-- The function `breakSearch` (lines 127-145). `none` is a panic. -/
def breakSearch (breakP : Str) (info : geneRecord) : Option (Str × Bool) :=
  let parts := split ':' breakP
  match parts[0]? with
  | none => none
  | some chr =>
    if chr ≠ info.chr then some ([], false)
    else
      match parts[1]? with
      | none => none
      | some posStr =>
        let pos := (parseInt posStr).1
        match searchEdges pos info.exon 0 with
        | none => none
        | some (some idx) => some ("Ex".toList ++ itoa ((idx : Int) + 1), true)
        | some none =>
          match searchEdges pos info.intron 0 with
          | none => none
          | some (some idx) => some ("In".toList ++ itoa ((idx : Int) + 1), true)
          | some none => some ([], false)


/-- The map `locates` of `breakCheck`, keys to location strings; an absent key reads
as the empty string. -/
abbrev Locates := List (Str × Str)

/-- Lookup `locates[key]`. -/
def locGet (m : Locates) (key : Str) : Str :=
  match m with
  | [] => []
  | (k, v) :: rest => if k = key then v else locGet rest key

/-- Assignment `locates[key] = v`. -/
def locPut (m : Locates) (key v : Str) : Locates :=
  (key, v) :: m.filter (fun kv => kv.1 ≠ key)

/-- The function `breakCheck` (lines 147-177): the map of locations, the verdict
(right, wrong or the empty string) and whether the returned error is nil. `none` is
a panic of one of the four `breakSearch` calls. -/
def breakCheck (breakA breakB transA transB : Str) (tran2info : TranInfo) :
    Option (Locates × Str × Bool) :=
  let infoA := infoOf tran2info transA
  let infoB := infoOf tran2info transB
  match breakSearch breakA infoA with
  | none => none
  | some (locAinA, AinA) =>
  match breakSearch breakA infoB with
  | none => none
  | some (locAinB, AinB) =>
  match breakSearch breakB infoB with
  | none => none
  | some (locBinB, BinB) =>
  match breakSearch breakB infoA with
  | none => none
  | some (locBinA, BinA) =>
    if AinA && BinB then
      some (locPut (locPut [] "breakA".toList locAinA) "breakB".toList locBinB,
        "right".toList, true)
    else if AinB && BinA then
      some (locPut (locPut [] "breakA".toList locAinB) "breakB".toList locBinA,
        "wrong".toList, true)
    else some ([], [], false)

/-- The function `reverse` (lines 179-187). -/
def reverse (ori : Str) : Str :=
  if ori = ">".toList then "<".toList
  else if ori = "<".toList then ">".toList
  else ori

/-- The function `geneRep` (lines 189-193). -/
def geneRep (str geneA geneB : Str) : Str :=
  replaceAll (replaceAll str "GENE_A".toList geneA) "GENE_B".toList geneB


/-! ## The record reader's data (package `vcfgo`, external) -/

/-- A value returned by `variant.Info().Get(key)`, of static type `interface{}`. -/
inductive InfoVal
  | absent
  | str (s : Str)
  | strs (l : List Str)
  | other
deriving DecidableEq

/-- The fields of a sample that the program reads; an absent field is the empty
string. -/
structure Sample where
  PE : Str
  SR : Str
deriving DecidableEq

/-- The parts of a `*vcfgo.Variant` that the program reads. `End` is the value of
`uint64(variant.End())`, `SECONDARY` whether the info field SECONDARY compares equal
to `true`. -/
structure Variant where
  Chromosome : Str
  Pos : Nat
  End : Nat
  Id : Str
  Alt : List Str
  ANN : InfoVal
  SVTYPE : InfoVal
  SECONDARY : Bool
  Samples : List Sample
deriving DecidableEq

/-- A value of the override map `targetTrans`, of type `map[string]interface{}`:
`null` stands for an absent key or a nil value. -/
inductive JVal
  | null
  | str (s : Str)
  | other
deriving DecidableEq

/-- What a call of `recordParser` does: return a line with a nil error, return an
error, or panic. -/
inductive Res (α : Type)
  | ok (a : α)
  | error (msg : Str)
  | panic
deriving DecidableEq

/-! ## `recordParser` -/

/-- The array `orientation` of type `[4]string`. -/
structure Ori where
  s0 : Str
  s1 : Str
  s2 : Str
  s3 : Str
deriving DecidableEq

/-- The zero value `[4]string{}`. -/
def Ori.empty : Ori := ⟨[], [], [], []⟩

/-- Read `o[i]`; `none` is an index-out-of-range panic. -/
def Ori.get? (o : Ori) : Nat → Option Str
  | 0 => some o.s0
  | 1 => some o.s1
  | 2 => some o.s2
  | 3 => some o.s3
  | _ => none

/-- Write `o[i] = v` for an index in range. -/
def Ori.set (o : Ori) (i : Nat) (v : Str) : Ori :=
  match i with
  | 0 => { o with s0 := v }
  | 1 => { o with s1 := v }
  | 2 => { o with s2 := v }
  | 3 => { o with s3 := v }
  | _ => o

/-- The index-value pairs visited by `for idx, val := range o` (the array is copied
when the loop starts). -/
def Ori.enum (o : Ori) : List (Nat × Str) := [(0, o.s0), (1, o.s1), (2, o.s2), (3, o.s3)]

/-- Build an orientation tuple from its four slots. -/
def mkOri (a b c d : String) : Ori := ⟨a.toList, b.toList, c.toList, d.toList⟩

/-- The orientation template of a BND record (lines 215-248), from the ALT text. -/
def bndOrientation (alt : Str) : Ori :=
  if contains alt "[".toList then
    if (split '[' alt)[0]? = some [] then mkOri "GENE_B" "<" "GENE_A" ">"
    else mkOri "GENE_A" ">" "GENE_B" ">"
  else if contains alt "]".toList then
    if (split ']' alt)[0]? = some [] then mkOri "GENE_B" ">" "GENE_A" ">"
    else mkOri "GENE_A" ">" "GENE_B" "<"
  else Ori.empty

/-- The orientation template and the rewritten SV type of the other record types
(lines 254-317), from the comparison `posA > posB` and the SV type. -/
def intraOrientation (posA posB : Nat) (svtype : Str) : Ori × Str :=
  if posA > posB then
    if svtype = "INV_1".toList then (mkOri "GENE_A" ">" "GENE_B" "<", "INV".toList)
    else if svtype = "INV_2".toList then (mkOri "GENE_A" "<" "GENE_B" ">", "INV".toList)
    else if svtype = "DEL".toList then (mkOri "GENE_B" ">" "GENE_A" ">", svtype)
    else if svtype = "DUP".toList then (mkOri "GENE_A" ">" "GENE_B" ">", svtype)
    else (Ori.empty, svtype)
  else
    if svtype = "INV_1".toList then (mkOri "GENE_B" ">" "GENE_A" "<", "INV".toList)
    else if svtype = "INV_2".toList then (mkOri "GENE_B" "<" "GENE_A" ">", "INV".toList)
    else if svtype = "DEL".toList then (mkOri "GENE_A" ">" "GENE_B" ">", svtype)
    else if svtype = "DUP".toList then (mkOri "GENE_B" ">" "GENE_A" ">", svtype)
    else (Ori.empty, svtype)

/-- The hypothesis of a record: breakpoints, orientation template and SV type as
they stand after lines 206-318. -/
structure Hypothesis where
  breakA : Str
  breakB : Str
  orientation : Ori
  svtype : Str
deriving DecidableEq

/-- Lines 206-318 of `recordParser`. `none` is the panic of `variant.Alt()[0]` on a
BND record without ALT. -/
def hypothesisOf (variant : Variant) (svtype : Str) : Option Hypothesis :=
  if svtype = "BND".toList then
    match variant.Alt[0]? with
    | none => none
    | some alt =>
      some {
        breakA := join ":".toList [variant.Chromosome, formatUint variant.Pos]
        breakB := replaceFirst "CHR".toList "chr".toList (findCHR alt)
        orientation := bndOrientation alt
        svtype := svtype }
  else
    let posA := variant.Pos
    let posB := variant.End
    some {
      breakA := join ":".toList [variant.Chromosome, formatUint posA]
      breakB := join ":".toList [variant.Chromosome, formatUint variant.End]
      orientation := (intraOrientation posA posB svtype).1
      svtype := (intraOrientation posA posB svtype).2 }

/-- Lines 328-336: the annotation text that is parsed, the value itself or the
first of several. `none` is the panic of `annObj[0]`. -/
def annTargetOf : InfoVal → Option Str
  | .str s => some s
  | .strs (a :: _) => some a
  | _ => none

/-- Lines 345-355 (and 356-366): the transcript of a gene symbol, from the override
map first, then from the first entry of `gene2tran`. -/
def selectTrans (targetTrans : Str → JVal) (gene2tran : GeneTran) (gene : Str) : Res Str :=
  match targetTrans gene with
  | .str t => .ok t
  | .other => .panic
  | .null =>
    match gene2tran gene with
    | some (t :: _) => .ok t
    | some [] => .panic
    | none => .error "No Gene Symbol Found".toList

/-- One of the two loops of lines 394-407: for every slot of the copied array that
holds `gene`, the direction in the next slot of `modOri` is reversed. -/
def flipAfter (gene : Str) (orig : Ori) (modOri : Ori) : Option Ori :=
  orig.enum.foldlM
    (fun cur iv =>
      if iv.2 = gene then (cur.get? (iv.1 + 1)).map (fun d => cur.set (iv.1 + 1) (reverse d))
      else some cur)
    modOri

/-- Strand correction, lines 392-407. -/
def strandCorrect (strandA strandB : Str) (orientation : Ori) : Option Ori :=
  let modOri := orientation
  match (if strandA = "-".toList then flipAfter "GENE_A".toList modOri modOri
         else some modOri) with
  | none => none
  | some modOri =>
    if strandB = "-".toList then flipAfter "GENE_B".toList modOri modOri else some modOri

/-- Two-complement wrap-around of an `int` (64 bits). -/
def wrapInt64 (x : Int) : Int := (x + 2 ^ 63) % 2 ^ 64 - 2 ^ 63

/-- One iteration of the loop of lines 419-441. -/
def promoteStep (modOri : Ori) (locates : Locates) (iv : Nat × Str) : Option Locates :=
  let val := iv.2
  if contains val "GENE".toList then
    let key := join [] ["break".toList, val.drop (val.length - 1)]
    let locate := locGet locates key
    if contains locate "In".toList then
      let num := (atoi (locate.drop 2)).1
      match modOri.get? (iv.1 + 1) with
      | none => none
      | some d =>
        let num := if d = ">".toList then wrapInt64 (num + 1) else num
        some (locPut locates key (join [] ["Ex".toList, itoa num]))
    else if contains locate "Ex".toList then
      some (locPut locates key (join [] [locate, "*".toList]))
    else some locates
  else some locates

/-- The loop of lines 419-441: intron locations are renumbered to exons, exon
locations get a star. -/
def promote (modOri : Ori) (locates : Locates) : Option Locates :=
  modOri.enum.foldlM (promoteStep modOri) locates

/-- Lookup in one of the two-entry maps `transMap` and `locMap` (lines 455-462). -/
def pairMapGet (forA forB key : Str) : Str :=
  if key = "GENE_A".toList then forA else if key = "GENE_B".toList then forB else []

/-- Lines 445-452: the fused gene name. -/
def fuseGeneOf (modOri : Ori) (geneA geneB : Str) : Str :=
  let fuseGene :=
    if modOri.s1 = ">".toList then join "-".toList [modOri.s0, modOri.s2]
    else if modOri.s1 = "<".toList then join "-".toList [modOri.s2, modOri.s0]
    else []
  geneRep fuseGene geneA geneB

/-- One side of the detail string: placeholder, transcript and location joined by
colons (lines 466, 467, 471, 472). -/
def detailSide (slot transA transB : Str) (locates : Locates) : Str :=
  join ":".toList [slot, pairMapGet transA transB slot,
    pairMapGet (locGet locates "breakA".toList) (locGet locates "breakB".toList) slot]

/-- Lines 454-475: the detail string. -/
def fuseDetailOf (modOri : Ori) (geneA geneB transA transB : Str) (locates : Locates) : Str :=
  let fuseDetail :=
    if modOri.s1 = ">".toList then
      join ">".toList [detailSide modOri.s0 transA transB locates,
        detailSide modOri.s2 transA transB locates]
    else if modOri.s1 = "<".toList then
      join ">".toList [detailSide modOri.s2 transA transB locates,
        detailSide modOri.s0 transA transB locates]
    else []
  geneRep fuseDetail geneA geneB

/-- The seven fields of an output line (lines 477-485). -/
def outStrList (fuseGene fuseDetail svtype callID breakA breakB pe sr : Str) : List Str :=
  [fuseGene, fuseDetail, svtype, callID, breakA, breakB, join ":".toList [pe, sr]]

/-- Lines 373-493 of `recordParser`: reconciliation, swap, strand correction,
consistency test and formatting, once breakpoints, template, genes and transcripts
are known. -/
def resolve (h : Hypothesis) (pe sr callID geneA geneB transA transB : Str)
    (tran2info : TranInfo) : Res Str :=
  let strandA := (infoOf tran2info transA).strand
  let strandB := (infoOf tran2info transB).strand
  match breakCheck h.breakA h.breakB transA transB tran2info with
  | none => .panic
  | some (locates, consist, ok) =>
    if !ok then .error "Not Fusion".toList
    else
      let wrong := consist = "wrong".toList
      let geneA1 := if wrong then geneB else geneA
      let geneB1 := if wrong then geneA else geneB
      let transA1 := if wrong then transB else transA
      let transB1 := if wrong then transA else transB
      let strandA1 := if wrong then strandB else strandA
      let strandB1 := if wrong then strandA else strandB
      match strandCorrect strandA1 strandB1 h.orientation with
      | none => .panic
      | some modOri =>
        if modOri.s1 = modOri.s3 then
          match promote modOri locates with
          | none => .panic
          | some locates1 =>
            .ok (join "\t".toList
              (outStrList (fuseGeneOf modOri geneA1 geneB1)
                (fuseDetailOf modOri geneA1 geneB1 transA1 transB1 locates1)
                h.svtype callID h.breakA h.breakB pe sr))
        else .error "Not Invalid fusion".toList

/-- The function `recordParser` (lines 195-494). -/
def recordParser (variant : Variant) (svtype : Str) (tran2info : TranInfo)
    (gene2tran : GeneTran) (targetTrans : Str → JVal) : Res Str :=
  match hypothesisOf variant svtype with
  | none => .panic
  | some h =>
  match variant.Samples[0]? with
  | none => .panic
  | some sample =>
  let callID := variant.Id
  match annTargetOf variant.ANN with
  | none => .panic
  | some annTarget =>
  match (split '|' annTarget)[3]? with
  | none => .panic
  | some cell =>
    if contains cell "&".toList then
      match (split '&' cell)[0]?, (split '&' cell)[1]? with
      | some geneA, some geneB =>
        match selectTrans targetTrans gene2tran geneA with
        | .panic => .panic
        | .error e => .error e
        | .ok transA =>
          match selectTrans targetTrans gene2tran geneB with
          | .panic => .panic
          | .error e => .error e
          | .ok transB =>
            resolve h sample.PE sample.SR callID geneA geneB transA transB tran2info
      | _, _ => .panic
    else .error "Fusion within single gene".toList


/-! ## `run` -/

/-- What `run` leaves behind: the lines written to the output (each is flushed as
soon as it is written) and whether the process ended in a panic. -/
structure RunOut where
  lines : List Str
  panicked : Bool
deriving DecidableEq

/-- The text written for one call of `recordParser` (lines 544-552, 554-562,
566-574): the line and a newline when the error is nil, nothing otherwise. -/
def written : Res Str → List Str
  | .ok outLine => [join [] [outLine, "\n".toList]]
  | _ => []

/-- Put the lines already written in front of what the rest of the loop does. -/
def RunOut.after (pre : List Str) (r : RunOut) : RunOut := ⟨pre ++ r.lines, r.panicked⟩

/-- The record loop of `run` (lines 531-578) over the records that the reader
returns, the three maps being loaded. -/
def run (tran2info : TranInfo) (gene2tran : GeneTran) (targetTrans : Str → JVal) :
    List Variant → RunOut
  | [] => ⟨[], false⟩
  | variant :: rest =>
    if variant.SECONDARY then ⟨[], false⟩
    else if variant.SVTYPE = .str "INV".toList then
      match recordParser variant "INV_1".toList tran2info gene2tran targetTrans with
      | .panic => ⟨[], true⟩
      | r1 =>
        match recordParser variant "INV_2".toList tran2info gene2tran targetTrans with
        | .panic => ⟨written r1, true⟩
        | r2 => (run tran2info gene2tran targetTrans rest).after (written r1 ++ written r2)
    else
      match variant.SVTYPE with
      | .str svtype =>
        match recordParser variant svtype tran2info gene2tran targetTrans with
        | .panic => ⟨[], true⟩
        | r => (run tran2info gene2tran targetTrans rest).after (written r)
      | _ => ⟨[], true⟩

/-! ## `getDB` -/

/-- The function `string2int` (lines 39-49): the numbers parsed before the first
error, and whether the returned error is nil. -/
def string2int : List Str → List Int × Bool
  | [] => ([], true)
  | a :: rest =>
    if (parseInt a).2 then ((parseInt a).1 :: (string2int rest).1, (string2int rest).2)
    else ([], false)

/-- The exchange `a[i], a[opp] = a[opp], a[i]` for indices in range. -/
def swapAt (a : List (List Int)) (i opp : Nat) : List (List Int) :=
  match a[i]?, a[opp]? with
  | some x, some y => (a.set i y).set opp x
  | _, _ => a

/-- The loop of `reverSlice` with `k` iterations left, that is for `i` from `k - 1`
down to 0. -/
def reverSliceLoop (a : List (List Int)) : Nat → List (List Int)
  | 0 => a
  | i + 1 => reverSliceLoop (swapAt a i (a.length - 1 - i)) i

/-- The function `reverSlice` (lines 30-36). -/
def reverSlice (a : List (List Int)) : List (List Int) := reverSliceLoop a (a.length / 2)

/-- One iteration of the loops of lines 98-103 (strand `+`, `rev = false`) and
105-110 (any other strand, `rev = true`). `none` is an index-out-of-range panic. -/
def buildStep (rev : Bool) (exonStarts exonEnds exonFrames : List Int)
    (st : List (List Int) × List (List Int)) (idx : Nat) :
    Option (List (List Int) × List (List Int)) :=
  match exonStarts[idx]?, exonEnds[idx]?, exonFrames[idx]? with
  | some s, some e, some f =>
    let exons := st.1 ++ [[s, e, f]]
    let exons := if rev then reverSlice exons else exons
    if idx ≠ exonStarts.length - 1 then
      match exonStarts[idx + 1]? with
      | none => none
      | some s2 =>
        let introns := st.2 ++ [[e, s2]]
        some (exons, if rev then reverSlice introns else introns)
    else some (exons, st.2)
  | _, _, _ => none

/-- Lines 95-111: the exon and intron lists of a row. -/
def buildExons (strand : Str) (exonStarts exonEnds exonFrames : List Int) :
    Option (List (List Int) × List (List Int)) :=
  (List.range exonStarts.length).foldlM
    (buildStep (strand ≠ "+".toList) exonStarts exonEnds exonFrames) ([], [])

/-- Assignment `m[key] = v` in a map. -/
def mapPut {V : Type} (m : Str → Option V) (key : Str) (v : V) : Str → Option V :=
  fun k => if k = key then some v else m k

/-- The body of the row loop of `getDB` (lines 66-122) on one line of the file.
`none` is an index-out-of-range panic. -/
def getDBRow (db : TranInfo × GeneTran) (line : Str) : Option (TranInfo × GeneTran) := do
  let tran2info := db.1
  let gene2tran := db.2
  let cols := split '\t' (trimSpace line)
  let trans ← cols[1]?
  let gene ← cols[12]?
  let gene2tran :=
    if (tran2info gene).isSome then mapPut gene2tran gene [trans]
    else mapPut gene2tran gene (((gene2tran gene).getD []) ++ [trans])
  let strand ← cols[3]?
  let chr ← cols[2]?
  let start := (parseInt (← cols[4]?)).1
  let stop := (parseInt (← cols[5]?)).1
  let transRegion := (start, stop)
  let start := (parseInt (← cols[6]?)).1
  let stop := (parseInt (← cols[7]?)).1
  let cdsRegion := (start, stop)
  let exonStarts := (string2int (split ',' (← cols[9]?))).1
  let exonEnds := (string2int (split ',' (← cols[10]?))).1
  let exonFrames := (string2int (split ',' (← cols[15]?))).1
  let (exons, introns) ← buildExons strand exonStarts exonEnds exonFrames
  let record : geneRecord :=
    { exon := exons, intron := introns, transRegion := transRegion,
      cdsRegion := cdsRegion, chr := chr, strand := strand, geneSymbol := gene }
  pure (mapPut tran2info trans record, gene2tran)

/-- The lines that `buf.ReadString` returns without error: every text that ends in
a newline; an unterminated last line is not processed. -/
def readLines (content : Str) : List Str :=
  ((split '\n' content).dropLast).map (fun l => l ++ ['\n'])

/-- The function `getDB` (lines 51-125) on the content of the annotation file. -/
def getDB (content : Str) : Option (TranInfo × GeneTran) :=
  (readLines content).foldlM getDBRow (fun _ => none, fun _ => none)


/-! ## Reference definitions taken from the specification -/

/-- Half-open containment test `start <= pos < end` of the specification, on an
interval stored as a list that begins with its two bounds. -/
def inside (pos : Int) (edges : List Int) : Bool :=
  match edges with
  | lo :: hi :: _ => decide (lo ≤ pos) && decide (pos < hi)
  | _ => false

/-- Reference definition `locate` of the specification (section 4.2): not-found on
another chromosome, else the first exon that contains the position, else the first
intron that contains it, else not-found. Locations are 1-based. -/
def locate (chr : Str) (pos : Int) (info : geneRecord) : Str × Bool :=
  if chr ≠ info.chr then ([], false)
  else
    match info.exon.findIdx? (inside pos) with
    | some i => ("Ex".toList ++ itoa ((i : Int) + 1), true)
    | none =>
      match info.intron.findIdx? (inside pos) with
      | some j => ("In".toList ++ itoa ((j : Int) + 1), true)
      | none => ([], false)

/-- Every interval of the model has its two bounds, as in every model that `getDB`
builds. -/
def wellFormed (info : geneRecord) : Prop :=
  (∀ e ∈ info.exon, 2 ≤ e.length) ∧ (∀ e ∈ info.intron, 2 ≤ e.length)

instance (info : geneRecord) : Decidable (wellFormed info) := by
  unfold wellFormed
  exact inferInstance

/-! ## Auxiliary predicates and the concrete data of the examples -/

/-- A transcript on chr1, strand `+`, with exons [100,200), [300,400), [450,500) and
introns [200,300), [400,450). -/
def txPlus : geneRecord :=
  { exon := [[100, 200, 0], [300, 400, 0], [450, 500, 0]]
    intron := [[200, 300], [400, 450]]
    transRegion := (100, 500)
    cdsRegion := (100, 500)
    chr := "chr1".toList
    strand := "+".toList
    geneSymbol := "G".toList }

/-- A second transcript, on chr5, strand `-`, with exons [500,600), [300,400) in
transcription order and the intron [400,500). -/
def txMinus : geneRecord :=
  { exon := [[500, 600, 0], [300, 400, 0]]
    intron := [[400, 500]]
    transRegion := (300, 600)
    cdsRegion := (300, 600)
    chr := "chr5".toList
    strand := "-".toList
    geneSymbol := "H".toList }

/-- A transcript map with `txPlus` as T1 and `txMinus` as T2. -/
def dbTwo : TranInfo := fun k =>
  if k = "T1".toList then some txPlus
  else if k = "T2".toList then some txMinus
  else none

/-- The placeholders and direction symbols that the orientation templates are made
of; the empty string stands in an array that no template has filled. -/
def geneSlot (g : Str) : Prop := g = "GENE_A".toList ∨ g = "GENE_B".toList ∨ g = []

/-- A direction slot: one of the two direction symbols, or empty. -/
def dirSlot (d : Str) : Prop := d = ">".toList ∨ d = "<".toList ∨ d = []

/-- The shape (gene, dir, gene, dir) of an orientation array. -/
def Ori.shaped (o : Ori) : Prop := geneSlot o.s0 ∧ dirSlot o.s1 ∧ geneSlot o.s2 ∧ dirSlot o.s3

/-- The direction of a slot after strand correction: reversed once for a GENE_A slot
when strand A is `-`, and once for a GENE_B slot when strand B is `-`. -/
def corrDir (strandA strandB gene dir : Str) : Str :=
  let d1 := if strandA = "-".toList ∧ gene = "GENE_A".toList then reverse dir else dir
  if strandB = "-".toList ∧ gene = "GENE_B".toList then reverse d1 else d1

/-- A gene index with gene G on transcript T1 and gene H on transcript T2. -/
def geneIdx : GeneTran := fun g =>
  if g = "G".toList then some ["T1".toList]
  else if g = "H".toList then some ["T2".toList]
  else none

/-- An override map without entries. -/
def noOverride : Str → JVal := fun _ => .null

/-- A BND record at chr1:350 whose mate is chr5:550, annotated with the genes G and
H. -/
def recBND : Variant :=
  { Chromosome := "chr1".toList
    Pos := 350
    End := 350
    Id := "call1".toList
    Alt := ["N]CHR5:550]".toList]
    ANN := .str "N]CHR5:550]|bnd|HIGH|G&H|x".toList
    SVTYPE := .str "BND".toList
    SECONDARY := false
    Samples := [⟨"7".toList, "3".toList⟩] }

/-- An annotation file of one row: transcript T1 of gene G on chr1, strand `-`, with
the three exons [100,200), [300,400), [500,600) in file order. -/
def rowMinus3 : Str :=
  "585\tT1\tchr1\t-\t100\t600\t100\t600\t3\t100,300,500,\t200,400,600,\t0\tG\tcmpl\tcmpl\t0,0,0,\n".toList

/-- The record `recBND` with the SECONDARY flag set. -/
def recSecondary : Variant := { recBND with SECONDARY := true }

/-- A transcript on chr1, strand `+`, whose exon 3 ends at 400, whose intron 3 spans
[400,450) and whose exon 4 starts at 450. -/
def txFour : geneRecord :=
  { exon := [[100, 150, 0], [200, 250, 0], [300, 400, 0], [450, 500, 0]]
    intron := [[150, 200], [250, 300], [400, 450]]
    transRegion := (100, 500)
    cdsRegion := (100, 500)
    chr := "chr1".toList
    strand := "+".toList
    geneSymbol := "G".toList }

/-- The direction that follows the placeholder `gene` in the tuple. -/
def Ori.dirOf (o : Ori) (gene : Str) : Str := if o.s0 = gene then o.s1 else o.s3

/-- The promotion rule of the specification (section 4.5) for one side, `before`
being the reconciled location, `after` the reported one and `d` the corrected
direction of the gene: intron k becomes exon k+1 when `d` is `>` and exon k when
`d` is `<`; exon k gets a star. -/
def PromotedAs (d before after : Str) : Prop :=
  ∀ k : Int, 0 ≤ k → k + 1 < 2 ^ 63 →
    (before = "In".toList ++ itoa k → d = ">".toList → after = "Ex".toList ++ itoa (k + 1)) ∧
    (before = "In".toList ++ itoa k → d = "<".toList → after = "Ex".toList ++ itoa k) ∧
    (before = "Ex".toList ++ itoa k → after = "Ex".toList ++ itoa k ++ "*".toList)

/-- A text without the two placeholder texts. -/
def clean (s : Str) : Prop :=
  contains s "GENE_A".toList = false ∧ contains s "GENE_B".toList = false

/-- One of the two placeholders. -/
def isPlaceholder (p : Str) : Prop := p = "GENE_A".toList ∨ p = "GENE_B".toList

/-- A location map without the letter G in its values. -/
def noG (m : Locates) : Prop := ∀ key, 'G' ∉ locGet m key

/-- One side of the detail string as the specification renders it (section 4.5):
gene symbol, transcript and reported location of the placeholder `p`, joined by
colons. -/
def sideText (geneA geneB transA transB : Str) (locates : Locates) (p : Str) : Str :=
  join ":".toList [pairMapGet geneA geneB p, pairMapGet transA transB p,
    pairMapGet (locGet locates "breakA".toList) (locGet locates "breakB".toList) p]

/-- Transcript selection as the specification states it (sections 3 and 7): the
entry of the override map when there is one, otherwise the first transcript ID of the
gene index; `none` when the gene has an entry in neither map. -/
def chosenTranscript (targetTrans : Str → JVal) (gene2tran : GeneTran) (g : Str) :
    Option Str :=
  match targetTrans g with
  | .str t => some t
  | _ =>
    match gene2tran g with
    | some (t :: _) => some t
    | _ => none

/-- An override map whose only entry sends gene G to transcript T2. -/
def overrideG : Str → JVal := fun g => if g = "G".toList then .str "T2".toList else .null

/-- The record `recBND` annotated with gene G and a gene Z that no map knows. -/
def recAbsent : Variant := { recBND with ANN := .str "N]CHR5:550]|bnd|HIGH|G&Z|x".toList }

/-- Scenario A, transcript of gene X: chr1, strand `+`, exon 2 spans [200,300). -/
def txX : geneRecord :=
  { exon := [[100, 150, 0], [200, 300, 0]]
    intron := [[150, 200]]
    transRegion := (100, 300)
    cdsRegion := (100, 300)
    chr := "chr1".toList
    strand := "+".toList
    geneSymbol := "X".toList }

/-- Scenario A, transcript of gene Y: chr5, strand `-`, exon 1 spans [500,600). -/
def txY : geneRecord :=
  { exon := [[500, 600, 0], [300, 400, 0]]
    intron := [[400, 500]]
    transRegion := (300, 600)
    cdsRegion := (300, 600)
    chr := "chr5".toList
    strand := "-".toList
    geneSymbol := "Y".toList }

/-- Scenario A, the transcript map. -/
def dbA : TranInfo := fun k =>
  if k = "transcriptX".toList then some txX
  else if k = "transcriptY".toList then some txY
  else none

/-- Scenario A, the gene index. -/
def geneIdxA : GeneTran := fun g =>
  if g = "X".toList then some ["transcriptX".toList]
  else if g = "Y".toList then some ["transcriptY".toList]
  else none

/-- Scenario A, the BND record at chr1:250 with the given ALT text and the ANN gene
field X&Y. -/
def recA (alt : String) : Variant :=
  { Chromosome := "chr1".toList
    Pos := 250
    End := 250
    Id := "callA".toList
    Alt := [alt.toList]
    ANN := .str "T|bnd|HIGH|X&Y|x".toList
    SVTYPE := .str "BND".toList
    SECONDARY := false
    Samples := [⟨"5".toList, "2".toList⟩] }

/-- An INV record on chr1 from 150 to 350, annotated with the genes G and H. -/
def recINV : Variant :=
  { Chromosome := "chr1".toList
    Pos := 150
    End := 350
    Id := "call2".toList
    Alt := ["<INV>".toList]
    ANN := .str "<INV>|inv|HIGH|G&H|x".toList
    SVTYPE := .str "INV".toList
    SECONDARY := false
    Samples := [⟨"4".toList, "1".toList⟩] }

/-- A transcript map with `txPlus` as T1 and, as T2, the same exons read on the `-`
strand. -/
def dbInv : TranInfo := fun k =>
  if k = "T1".toList then some txPlus
  else if k = "T2".toList then some { txPlus with strand := "-".toList }
  else none

/-! ## The fields of an annotation row and the file order of its intervals -/

/-- The columns of an annotation line, as `getDB` splits it (lines 66-67). -/
def rowCols (line : Str) : List Str := split '\t' (trimSpace line)

/-- Column 1 of a row, the transcript ID. -/
def rowTrans (line : Str) : Str := (rowCols line).getD 1 []

/-- Column 12 of a row, the gene symbol. -/
def rowGene (line : Str) : Str := (rowCols line).getD 12 []

/-- Column 2 of a row, the chromosome. -/
def rowChr (line : Str) : Str := (rowCols line).getD 2 []

/-- Column 3 of a row, the strand. -/
def rowStrand (line : Str) : Str := (rowCols line).getD 3 []

/-- Columns 4 and 5 of a row, the transcribed region. -/
def rowTransRegion (line : Str) : Int × Int :=
  ((parseInt ((rowCols line).getD 4 [])).1, (parseInt ((rowCols line).getD 5 [])).1)

/-- Columns 6 and 7 of a row, the coding region. -/
def rowCdsRegion (line : Str) : Int × Int :=
  ((parseInt ((rowCols line).getD 6 [])).1, (parseInt ((rowCols line).getD 7 [])).1)

/-- Column 9 of a row, the exon starts that `string2int` parses. -/
def rowStarts (line : Str) : List Int := (string2int (split ',' ((rowCols line).getD 9 []))).1

/-- Column 10 of a row, the exon ends. -/
def rowEnds (line : Str) : List Int := (string2int (split ',' ((rowCols line).getD 10 []))).1

/-- Column 15 of a row, the reading frames. -/
def rowFrames (line : Str) : List Int := (string2int (split ',' ((rowCols line).getD 15 []))).1

/-- Exon number `idx` (from 0) of a row in file order: start, end and frame. -/
def fileExon (starts ends frames : List Int) (idx : Nat) : List Int :=
  [starts.getD idx 0, ends.getD idx 0, frames.getD idx 0]

/-- Intron number `idx` (from 0) of a row in file order: the gap between exon `idx`
and exon `idx + 1`. -/
def fileIntron (starts ends : List Int) (idx : Nat) : List Int :=
  [ends.getD idx 0, starts.getD (idx + 1) 0]

/-- The exons of a row in file order. -/
def fileExons (starts ends frames : List Int) : List (List Int) :=
  (List.range starts.length).map (fileExon starts ends frames)

/-- The introns of a row in file order. -/
def fileIntrons (starts ends : List Int) : List (List Int) :=
  (List.range (starts.length - 1)).map (fileIntron starts ends)

/-- The order in which the loop of lines 105-110 leaves a list: the list is reversed
after every append. -/
def minusOrder (l : List (List Int)) : List (List Int) :=
  l.foldl (fun acc x => (acc ++ [x]).reverse) []

/-- The order of a built list: file order on strand `+` (`rev = false`), the order
`minusOrder` otherwise. -/
def builtOrder (rev : Bool) (l : List (List Int)) : List (List Int) :=
  if rev then minusOrder l else l

/-- The two maps before the first row is read. -/
def emptyDB : TranInfo × GeneTran := (fun _ => none, fun _ => none)

/-- An annotation file of one row: transcript T1 of gene G on chr1, strand `-`, with
the two exons [100,200) and [300,400) in file order. -/
def rowMinus2 : Str :=
  "585\tT1\tchr1\t-\t100\t400\t100\t400\t2\t100,300,\t200,400,\t0\tG\tcmpl\tcmpl\t0,0,\n".toList

/-- The row of `rowMinus3` on strand `+`. -/
def rowPlus3 : Str :=
  "585\tT1\tchr1\t+\t100\t600\t100\t600\t3\t100,300,500,\t200,400,600,\t0\tG\tcmpl\tcmpl\t0,0,0,\n".toList

/-- The record `recBND` annotated with the single gene G. -/
def recSingle : Variant := { recBND with ANN := .str "N]CHR5:550]|bnd|HIGH|G|x".toList }

/-- An annotation file of two rows for gene G: the first transcript is itself named G,
the second is T2. -/
def fileGG : Str :=
  ("585\tG\tchr1\t+\t100\t200\t100\t200\t1\t100,\t200,\t0\tG\tcmpl\tcmpl\t0,\n" ++
   "585\tT2\tchr1\t+\t100\t200\t100\t200\t1\t100,\t200,\t0\tG\tcmpl\tcmpl\t0,\n").toList

/-- An annotation file of two rows for gene G, with the transcripts T1 and T2. -/
def fileTG : Str :=
  ("585\tT1\tchr1\t+\t100\t200\t100\t200\t1\t100,\t200,\t0\tG\tcmpl\tcmpl\t0,\n" ++
   "585\tT2\tchr1\t+\t100\t200\t100\t200\t1\t100,\t200,\t0\tG\tcmpl\tcmpl\t0,\n").toList

/-- A filled orientation template: the two placeholders, in either order, each followed
by a direction symbol. -/
def Ori.isTemplate (o : Ori) : Prop :=
  ((o.s0 = "GENE_A".toList ∧ o.s2 = "GENE_B".toList) ∨
    (o.s0 = "GENE_B".toList ∧ o.s2 = "GENE_A".toList)) ∧
  (o.s1 = ">".toList ∨ o.s1 = "<".toList) ∧ (o.s3 = ">".toList ∨ o.s3 = "<".toList)

/-- The strand of side A after the swap of lines 386-390: the strand of the transcript
of gene B when the verdict of `breakCheck` is wrong, of gene A otherwise. -/
def postStrandA (tran2info : TranInfo) (transA transB consist : Str) : Str :=
  if consist = "wrong".toList then (infoOf tran2info transB).strand
  else (infoOf tran2info transA).strand

/-- The strand of side B after the swap of lines 386-390. -/
def postStrandB (tran2info : TranInfo) (transA transB consist : Str) : Str :=
  if consist = "wrong".toList then (infoOf tran2info transA).strand
  else (infoOf tran2info transB).strand

/-- Both strands are `-`, or neither is. -/
def sameStrand (strandA strandB : Str) : Prop :=
  strandA = "-".toList ↔ strandB = "-".toList

/-- A gene index in which a gene carries the name GENE_B: it is on transcript T1, the
gene H on transcript T2. -/
def geneIdxP : GeneTran := fun g =>
  if g = "GENE_B".toList then some ["T1".toList]
  else if g = "H".toList then some ["T2".toList]
  else none

/-- The record `recINV` annotated with the genes GENE_B and H. -/
def recInvP : Variant := { recINV with ANN := .str "<INV>|inv|HIGH|GENE_B&H|x".toList }

/-- The record `recBND` annotated with the genes H and G, in this order: breakpoint A
lies in the transcript of the second gene. -/
def recSwap : Variant := { recBND with ANN := .str "N]CHR5:550]|bnd|HIGH|H&G|x".toList }

/-- The record `recBND` annotated with the genes H and GENE_B, in this order. -/
def recSwapP : Variant := { recBND with ANN := .str "N]CHR5:550]|bnd|HIGH|H&GENE_B|x".toList }

/-- The record `recBND` annotated with the genes GENE_B and H. -/
def recBndP : Variant := { recBND with ANN := .str "N]CHR5:550]|bnd|HIGH|GENE_B&H|x".toList }

/-- The record `recBND` with an ALT text that has no bracket. -/
def recNoBracket : Variant := { recBND with Alt := ["<CHR5:550>".toList] }

/-- The text of one side of the detail string: gene symbol, transcript ID and
location joined by colons. -/
def sideOf (gene trans loc : Str) : Str := join ":".toList [gene, trans, loc]

/-- The direction of a placeholder after correction with the strand of one
transcript: reversed when the strand is `-`. -/
def dirWith (strand dir : Str) : Str := if strand = "-".toList then reverse dir else dir

/-! ## Lemmas on the library models -/

theorem split_of_not_mem (sep : Char) (s : Str) (h : sep ∉ s) : split sep s = [s] := by
  induction s with
  | nil => rfl
  | cons c cs ih =>
    have hc : c ≠ sep := fun e => h (by simp [e])
    have hcs : sep ∉ cs := fun e => h (by simp [e])
    simp [split, hc, ih hcs]

theorem split_append_sep (sep : Char) (a b : Str) (h : sep ∉ a) :
    split sep (a ++ sep :: b) = a :: split sep b := by
  induction a with
  | nil => simp [split]
  | cons c cs ih =>
    have hc : c ≠ sep := fun e => h (by simp [e])
    have hcs : sep ∉ cs := fun e => h (by simp [e])
    simp [split, hc, ih hcs]

theorem digitChar_isDigit (d : Nat) (h : d < 10) : (digitChar d).isDigit = true := by
  interval_cases d <;> decide

theorem digitChar_toNat (d : Nat) (h : d < 10) : (digitChar d).toNat - 48 = d := by
  interval_cases d <;> decide

theorem natDigits_ne_nil (fuel n : Nat) : natDigits (fuel + 1) n ≠ [] := by
  unfold natDigits
  split <;> simp

theorem natDigits_isDigit (fuel n : Nat) : ∀ c ∈ natDigits fuel n, c.isDigit = true := by
  induction fuel generalizing n with
  | zero => simp [natDigits]
  | succ k ih =>
    intro c hc
    unfold natDigits at hc
    split at hc
    · simp at hc
      subst hc
      exact digitChar_isDigit n (by omega)
    · simp at hc
      rcases hc with hc | hc
      · exact ih _ c hc
      · subst hc
        exact digitChar_isDigit _ (Nat.mod_lt _ (by omega))


theorem parseUintLoop_snoc (xs : Str) (d acc : Nat) (hd : d < 10) :
    parseUintLoop (xs ++ [digitChar d]) acc =
      if (parseUintLoop xs acc).2 then
        if (parseUintLoop xs acc).1 ≥ maxUint64 / 10 + 1 then (maxUint64, false)
        else if (parseUintLoop xs acc).1 * 10 + d > maxUint64 then (maxUint64, false)
        else ((parseUintLoop xs acc).1 * 10 + d, true)
      else parseUintLoop xs acc := by
  induction xs generalizing acc with
  | nil =>
    simp [parseUintLoop, digitChar_isDigit d hd, digitChar_toNat d hd]
  | cons c cs ih =>
    simp only [List.cons_append, parseUintLoop]
    by_cases hc : c.isDigit = true
    · simp only [hc, Bool.not_true, Bool.false_eq_true, if_false]
      by_cases h1 : acc ≥ maxUint64 / 10 + 1
      · simp [h1]
      · simp only [h1, if_false]
        by_cases h2 : acc * 10 + (c.toNat - 48) > maxUint64
        · simp [h2]
        · simp only [h2, if_false]
          exact ih _
    · simp [hc]

theorem parseUintLoop_natDigits (fuel n : Nat) (hf : n < fuel) (hn : n ≤ maxUint64) :
    parseUintLoop (natDigits fuel n) 0 = (n, true) := by
  induction fuel generalizing n with
  | zero => omega
  | succ k ih =>
    unfold natDigits
    split
    · rename_i h10
      simp [parseUintLoop, digitChar_isDigit n h10, digitChar_toNat n h10, maxUint64]
      omega
    · rename_i h10
      have hk : n / 10 < k := by omega
      have hm : n / 10 ≤ maxUint64 := by omega
      rw [parseUintLoop_snoc _ _ _ (Nat.mod_lt _ (by omega)), ih _ hk hm]
      have e : n / 10 * 10 + n % 10 = n := by omega
      simp only [e, if_true]
      have h1 : ¬ (n / 10 ≥ maxUint64 / 10 + 1) := by
        simp only [maxUint64] at hn ⊢
        omega
      have h2 : ¬ (n > maxUint64) := by omega
      simp [h1, h2]

theorem parseUint_formatUint (n : Nat) (hn : n ≤ maxUint64) :
    parseUint (formatUint n) = (n, true) := by
  unfold parseUint formatUint
  have he : (natDigits (n + 1) n).isEmpty = false := by
    cases h : natDigits (n + 1) n with
    | nil => exact absurd h (natDigits_ne_nil n n)
    | cons c cs => rfl
  rw [he]
  simpa using parseUintLoop_natDigits (n + 1) n (by omega) hn

theorem formatUint_isDigit (n : Nat) : ∀ c ∈ formatUint n, c.isDigit = true :=
  natDigits_isDigit _ _

theorem formatUint_ne_nil (n : Nat) : formatUint n ≠ [] := natDigits_ne_nil n n

theorem parseInt_formatUint (n : Nat) (hn : n < 2 ^ 63) :
    parseInt (formatUint n) = ((n : Int), true) := by
  have hp := parseUint_formatUint n (by simp only [maxUint64]; omega)
  have hd := formatUint_isDigit n
  cases h : formatUint n with
  | nil => exact absurd h (formatUint_ne_nil n)
  | cons c cs =>
    rw [h] at hp hd
    have hc : c.isDigit = true := hd c (by simp)
    have h1 : c ≠ '-' := by
      intro e; rw [e] at hc; exact absurd hc (by decide)
    have h2 : c ≠ '+' := by
      intro e; rw [e] at hc; exact absurd hc (by decide)
    simp only [parseInt, h1, h2, or_self, if_false, hp]
    have h3 : ¬ (n ≥ 2 ^ 63) := by omega
    simp [h3]
    omega

theorem parseInt_itoa (pos : Int) (hlo : -(2 ^ 63) ≤ pos) (hhi : pos < 2 ^ 63) :
    parseInt (itoa pos) = (pos, true) := by
  unfold itoa
  split
  · rename_i hneg
    have hp := parseUint_formatUint pos.natAbs (by simp only [maxUint64]; omega)
    simp only [parseInt, or_true, if_true, hp]
    have h3 : ¬ (9223372036854775808 < pos.natAbs) := by omega
    have h4 : -((pos.natAbs : Nat) : Int) = pos := by omega
    simp only [Bool.not_true, Bool.false_eq_true, false_and, if_false, decide_True,
      Bool.true_and, gt_iff_lt, Nat.reducePow, decide_eq_true_eq, h3, h4, Bool.false_and]
  · rename_i hneg
    rw [parseInt_formatUint _ (by omega)]
    simp
    omega

theorem itoa_chars (n : Int) : ∀ c ∈ itoa n, c.isDigit = true ∨ c = '-' := by
  intro c hc
  unfold itoa at hc
  split at hc
  · simp at hc
    rcases hc with hc | hc
    · exact Or.inr hc
    · exact Or.inl (formatUint_isDigit _ c hc)
  · exact Or.inl (formatUint_isDigit _ c hc)

theorem colon_not_mem_itoa (n : Int) : ':' ∉ itoa n := by
  intro h
  rcases itoa_chars n _ h with h1 | h1
  · exact absurd h1 (by decide)
  · exact absurd h1 (by decide)

theorem searchEdges_eq (pos : Int) (l : List (List Int)) (idx : Nat)
    (h : ∀ e ∈ l, 2 ≤ e.length) :
    searchEdges pos l idx = some (l.findIdx? (inside pos) idx) := by
  induction l generalizing idx with
  | nil => simp [searchEdges]
  | cons e rest ih =>
    have he := h e (by simp)
    have hrest : ∀ e ∈ rest, 2 ≤ e.length := fun x hx => h x (by simp [hx])
    match e, he with
    | lo :: hi :: tl, _ =>
      simp only [searchEdges, List.findIdx?_cons, inside]
      by_cases h1 : lo ≤ pos
      · by_cases h2 : pos < hi
        · simp [h1, h2]
        · simp [h1, h2, ih (idx + 1) hrest]
      · simp [h1, ih (idx + 1) hrest]


/-! ## C1: `breakSearch` refines `locate` -/

/-- C1. `breakSearch` equals the reference definition `locate`: for every breakpoint
text `chr:pos` (a chromosome name without a colon, a position in the `int64` range
written in decimal) and every transcript model whose intervals have their two bounds,
`breakSearch` returns without panic exactly what `locate` prescribes: not-found on
another chromosome, else Ex(i+1) for the first exon with `start <= pos < end`, else
In(j+1) for the first such intron, else not-found. -/
theorem breakSearch_eq_locate (chr : Str) (pos : Int) (info : geneRecord)
    (hchr : ':' ∉ chr) (hlo : -(2 ^ 63) ≤ pos) (hhi : pos < 2 ^ 63)
    (hwf : wellFormed info) :
    breakSearch (chr ++ ':' :: itoa pos) info = some (locate chr pos info) := by
  unfold breakSearch locate
  rw [split_append_sep ':' chr (itoa pos) hchr, split_of_not_mem ':' (itoa pos)
    (colon_not_mem_itoa pos)]
  simp only [List.getElem?_cons_zero, List.getElem?_cons_succ, parseInt_itoa pos hlo hhi,
    searchEdges_eq pos info.exon 0 hwf.1, searchEdges_eq pos info.intron 0 hwf.2]
  by_cases hc : chr = info.chr
  · simp only [hc, ne_eq, not_true_eq_false, if_false]
    cases info.exon.findIdx? (inside pos) <;> cases info.intron.findIdx? (inside pos) <;> rfl
  · simp [hc]

/-- Witness of C1: position 200 is the end of exon 1 and the start of intron 1 of
`txPlus`, and is located in intron 1; position 300 is located in exon 2. -/
theorem breakSearch_eq_locate_witness :
    breakSearch ("chr1".toList ++ ':' :: itoa 200) txPlus
        = some (locate "chr1".toList 200 txPlus) ∧
      locate "chr1".toList 200 txPlus = ("In1".toList, true) ∧
      locate "chr1".toList 300 txPlus = ("Ex2".toList, true) ∧
      locate "chr2".toList 300 txPlus = ([], false) :=
  ⟨breakSearch_eq_locate "chr1".toList 200 txPlus (by decide) (by decide) (by decide)
    (by decide), by decide, by decide, by decide⟩


/-! ## C2: the decision table of `breakCheck` -/

/-- C2. `breakCheck` implements the reconciliation table with its priority. When the
four `breakSearch` calls return (A in tA, A in tB, B in tB, B in tA): if A is found in
tA and B in tB the verdict is right with locations (A in tA, B in tB), whatever the
other two results are; otherwise, if A is found in tB and B in tA the verdict is wrong
with locations (A in tB, B in tA); in every other case an error is returned. -/
theorem breakCheck_table (breakA breakB transA transB : Str) (tran2info : TranInfo)
    (lAA lAB lBB lBA : Str) (AinA AinB BinB BinA : Bool)
    (hAA : breakSearch breakA (infoOf tran2info transA) = some (lAA, AinA))
    (hAB : breakSearch breakA (infoOf tran2info transB) = some (lAB, AinB))
    (hBB : breakSearch breakB (infoOf tran2info transB) = some (lBB, BinB))
    (hBA : breakSearch breakB (infoOf tran2info transA) = some (lBA, BinA)) :
    (AinA = true ∧ BinB = true →
      ∃ locates, breakCheck breakA breakB transA transB tran2info
          = some (locates, "right".toList, true) ∧
        locGet locates "breakA".toList = lAA ∧ locGet locates "breakB".toList = lBB) ∧
    (¬ (AinA = true ∧ BinB = true) → AinB = true ∧ BinA = true →
      ∃ locates, breakCheck breakA breakB transA transB tran2info
          = some (locates, "wrong".toList, true) ∧
        locGet locates "breakA".toList = lAB ∧ locGet locates "breakB".toList = lBA) ∧
    (¬ (AinA = true ∧ BinB = true) → ¬ (AinB = true ∧ BinA = true) →
      ∃ locates verdict, breakCheck breakA breakB transA transB tran2info
          = some (locates, verdict, false)) := by
  refine ⟨?_, ?_, ?_⟩
  · rintro ⟨h1, h2⟩
    refine ⟨locPut (locPut [] "breakA".toList lAA) "breakB".toList lBB, ?_, ?_, ?_⟩
    · simp only [breakCheck, hAA, hAB, hBB, hBA, h1, h2, Bool.and_self, if_true]
    · simp [locGet, locPut]
    · simp [locGet, locPut]
  · intro hn ⟨h1, h2⟩
    have hn2 : (AinA && BinB) = false := by
      cases AinA <;> cases BinB <;> simp_all
    refine ⟨locPut (locPut [] "breakA".toList lAB) "breakB".toList lBA, ?_, ?_, ?_⟩
    · simp only [breakCheck, hAA, hAB, hBB, hBA, h1, h2, hn2, Bool.and_self, if_true,
        Bool.false_eq_true, if_false]
    · simp [locGet, locPut]
    · simp [locGet, locPut]
  · intro hn hm
    have hn2 : (AinA && BinB) = false := by
      cases AinA <;> cases BinB <;> simp_all
    have hm2 : (AinB && BinA) = false := by
      cases AinB <;> cases BinA <;> simp_all
    refine ⟨[], [], ?_⟩
    simp only [breakCheck, hAA, hAB, hBB, hBA, hn2, hm2, Bool.false_eq_true, if_false]

/-- Witness of C2: with the same transcript T1 on both sides, breakpoints chr1:150 and
chr1:350 match both patterns at once; the verdict is right, with locations Ex1 and
Ex2. -/
theorem breakCheck_table_witness :
    ∃ locates, breakCheck "chr1:150".toList "chr1:350".toList "T1".toList "T1".toList dbTwo
        = some (locates, "right".toList, true) ∧
      locGet locates "breakA".toList = "Ex1".toList ∧
      locGet locates "breakB".toList = "Ex2".toList :=
  (breakCheck_table "chr1:150".toList "chr1:350".toList "T1".toList "T1".toList dbTwo
    "Ex1".toList "Ex1".toList "Ex2".toList "Ex2".toList true true true true
    (by decide) (by decide) (by decide) (by decide)).1 ⟨rfl, rfl⟩


/-! ## Lemmas on orientation, strand correction and promotion -/

theorem geneSlot_ne_dir {g d : Str} (hg : geneSlot g) (hd : dirSlot d) (hne : d ≠ []) :
    g ≠ d := by
  rcases hg with h | h | h <;> rcases hd with h2 | h2 | h2 <;> subst h <;> subst h2 <;>
    first
      | exact absurd rfl hne
      | decide

theorem dirSlot_reverse {d : Str} (hd : dirSlot d) : dirSlot (reverse d) := by
  rcases hd with h | h | h <;> subst h
  · exact Or.inr (Or.inl (by decide))
  · exact Or.inl (by decide)
  · exact Or.inr (Or.inr (by decide))

theorem dirSlot_not_gene {d : Str} (hd : dirSlot d) :
    d ≠ "GENE_A".toList ∧ d ≠ "GENE_B".toList ∧ contains d "GENE".toList = false := by
  rcases hd with h | h | h <;> subst h <;> decide

theorem bndOrientation_shaped (alt : Str) : (bndOrientation alt).shaped := by
  unfold bndOrientation
  split_ifs <;> simp [Ori.shaped, geneSlot, dirSlot, mkOri, Ori.empty]

theorem intraOrientation_shaped (posA posB : Nat) (svtype : Str) :
    (intraOrientation posA posB svtype).1.shaped := by
  unfold intraOrientation
  split_ifs <;> simp [Ori.shaped, geneSlot, dirSlot, mkOri, Ori.empty]

theorem hypothesisOf_shaped (variant : Variant) (svtype : Str) (h : Hypothesis)
    (hh : hypothesisOf variant svtype = some h) : h.orientation.shaped := by
  unfold hypothesisOf at hh
  split_ifs at hh
  · cases ha : variant.Alt[0]? with
    | none => simp [ha] at hh
    | some alt =>
      simp only [ha, Option.some.injEq] at hh
      subst hh
      exact bndOrientation_shaped alt
  · simp only [Option.some.injEq] at hh
    subst hh
    exact intraOrientation_shaped _ _ _

/-- The loop of `flipAfter` written out, when the last slot does not hold the gene. -/
theorem flipAfter_eq (gene : Str) (orig m : Ori) (h3 : orig.s3 ≠ gene) :
    flipAfter gene orig m = some
      ⟨m.s0, if orig.s0 = gene then reverse m.s1 else m.s1,
        if orig.s1 = gene then reverse m.s2 else m.s2,
        if orig.s2 = gene then reverse m.s3 else m.s3⟩ := by
  unfold flipAfter Ori.enum
  by_cases h0 : orig.s0 = gene <;> by_cases h1 : orig.s1 = gene <;>
    by_cases h2 : orig.s2 = gene <;>
    simp [List.foldlM, h0, h1, h2, h3, Ori.get?, Ori.set]


theorem corrDir_dirSlot (strandA strandB gene : Str) {d : Str} (hd : dirSlot d) :
    dirSlot (corrDir strandA strandB gene d) := by
  unfold corrDir
  split_ifs
  · exact dirSlot_reverse (dirSlot_reverse hd)
  · exact dirSlot_reverse hd
  · exact dirSlot_reverse hd
  · exact hd

/-- Strand correction never panics on an array of the shape (gene, dir, gene, dir):
the genes stay, each direction is corrected with the strands. -/
theorem strandCorrect_eq (strandA strandB : Str) (o : Ori) (ho : o.shaped) :
    strandCorrect strandA strandB o = some
      ⟨o.s0, corrDir strandA strandB o.s0 o.s1, o.s2, corrDir strandA strandB o.s2 o.s3⟩ := by
  obtain ⟨_, h1, _, h3⟩ := ho
  have n1 := dirSlot_not_gene h1
  have n3 := dirSlot_not_gene h3
  unfold strandCorrect corrDir
  by_cases hA : strandA = "-".toList <;> by_cases hB : strandB = "-".toList
  · have r3 : ¬ (if o.s2 = "GENE_A".toList then reverse o.s3 else o.s3) = "GENE_B".toList := by
      split_ifs
      · exact (dirSlot_not_gene (dirSlot_reverse h3)).2.1
      · exact n3.2.1
    have r1 : ¬ (if o.s0 = "GENE_A".toList then reverse o.s1 else o.s1) = "GENE_B".toList := by
      split_ifs
      · exact (dirSlot_not_gene (dirSlot_reverse h1)).2.1
      · exact n1.2.1
    simp only [hA, hB, if_true, true_and, flipAfter_eq _ o o n3.1, n1.1, if_false]
    rw [flipAfter_eq _ _ _ r3]
    simp only [r1, if_false]
  · simp only [hA, hB, if_true, true_and, false_and, if_false, flipAfter_eq _ o o n3.1, n1.1]
  · simp only [hA, hB, if_true, true_and, false_and, if_false, flipAfter_eq _ o o n3.2.1,
      n1.2.1]
  · simp only [hA, hB, false_and, if_false]

theorem promoteStep_dir (modOri : Ori) (locates : Locates) (i : Nat) {d : Str}
    (hd : dirSlot d) : promoteStep modOri locates (i, d) = some locates := by
  unfold promoteStep
  simp only [(dirSlot_not_gene hd).2.2, Bool.false_eq_true, if_false]

theorem promoteStep_isSome (modOri : Ori) (locates : Locates) (i : Nat) (val : Str)
    (hi : i < 3) : ∃ l, promoteStep modOri locates (i, val) = some l := by
  have hg : ∃ d, modOri.get? (i + 1) = some d := by
    interval_cases i <;> exact ⟨_, rfl⟩
  obtain ⟨d, hd⟩ := hg
  unfold promoteStep
  simp only [hd]
  split_ifs <;> exact ⟨_, rfl⟩

/-- The promotion loop never panics when slots 2 and 4 hold directions. -/
theorem promote_isSome (modOri : Ori) (locates : Locates) (h1 : dirSlot modOri.s1)
    (h3 : dirSlot modOri.s3) : ∃ l, promote modOri locates = some l := by
  obtain ⟨l0, e0⟩ := promoteStep_isSome modOri locates 0 modOri.s0 (by omega)
  obtain ⟨l2, e2⟩ := promoteStep_isSome modOri l0 2 modOri.s2 (by omega)
  refine ⟨l2, ?_⟩
  unfold promote Ori.enum
  simp [List.foldlM, e0, e2, promoteStep_dir _ _ _ h1, promoteStep_dir _ _ _ h3]


/-! ## C3: the consistency test -/

/-- When the record is read without panic and both genes select a transcript,
`recordParser` is `resolve` on the values read. -/
theorem recordParser_eq_resolve (variant : Variant) (svtype : Str) (tran2info : TranInfo)
    (gene2tran : GeneTran) (targetTrans : Str → JVal) (h : Hypothesis) (sample : Sample)
    (annTarget cell geneA geneB transA transB : Str)
    (hh : hypothesisOf variant svtype = some h)
    (hs : variant.Samples[0]? = some sample)
    (ha : annTargetOf variant.ANN = some annTarget)
    (hc : (split '|' annTarget)[3]? = some cell)
    (hamp : contains cell "&".toList = true)
    (hgA : (split '&' cell)[0]? = some geneA)
    (hgB : (split '&' cell)[1]? = some geneB)
    (htA : selectTrans targetTrans gene2tran geneA = .ok transA)
    (htB : selectTrans targetTrans gene2tran geneB = .ok transB) :
    recordParser variant svtype tran2info gene2tran targetTrans
      = resolve h sample.PE sample.SR variant.Id geneA geneB transA transB tran2info := by
  unfold recordParser
  simp only [hh, hs, ha, hc, hamp, hgA, hgB, htA, htB, if_true]

/-- C3. Consistency test. For every record that is read without panic, whose gene pair
resolves to two transcripts and whose breakpoints reconcile, strand correction of the
orientation template (with the strands taken after the swap) yields a tuple `modOri`,
and `recordParser` returns an output line if and only if slot 2 of `modOri` equals
slot 4; when they differ it returns the error Not Invalid fusion and no line. -/
theorem recordParser_consistency (variant : Variant) (svtype : Str) (tran2info : TranInfo)
    (gene2tran : GeneTran) (targetTrans : Str → JVal) (h : Hypothesis) (sample : Sample)
    (annTarget cell geneA geneB transA transB : Str) (locates : Locates) (consist : Str)
    (hh : hypothesisOf variant svtype = some h)
    (hs : variant.Samples[0]? = some sample)
    (ha : annTargetOf variant.ANN = some annTarget)
    (hc : (split '|' annTarget)[3]? = some cell)
    (hamp : contains cell "&".toList = true)
    (hgA : (split '&' cell)[0]? = some geneA)
    (hgB : (split '&' cell)[1]? = some geneB)
    (htA : selectTrans targetTrans gene2tran geneA = .ok transA)
    (htB : selectTrans targetTrans gene2tran geneB = .ok transB)
    (hbc : breakCheck h.breakA h.breakB transA transB tran2info
      = some (locates, consist, true)) :
    ∃ modOri,
      strandCorrect
          (if consist = "wrong".toList then (infoOf tran2info transB).strand
            else (infoOf tran2info transA).strand)
          (if consist = "wrong".toList then (infoOf tran2info transA).strand
            else (infoOf tran2info transB).strand)
          h.orientation = some modOri ∧
      ((∃ line, recordParser variant svtype tran2info gene2tran targetTrans = .ok line)
        ↔ modOri.s1 = modOri.s3) ∧
      (modOri.s1 ≠ modOri.s3 →
        recordParser variant svtype tran2info gene2tran targetTrans
          = .error "Not Invalid fusion".toList) := by
  have hshape := hypothesisOf_shaped variant svtype h hh
  rw [recordParser_eq_resolve variant svtype tran2info gene2tran targetTrans h sample
    annTarget cell geneA geneB transA transB hh hs ha hc hamp hgA hgB htA htB]
  obtain ⟨modOri, hsc, hd1, hd3⟩ : ∃ m, strandCorrect
      (if consist = "wrong".toList then (infoOf tran2info transB).strand
        else (infoOf tran2info transA).strand)
      (if consist = "wrong".toList then (infoOf tran2info transA).strand
        else (infoOf tran2info transB).strand) h.orientation = some m ∧
      dirSlot m.s1 ∧ dirSlot m.s3 :=
    ⟨_, strandCorrect_eq _ _ h.orientation hshape, corrDir_dirSlot _ _ _ hshape.2.1,
      corrDir_dirSlot _ _ _ hshape.2.2.2⟩
  refine ⟨modOri, hsc, ?_, ?_⟩
  · simp only [resolve, hbc, hsc, Bool.not_true, Bool.false_eq_true, if_false]
    constructor
    · rintro ⟨line, hl⟩
      by_contra hne
      simp only [hne, if_false] at hl
      exact Res.noConfusion hl
    · intro heq
      obtain ⟨l, hp⟩ := promote_isSome modOri locates hd1 hd3
      rw [if_pos heq, hp]
      exact ⟨_, rfl⟩
  · intro hne
    simp only [resolve, hbc, hsc, Bool.not_true, Bool.false_eq_true, if_false, hne]


/-- Witness of C3: the record `recBND` (form t]p], strands `+` and `-`) passes the
consistency test and an output line is returned. -/
theorem recordParser_consistency_witness :
    ∃ line, recordParser recBND "BND".toList dbTwo geneIdx noOverride = .ok line := by
  obtain ⟨modOri, hsc, hiff, _⟩ := recordParser_consistency recBND "BND".toList dbTwo
    geneIdx noOverride
    ⟨"chr1:350".toList, "chr5:550".toList, mkOri "GENE_A" ">" "GENE_B" "<", "BND".toList⟩
    ⟨"7".toList, "3".toList⟩ "N]CHR5:550]|bnd|HIGH|G&H|x".toList "G&H".toList
    "G".toList "H".toList "T1".toList "T2".toList
    (locPut (locPut [] "breakA".toList "Ex2".toList) "breakB".toList "Ex1".toList)
    "right".toList
    (by decide) (by decide) (by decide) (by decide) (by decide) (by decide) (by decide)
    (by decide) (by decide) (by decide)
  have hval : strandCorrect
      (if "right".toList = "wrong".toList then (infoOf dbTwo "T2".toList).strand
        else (infoOf dbTwo "T1".toList).strand)
      (if "right".toList = "wrong".toList then (infoOf dbTwo "T1".toList).strand
        else (infoOf dbTwo "T2".toList).strand)
      (mkOri "GENE_A" ">" "GENE_B" "<") = some (mkOri "GENE_A" ">" "GENE_B" ">") := by
    decide
  rw [hval] at hsc
  cases hsc
  exact hiff.2 rfl


/-! ## C4: exon order on the `-` strand -/

/-- C4. On the row `rowMinus3` (strand `-`, exons e1 = [100,200), e2 = [300,400),
e3 = [500,600) in file order) `getDB` builds the exon list [e3, e1, e2], which is not
the reverse [e3, e2, e1] of file order: `reverSlice` is applied after every append
instead of once after the loop. The two introns come out reversed. -/
theorem getDB_minus_three_exons :
    (getDB rowMinus3).map (fun db => (db.1 "T1".toList).map (fun r => (r.exon, r.intron)))
        = some (some ([[500, 600, 0], [100, 200, 0], [300, 400, 0]],
            [[400, 500], [200, 300]])) ∧
      ([[500, 600, 0], [100, 200, 0], [300, 400, 0]] : List (List Int))
        ≠ List.reverse [[100, 200, 0], [300, 400, 0], [500, 600, 0]] := by
  decide

/-! ## C8: records flagged SECONDARY -/

/-- C8. A record flagged SECONDARY ends the record loop: on the stream
[`recSecondary`, `recBND`] nothing is written, although the stream without the
flagged record, [`recBND`], yields one line. -/
theorem run_stops_at_secondary :
    run dbTwo geneIdx noOverride [recSecondary, recBND] = ⟨[], false⟩ ∧
      run dbTwo geneIdx noOverride [recBND]
        = ⟨["G-H\tG:T1:Ex2*>H:T2:Ex1*\tBND\tcall1\tchr1:350\tchr5:550\t7:3\n".toList],
            false⟩ := by
  decide


/-! ## C5: intron promotion -/

theorem contains_of_not_mem (c : Char) (rest s : Str) (h : c ∉ s) :
    contains s (c :: rest) = false := by
  induction s with
  | nil => rfl
  | cons x xs ih =>
    have hx : c ≠ x := fun e => h (by simp [e])
    have hxs : c ∉ xs := fun e => h (by simp [e])
    simp [contains, List.isPrefixOf, hx, ih hxs]

theorem contains_append_self (a b : Str) : contains (a ++ b) a = true := by
  cases a with
  | nil => cases b <;> simp [contains]
  | cons x xs =>
    have hp : (x :: xs).isPrefixOf ((x :: xs) ++ b) = true :=
      List.isPrefixOf_iff_prefix.mpr (List.prefix_append _ _)
    simp only [List.cons_append] at hp ⊢
    simp [contains, hp]

theorem locGet_filter_ne (m : Locates) (key k : Str) (h : k ≠ key) :
    locGet (m.filter (fun kv => kv.1 ≠ key)) k = locGet m k := by
  induction m with
  | nil => rfl
  | cons kv rest ih =>
    obtain ⟨a, b⟩ := kv
    simp only [ne_eq, decide_not] at ih ⊢
    by_cases ha : a = key
    · have hak : ¬ key = k := fun e => h e.symm
      subst ha
      simp only [List.filter_cons, decide_True, Bool.not_true, Bool.false_eq_true, if_false,
        locGet, hak, ih]
    · by_cases hak : a = k
      · subst hak
        simp only [List.filter_cons, ha, decide_False, Bool.not_false, if_true, locGet]
      · simp only [List.filter_cons, ha, decide_False, Bool.not_false, if_true, locGet, hak,
          if_false, ih]

theorem locGet_locPut_self (m : Locates) (key v : Str) : locGet (locPut m key v) key = v := by
  simp [locPut, locGet]

theorem locGet_locPut_ne (m : Locates) (key v k : Str) (h : k ≠ key) :
    locGet (locPut m key v) k = locGet m k := by
  have h2 : ¬ key = k := fun e => h e.symm
  simp only [locPut, locGet, h2, if_false]
  exact locGet_filter_ne m key k h

theorem letterI_not_mem_itoa (k : Int) : 'I' ∉ itoa k := by
  intro h
  rcases itoa_chars k _ h with h1 | h1
  · exact absurd h1 (by decide)
  · exact absurd h1 (by decide)

theorem wrapInt64_id (x : Int) (hlo : -(2 ^ 63) ≤ x) (hhi : x < 2 ^ 63) : wrapInt64 x = x := by
  unfold wrapInt64
  omega


theorem promoteStep_gene (modOri : Ori) (locates : Locates) (i : Nat) (gene key d : Str)
    (hk : join [] ["break".toList, gene.drop (gene.length - 1)] = key)
    (hG : contains gene "GENE".toList = true)
    (hget : modOri.get? (i + 1) = some d) :
    ∃ l, promoteStep modOri locates (i, gene) = some l ∧
      (∀ k, k ≠ key → locGet l k = locGet locates k) ∧
      PromotedAs d (locGet locates key) (locGet l key) := by
  unfold promoteStep
  simp only [hG, if_true, hk, hget]
  by_cases hIn : contains (locGet locates key) "In".toList = true
  · simp only [hIn, if_true]
    refine ⟨_, rfl, fun k hne => locGet_locPut_ne _ _ _ _ hne, ?_⟩
    intro k hk0 hk1
    rw [locGet_locPut_self]
    refine ⟨?_, ?_, ?_⟩
    · intro hb hd
      have hnum : (atoi (List.drop 2 (locGet locates key))).1 = k := by
        rw [hb]
        simp only [String.toList, List.cons_append, List.nil_append, List.drop_succ_cons,
          List.drop_zero, atoi, parseInt_itoa k (by omega) (by omega)]
      simp only [hnum, hd, if_true, join, List.append_nil,
        wrapInt64_id (k + 1) (by omega) hk1]
    · intro hb hd
      have hnum : (atoi (List.drop 2 (locGet locates key))).1 = k := by
        rw [hb]
        simp only [String.toList, List.cons_append, List.nil_append, List.drop_succ_cons,
          List.drop_zero, atoi, parseInt_itoa k (by omega) (by omega)]
      have hne : ¬ ("<".toList = ">".toList) := by decide
      simp only [hnum, hd, hne, if_false, join, List.append_nil]
    · intro hb
      rw [hb] at hIn
      have hno : contains ("Ex".toList ++ itoa k) "In".toList = false := by
        apply contains_of_not_mem
        intro hmem
        rcases List.mem_append.mp hmem with h1 | h1
        · exact absurd h1 (by decide)
        · exact letterI_not_mem_itoa k h1
      rw [hno] at hIn
      exact absurd hIn (by decide)
  · have hIn2 : contains (locGet locates key) "In".toList = false := by
      cases hc : contains (locGet locates key) "In".toList
      · rfl
      · exact absurd hc hIn
    have hInk : ∀ k : Int, locGet locates key ≠ "In".toList ++ itoa k := by
      intro k hb
      rw [hb, contains_append_self] at hIn2
      exact absurd hIn2 (by decide)
    simp only [hIn2, Bool.false_eq_true, if_false]
    by_cases hEx : contains (locGet locates key) "Ex".toList = true
    · simp only [hEx, if_true]
      refine ⟨_, rfl, fun k hne => locGet_locPut_ne _ _ _ _ hne, ?_⟩
      intro k _ _
      rw [locGet_locPut_self]
      refine ⟨fun hb => absurd hb (hInk k), fun hb => absurd hb (hInk k), ?_⟩
      intro hb
      simp only [hb, join, List.append_nil]
    · simp only [hEx, if_false]
      refine ⟨_, rfl, fun _ _ => rfl, ?_⟩
      intro k _ _
      refine ⟨fun hb => absurd hb (hInk k), fun hb => absurd hb (hInk k), ?_⟩
      intro hb
      rw [hb, contains_append_self] at hEx
      exact absurd rfl hEx


/-- The promotion loop on a tuple (g0, d1, g2, d3) whose genes are the placeholders
with keys `key0` and `key2`: both steps succeed, and each key is promoted with the
direction that follows its gene. -/
theorem promote_two (modOri : Ori) (locates : Locates) (key0 key2 : Str)
    (hk0 : join [] ["break".toList, modOri.s0.drop (modOri.s0.length - 1)] = key0)
    (hk2 : join [] ["break".toList, modOri.s2.drop (modOri.s2.length - 1)] = key2)
    (hG0 : contains modOri.s0 "GENE".toList = true)
    (hG2 : contains modOri.s2 "GENE".toList = true)
    (hne : key0 ≠ key2) (hd1 : dirSlot modOri.s1) (hd3 : dirSlot modOri.s3) :
    ∃ l, promote modOri locates = some l ∧
      PromotedAs modOri.s1 (locGet locates key0) (locGet l key0) ∧
      PromotedAs modOri.s3 (locGet locates key2) (locGet l key2) := by
  obtain ⟨l0, e0, o0, p0⟩ := promoteStep_gene modOri locates 0 modOri.s0 key0 modOri.s1 hk0 hG0 rfl
  obtain ⟨l2, e2, o2, p2⟩ := promoteStep_gene modOri l0 2 modOri.s2 key2 modOri.s3 hk2 hG2 rfl
  refine ⟨l2, ?_, ?_, ?_⟩
  · unfold promote Ori.enum
    simp [List.foldlM, e0, e2, promoteStep_dir _ _ _ hd1, promoteStep_dir _ _ _ hd3]
  · rw [o2 key0 hne]
    exact p0
  · rw [o0 key2 (fun e => hne e.symm)] at p2
    exact p2

/-- C5. Intron promotion. For a corrected tuple that holds the two placeholders in
slots 1 and 3 and directions in slots 2 and 4, the promotion loop returns, and on each
side (key breakA for GENE_A, breakB for GENE_B) the reported location follows the
rule `PromotedAs` with the direction that follows the gene: In k becomes Ex(k+1) for
`>` and Ex k for `<`, and Ex k becomes Ex k followed by a star. -/
theorem promote_locations (modOri : Ori) (locates : Locates)
    (hg : (modOri.s0 = "GENE_A".toList ∧ modOri.s2 = "GENE_B".toList) ∨
      (modOri.s0 = "GENE_B".toList ∧ modOri.s2 = "GENE_A".toList))
    (hd1 : modOri.s1 = ">".toList ∨ modOri.s1 = "<".toList)
    (hd3 : modOri.s3 = ">".toList ∨ modOri.s3 = "<".toList) :
    ∃ locates1, promote modOri locates = some locates1 ∧
      PromotedAs (modOri.dirOf "GENE_A".toList) (locGet locates "breakA".toList)
        (locGet locates1 "breakA".toList) ∧
      PromotedAs (modOri.dirOf "GENE_B".toList) (locGet locates "breakB".toList)
        (locGet locates1 "breakB".toList) := by
  have d1 : dirSlot modOri.s1 := hd1.elim Or.inl (fun h => Or.inr (Or.inl h))
  have d3 : dirSlot modOri.s3 := hd3.elim Or.inl (fun h => Or.inr (Or.inl h))
  rcases hg with ⟨h0, h2⟩ | ⟨h0, h2⟩
  · obtain ⟨l, hp, pA, pB⟩ := promote_two modOri locates "breakA".toList "breakB".toList
      (by rw [h0]; decide) (by rw [h2]; decide) (by rw [h0]; decide) (by rw [h2]; decide)
      (by decide) d1 d3
    refine ⟨l, hp, ?_, ?_⟩
    · simpa only [Ori.dirOf, h0, if_true] using pA
    · have hne : ¬ ("GENE_A".toList = "GENE_B".toList) := by decide
      simpa only [Ori.dirOf, h0, hne, if_false] using pB
  · obtain ⟨l, hp, pB, pA⟩ := promote_two modOri locates "breakB".toList "breakA".toList
      (by rw [h0]; decide) (by rw [h2]; decide) (by rw [h0]; decide) (by rw [h2]; decide)
      (by decide) d1 d3
    refine ⟨l, hp, ?_, ?_⟩
    · have hne : ¬ ("GENE_B".toList = "GENE_A".toList) := by decide
      simpa only [Ori.dirOf, h0, hne, if_false] using pA
    · simpa only [Ori.dirOf, h0, if_true] using pB

/-- Witness of C5 (scenario B): position 420 lies in intron 3 = [400,450) of `txFour`;
with the tuple (GENE_A, >, GENE_B, >) the location In3 of breakpoint A is reported as
Ex4, and the exon location Ex1 of breakpoint B as Ex1 with a star. -/
theorem promote_locations_witness :
    breakSearch "chr1:420".toList txFour = some ("In3".toList, true) ∧
      ∃ locates1,
        promote (mkOri "GENE_A" ">" "GENE_B" ">")
            (locPut (locPut [] "breakA".toList "In3".toList) "breakB".toList "Ex1".toList)
          = some locates1 ∧
        locGet locates1 "breakA".toList = "Ex4".toList ∧
        locGet locates1 "breakB".toList = "Ex1*".toList := by
  refine ⟨by decide, ?_⟩
  obtain ⟨l, hp, pA, pB⟩ := promote_locations (mkOri "GENE_A" ">" "GENE_B" ">")
    (locPut (locPut [] "breakA".toList "In3".toList) "breakB".toList "Ex1".toList)
    (Or.inl ⟨rfl, rfl⟩) (Or.inl rfl) (Or.inl rfl)
  refine ⟨l, hp, ?_, ?_⟩
  · exact (pA 3 (by decide) (by decide)).1 (by decide) (by decide)
  · exact (pB 1 (by decide) (by decide)).2.2 (by decide)


/-! ## Lemmas on `replaceAll` and `geneRep` -/

theorem replaceAllAux_of_not_contains (old new s : Str) (h : contains s old = false) :
    replaceAllAux old new 0 s = s := by
  induction s with
  | nil => rfl
  | cons c cs ih =>
    simp only [contains, Bool.or_eq_false_iff] at h
    simp only [replaceAllAux, h.1, Bool.false_eq_true, if_false, ih h.2]

theorem replaceAllAux_skip (old new xs rest : Str) :
    replaceAllAux old new xs.length (xs ++ rest) = replaceAllAux old new 0 rest := by
  induction xs with
  | nil => rfl
  | cons x xs ih => simpa [replaceAllAux] using ih

theorem replaceAllAux_zero_cons (old new : Str) (c : Char) (cs : Str) :
    replaceAllAux old new 0 (c :: cs)
      = if old.isPrefixOf (c :: cs) then new ++ replaceAllAux old new (old.length - 1) cs
        else c :: replaceAllAux old new 0 cs := by
  simp only [replaceAllAux]

theorem isPrefixOf_append_sep (sep : Char) (old x b : Str) (h : sep ∉ old) :
    old.isPrefixOf (x ++ sep :: b) = old.isPrefixOf x := by
  induction old generalizing x with
  | nil => simp [List.isPrefixOf]
  | cons o os ih =>
    have ho : o ≠ sep := fun e => h (by simp [e])
    have hos : sep ∉ os := fun e => h (by simp [e])
    cases x with
    | nil => simp [List.isPrefixOf, ho]
    | cons y ys => simp [List.isPrefixOf, ih ys hos]

theorem length_le_of_isPrefixOf (old x : Str) (h : old.isPrefixOf x = true) :
    old.length ≤ x.length :=
  (List.isPrefixOf_iff_prefix.mp h).length_le

theorem replaceAllAux_append_sep (sep : Char) (old new a b : Str) (k : Nat)
    (hsep : sep ∉ old) (hold : old ≠ []) (hk : k ≤ a.length) :
    replaceAllAux old new k (a ++ sep :: b)
      = replaceAllAux old new k a ++ sep :: replaceAllAux old new 0 b := by
  induction a generalizing k with
  | nil =>
    have hk0 : k = 0 := by simpa using hk
    subst hk0
    have hp : old.isPrefixOf (sep :: b) = false := by
      have := isPrefixOf_append_sep sep old [] b hsep
      simp only [List.nil_append] at this
      rw [this]
      cases old with
      | nil => exact absurd rfl hold
      | cons o os => rfl
    simp [replaceAllAux, hp]
  | cons c cs ih =>
    cases k with
    | succ k =>
      simp only [List.cons_append, replaceAllAux]
      exact ih k (by simpa using hk)
    | zero =>
      have hpre := isPrefixOf_append_sep sep old (c :: cs) b hsep
      rw [List.cons_append] at hpre
      rw [List.cons_append, replaceAllAux_zero_cons, replaceAllAux_zero_cons, hpre]
      by_cases hp : old.isPrefixOf (c :: cs) = true
      · have hlen := length_le_of_isPrefixOf old (c :: cs) hp
        simp only [List.length_cons] at hlen
        rw [if_pos hp, if_pos hp, ih (old.length - 1) (by omega), List.append_assoc]
      · rw [if_neg hp, if_neg hp, ih 0 (by omega), List.cons_append]

theorem replaceAll_append_sep (sep : Char) (old new a b : Str) (hsep : sep ∉ old)
    (hold : old ≠ []) :
    replaceAll (a ++ sep :: b) old new = replaceAll a old new ++ sep :: replaceAll b old new :=
  replaceAllAux_append_sep sep old new a b 0 hsep hold (by omega)

theorem replaceAll_of_not_contains (s old new : Str) (h : contains s old = false) :
    replaceAll s old new = s :=
  replaceAllAux_of_not_contains old new s h

theorem replaceAll_self (old new : Str) (hold : old ≠ []) : replaceAll old old new = new := by
  cases old with
  | nil => exact absurd rfl hold
  | cons c cs =>
    have hp : (c :: cs).isPrefixOf (c :: cs) = true :=
      List.isPrefixOf_iff_prefix.mpr (List.prefix_refl _)
    have hskip := replaceAllAux_skip (c :: cs) new cs []
    simp only [List.append_nil] at hskip
    simp only [replaceAll, replaceAllAux, hp, if_true, List.length_cons, Nat.add_sub_cancel,
      hskip, List.append_nil]

theorem clean_of_not_mem (s : Str) (h : 'G' ∉ s) : clean s :=
  ⟨contains_of_not_mem 'G' _ s h, contains_of_not_mem 'G' _ s h⟩

theorem geneRep_append_sep (sep : Char) (a b geneA geneB : Str)
    (h1 : sep ∉ "GENE_A".toList) (h2 : sep ∉ "GENE_B".toList) :
    geneRep (a ++ sep :: b) geneA geneB = geneRep a geneA geneB ++ sep :: geneRep b geneA geneB := by
  unfold geneRep
  rw [replaceAll_append_sep sep _ _ a b h1 (by decide),
    replaceAll_append_sep sep _ _ _ _ h2 (by decide)]

theorem geneRep_clean (s geneA geneB : Str) (h : clean s) : geneRep s geneA geneB = s := by
  unfold geneRep
  rw [replaceAll_of_not_contains s _ _ h.1, replaceAll_of_not_contains s _ _ h.2]

theorem geneRep_geneA (geneA geneB : Str) (h : clean geneA) :
    geneRep "GENE_A".toList geneA geneB = geneA := by
  unfold geneRep
  rw [replaceAll_self _ _ (by decide), replaceAll_of_not_contains geneA _ _ h.2]

theorem geneRep_geneB (geneA geneB : Str) :
    geneRep "GENE_B".toList geneA geneB = geneB := by
  unfold geneRep
  rw [replaceAll_of_not_contains "GENE_B".toList _ _ (by decide),
    replaceAll_self _ _ (by decide)]


theorem geneRep_placeholder (p geneA geneB : Str) (hp : isPlaceholder p) (hc : clean geneA) :
    geneRep p geneA geneB = pairMapGet geneA geneB p := by
  rcases hp with h | h <;> subst h
  · rw [geneRep_geneA geneA geneB hc]
    rfl
  · rw [geneRep_geneB geneA geneB]
    rfl

theorem pairMapGet_clean (a b key : Str) (ha : clean a) (hb : clean b) :
    clean (pairMapGet a b key) := by
  unfold pairMapGet
  split_ifs
  · exact ha
  · exact hb
  · exact ⟨by decide, by decide⟩

theorem geneRep_name (p q geneA geneB : Str) (hp : isPlaceholder p) (hq : isPlaceholder q)
    (hc : clean geneA) :
    geneRep (join "-".toList [p, q]) geneA geneB
      = join "-".toList [pairMapGet geneA geneB p, pairMapGet geneA geneB q] := by
  simp only [join, String.toList, List.append_assoc, List.singleton_append]
  rw [geneRep_append_sep '-' _ _ _ _ (by decide) (by decide),
    geneRep_placeholder p _ _ hp hc, geneRep_placeholder q _ _ hq hc]

theorem geneRep_side (p t l geneA geneB : Str) (hp : isPlaceholder p) (hc : clean geneA)
    (ht : clean t) (hl : clean l) :
    geneRep (join ":".toList [p, t, l]) geneA geneB
      = join ":".toList [pairMapGet geneA geneB p, t, l] := by
  simp only [join, String.toList, List.append_assoc, List.singleton_append]
  rw [geneRep_append_sep ':' _ _ _ _ (by decide) (by decide),
    geneRep_append_sep ':' _ _ _ _ (by decide) (by decide),
    geneRep_placeholder p _ _ hp hc, geneRep_clean t _ _ ht, geneRep_clean l _ _ hl]

theorem geneRep_detail (p q tp lp tq lq geneA geneB : Str) (hp : isPlaceholder p)
    (hq : isPlaceholder q) (hc : clean geneA) (htp : clean tp) (hlp : clean lp)
    (htq : clean tq) (hlq : clean lq) :
    geneRep (join ">".toList [join ":".toList [p, tp, lp], join ":".toList [q, tq, lq]])
        geneA geneB
      = join ">".toList [join ":".toList [pairMapGet geneA geneB p, tp, lp],
          join ":".toList [pairMapGet geneA geneB q, tq, lq]] := by
  have e1 := geneRep_side p tp lp geneA geneB hp hc htp hlp
  have e2 := geneRep_side q tq lq geneA geneB hq hc htq hlq
  have hj : ∀ a b : Str, join ">".toList [a, b] = a ++ '>' :: b := by
    intro a b
    simp [join]
  rw [hj, hj, geneRep_append_sep '>' _ _ _ _ (by decide) (by decide), e1, e2]


/-! ## Locations never hold a placeholder text -/

theorem letterG_not_mem_itoa (k : Int) : 'G' ∉ itoa k := by
  intro h
  rcases itoa_chars k _ h with h1 | h1
  · exact absurd h1 (by decide)
  · exact absurd h1 (by decide)

theorem letterG_not_mem_label (a b : Char) (k : Int) (ha : a ≠ 'G') (hb : b ≠ 'G') :
    'G' ∉ a :: b :: itoa k := by
  intro h
  simp only [List.mem_cons] at h
  rcases h with h | h | h
  · exact ha h.symm
  · exact hb h.symm
  · exact letterG_not_mem_itoa k h

theorem breakSearch_noG (breakP : Str) (info : geneRecord) (loc : Str) (found : Bool)
    (h : breakSearch breakP info = some (loc, found)) : 'G' ∉ loc := by
  simp only [breakSearch] at h
  split at h
  · exact Option.noConfusion h
  · split_ifs at h
    · simp only [Option.some.injEq, Prod.mk.injEq] at h
      rw [← h.1]
      simp
    · split at h
      · exact Option.noConfusion h
      · split at h
        · exact Option.noConfusion h
        · simp only [Option.some.injEq, Prod.mk.injEq] at h
          rw [← h.1]
          exact letterG_not_mem_label 'E' 'x' _ (by decide) (by decide)
        · split at h
          · exact Option.noConfusion h
          · simp only [Option.some.injEq, Prod.mk.injEq] at h
            rw [← h.1]
            exact letterG_not_mem_label 'I' 'n' _ (by decide) (by decide)
          · simp only [Option.some.injEq, Prod.mk.injEq] at h
            rw [← h.1]
            simp

theorem locGet_locPut (m : Locates) (key v k : Str) :
    locGet (locPut m key v) k = if k = key then v else locGet m k := by
  by_cases h : k = key
  · subst h
    simp only [locGet_locPut_self, if_true]
  · simp only [locGet_locPut_ne m key v k h, h, if_false]

theorem noG_nil : noG [] := by
  intro key
  simp [locGet]

theorem noG_locPut (m : Locates) (key v : Str) (hm : noG m) (hv : 'G' ∉ v) :
    noG (locPut m key v) := by
  intro k
  rw [locGet_locPut]
  split_ifs
  · exact hv
  · exact hm k

theorem breakCheck_noG (breakA breakB transA transB : Str) (tran2info : TranInfo)
    (locates : Locates) (consist : Str) (ok : Bool)
    (h : breakCheck breakA breakB transA transB tran2info = some (locates, consist, ok)) :
    noG locates := by
  unfold breakCheck at h
  cases hAA : breakSearch breakA (infoOf tran2info transA) with
  | none => simp [hAA] at h
  | some rAA =>
  cases hAB : breakSearch breakA (infoOf tran2info transB) with
  | none => simp [hAA, hAB] at h
  | some rAB =>
  cases hBB : breakSearch breakB (infoOf tran2info transB) with
  | none => simp [hAA, hAB, hBB] at h
  | some rBB =>
  cases hBA : breakSearch breakB (infoOf tran2info transA) with
  | none => simp [hAA, hAB, hBB, hBA] at h
  | some rBA =>
    obtain ⟨lAA, fAA⟩ := rAA
    obtain ⟨lAB, fAB⟩ := rAB
    obtain ⟨lBB, fBB⟩ := rBB
    obtain ⟨lBA, fBA⟩ := rBA
    simp only [hAA, hAB, hBB, hBA] at h
    split_ifs at h
    · simp only [Option.some.injEq, Prod.mk.injEq] at h
      rw [← h.1]
      exact noG_locPut _ _ _ (noG_locPut _ _ _ noG_nil (breakSearch_noG _ _ _ _ hAA))
        (breakSearch_noG _ _ _ _ hBB)
    · simp only [Option.some.injEq, Prod.mk.injEq] at h
      rw [← h.1]
      exact noG_locPut _ _ _ (noG_locPut _ _ _ noG_nil (breakSearch_noG _ _ _ _ hAB))
        (breakSearch_noG _ _ _ _ hBA)
    · simp only [Option.some.injEq, Prod.mk.injEq] at h
      rw [← h.1]
      exact noG_nil

theorem promoteStep_noG (modOri : Ori) (locates l : Locates) (iv : Nat × Str)
    (hm : noG locates) (h : promoteStep modOri locates iv = some l) : noG l := by
  simp only [promoteStep] at h
  split_ifs at h
  · split at h
    · exact Option.noConfusion h
    · simp only [Option.some.injEq] at h
      rw [← h]
      apply noG_locPut _ _ _ hm
      simp only [join, List.append_nil]
      exact letterG_not_mem_label 'E' 'x' _ (by decide) (by decide)
  · simp only [Option.some.injEq] at h
    rw [← h]
    apply noG_locPut _ _ _ hm
    simp only [join, List.append_nil, List.mem_append, not_or]
    exact ⟨hm _, by decide⟩
  · simp only [Option.some.injEq] at h
    rw [← h]
    exact hm
  · simp only [Option.some.injEq] at h
    rw [← h]
    exact hm

theorem foldlM_promoteStep_noG (modOri : Ori) (ivs : List (Nat × Str)) (locates l : Locates)
    (hm : noG locates) (h : ivs.foldlM (promoteStep modOri) locates = some l) : noG l := by
  induction ivs generalizing locates with
  | nil =>
    simp only [List.foldlM, pure, Option.some.injEq] at h
    rw [← h]
    exact hm
  | cons iv rest ih =>
    simp only [List.foldlM, bind, Option.bind] at h
    cases hs : promoteStep modOri locates iv with
    | none => simp [hs] at h
    | some l1 =>
      simp only [hs] at h
      exact ih l1 (promoteStep_noG modOri locates l1 iv hm hs) h

theorem promote_noG (modOri : Ori) (locates l : Locates) (hm : noG locates)
    (h : promote modOri locates = some l) : noG l :=
  foldlM_promoteStep_noG modOri _ locates l hm h


/-! ## C6: fused name and detail string -/

theorem clean_ite (c : Prop) [Decidable c] (a b : Str) (ha : clean a) (hb : clean b) :
    clean (if c then a else b) := by
  split_ifs
  · exact ha
  · exact hb

/-- C6. Fused name and detail order. Take a hypothesis whose breakpoints reconcile,
whose corrected tuple `modOri` = (p0, d, p2, d) holds placeholders in slots 1 and 3
and equal directions in slots 2 and 4, and whose gene symbols and transcript IDs do
not contain the texts GENE_A and GENE_B. Write sym(p) for the gene symbol (after the
swap) of placeholder p, and `sideText` for sym(p):transcript(p):location(p). Then
`resolve` returns the line whose fused name is sym(p0)-sym(p2) and whose detail is
side(p0)>side(p2) when d is `>`, and sym(p2)-sym(p0) with side(p2)>side(p0) when d
is `<`. -/
theorem resolve_format (h : Hypothesis) (pe sr callID geneA geneB transA transB : Str)
    (tran2info : TranInfo) (locates : Locates) (consist : Str) (modOri : Ori)
    (locates1 : Locates)
    (hcA : clean geneA) (hcB : clean geneB) (htA : clean transA) (htB : clean transB)
    (hbc : breakCheck h.breakA h.breakB transA transB tran2info
      = some (locates, consist, true))
    (hsc : strandCorrect
        (if consist = "wrong".toList then (infoOf tran2info transB).strand
          else (infoOf tran2info transA).strand)
        (if consist = "wrong".toList then (infoOf tran2info transA).strand
          else (infoOf tran2info transB).strand)
        h.orientation = some modOri)
    (hp0 : isPlaceholder modOri.s0) (hp2 : isPlaceholder modOri.s2)
    (hcons : modOri.s1 = modOri.s3)
    (hprom : promote modOri locates = some locates1) :
    (modOri.s1 = ">".toList →
      resolve h pe sr callID geneA geneB transA transB tran2info = .ok
        (join "\t".toList (outStrList
          (join "-".toList
            [pairMapGet (if consist = "wrong".toList then geneB else geneA)
                (if consist = "wrong".toList then geneA else geneB) modOri.s0,
              pairMapGet (if consist = "wrong".toList then geneB else geneA)
                (if consist = "wrong".toList then geneA else geneB) modOri.s2])
          (join ">".toList
            [sideText (if consist = "wrong".toList then geneB else geneA)
                (if consist = "wrong".toList then geneA else geneB)
                (if consist = "wrong".toList then transB else transA)
                (if consist = "wrong".toList then transA else transB) locates1 modOri.s0,
              sideText (if consist = "wrong".toList then geneB else geneA)
                (if consist = "wrong".toList then geneA else geneB)
                (if consist = "wrong".toList then transB else transA)
                (if consist = "wrong".toList then transA else transB) locates1 modOri.s2])
          h.svtype callID h.breakA h.breakB pe sr))) ∧
    (modOri.s1 = "<".toList →
      resolve h pe sr callID geneA geneB transA transB tran2info = .ok
        (join "\t".toList (outStrList
          (join "-".toList
            [pairMapGet (if consist = "wrong".toList then geneB else geneA)
                (if consist = "wrong".toList then geneA else geneB) modOri.s2,
              pairMapGet (if consist = "wrong".toList then geneB else geneA)
                (if consist = "wrong".toList then geneA else geneB) modOri.s0])
          (join ">".toList
            [sideText (if consist = "wrong".toList then geneB else geneA)
                (if consist = "wrong".toList then geneA else geneB)
                (if consist = "wrong".toList then transB else transA)
                (if consist = "wrong".toList then transA else transB) locates1 modOri.s2,
              sideText (if consist = "wrong".toList then geneB else geneA)
                (if consist = "wrong".toList then geneA else geneB)
                (if consist = "wrong".toList then transB else transA)
                (if consist = "wrong".toList then transA else transB) locates1 modOri.s0])
          h.svtype callID h.breakA h.breakB pe sr))) := by
  have hng := promote_noG modOri locates locates1
    (breakCheck_noG _ _ _ _ _ _ _ _ hbc) hprom
  have hgA : clean (if consist = "wrong".toList then geneB else geneA) :=
    clean_ite _ _ _ hcB hcA
  have htA1 : clean (if consist = "wrong".toList then transB else transA) :=
    clean_ite _ _ _ htB htA
  have htB1 : clean (if consist = "wrong".toList then transA else transB) :=
    clean_ite _ _ _ htA htB
  have hloc : ∀ p, clean (pairMapGet (locGet locates1 "breakA".toList)
      (locGet locates1 "breakB".toList) p) := fun p =>
    pairMapGet_clean _ _ p (clean_of_not_mem _ (hng _)) (clean_of_not_mem _ (hng _))
  have htr : ∀ p, clean (pairMapGet (if consist = "wrong".toList then transB else transA)
      (if consist = "wrong".toList then transA else transB) p) := fun p =>
    pairMapGet_clean _ _ p htA1 htB1
  have hne : ¬ ("<".toList = ">".toList) := by decide
  constructor
  · intro hd
    have h3 : modOri.s3 = ">".toList := hcons ▸ hd
    simp only [resolve, hbc, hsc, hprom, Bool.not_true, Bool.false_eq_true, if_false,
      fuseGeneOf, fuseDetailOf, detailSide, hd, h3, if_true, sideText]
    rw [geneRep_name _ _ _ _ hp0 hp2 hgA,
      geneRep_detail _ _ _ _ _ _ _ _ hp0 hp2 hgA (htr _) (hloc _) (htr _) (hloc _)]
  · intro hd
    have h3 : modOri.s3 = "<".toList := hcons ▸ hd
    simp only [resolve, hbc, hsc, hprom, Bool.not_true, Bool.false_eq_true, if_false,
      fuseGeneOf, fuseDetailOf, detailSide, hd, h3, hne, if_true, sideText]
    rw [geneRep_name _ _ _ _ hp2 hp0 hgA,
      geneRep_detail _ _ _ _ _ _ _ _ hp2 hp0 hgA (htr _) (hloc _) (htr _) (hloc _)]


/-- Witness of C6: for the record `recBND` the corrected tuple is (GENE_A, >, GENE_B, >),
and the line names the fusion G-H with the detail G:T1:Ex2*>H:T2:Ex1*. -/
theorem resolve_format_witness :
    resolve
        ⟨"chr1:350".toList, "chr5:550".toList, mkOri "GENE_A" ">" "GENE_B" "<", "BND".toList⟩
        "7".toList "3".toList "call1".toList "G".toList "H".toList "T1".toList "T2".toList
        dbTwo
      = .ok "G-H\tG:T1:Ex2*>H:T2:Ex1*\tBND\tcall1\tchr1:350\tchr5:550\t7:3".toList :=
  (resolve_format
    ⟨"chr1:350".toList, "chr5:550".toList, mkOri "GENE_A" ">" "GENE_B" "<", "BND".toList⟩
    "7".toList "3".toList "call1".toList "G".toList "H".toList "T1".toList "T2".toList
    dbTwo
    (locPut (locPut [] "breakA".toList "Ex2".toList) "breakB".toList "Ex1".toList)
    "right".toList (mkOri "GENE_A" ">" "GENE_B" ">")
    [("breakB".toList, "Ex1*".toList), ("breakA".toList, "Ex2*".toList)]
    ⟨by decide, by decide⟩ ⟨by decide, by decide⟩ ⟨by decide, by decide⟩
    ⟨by decide, by decide⟩ (by decide) (by decide) (Or.inl rfl) (Or.inr rfl) rfl
    (by decide)).1 rfl


/-! ## C7: transcript selection -/

theorem selectTrans_eq (targetTrans : Str → JVal) (gene2tran : GeneTran) (g : Str)
    (hov : targetTrans g ≠ .other) (hidx : gene2tran g ≠ some []) :
    selectTrans targetTrans gene2tran g =
      match chosenTranscript targetTrans gene2tran g with
      | some t => .ok t
      | none => .error "No Gene Symbol Found".toList := by
  unfold selectTrans chosenTranscript
  cases ht : targetTrans g with
  | str t => rfl
  | other => exact absurd ht hov
  | null =>
    cases hg : gene2tran g with
    | none => rfl
    | some l =>
      cases l with
      | nil => exact absurd hg hidx
      | cons t rest => rfl

/-- C7. Transcript selection. For a record that is read without panic up to its gene
pair (geneA, geneB), with an override map whose entries for the two genes are strings
and a gene index whose lists for them are not empty: the transcript of each gene is
`chosenTranscript` (the override entry when present, whatever the gene index holds,
otherwise the first transcript ID of the index), `recordParser` continues with these
two transcripts, and when a gene has an entry in neither map `recordParser` returns
the error No Gene Symbol Found, hence no line and no panic. -/
theorem recordParser_selection (variant : Variant) (svtype : Str) (tran2info : TranInfo)
    (gene2tran : GeneTran) (targetTrans : Str → JVal) (h : Hypothesis) (sample : Sample)
    (annTarget cell geneA geneB : Str)
    (hh : hypothesisOf variant svtype = some h)
    (hs : variant.Samples[0]? = some sample)
    (ha : annTargetOf variant.ANN = some annTarget)
    (hc : (split '|' annTarget)[3]? = some cell)
    (hamp : contains cell "&".toList = true)
    (hgA : (split '&' cell)[0]? = some geneA)
    (hgB : (split '&' cell)[1]? = some geneB)
    (hovA : targetTrans geneA ≠ .other) (hovB : targetTrans geneB ≠ .other)
    (hidxA : gene2tran geneA ≠ some []) (hidxB : gene2tran geneB ≠ some []) :
    (∀ t, targetTrans geneA = .str t →
      chosenTranscript targetTrans gene2tran geneA = some t) ∧
    (∀ t, targetTrans geneB = .str t →
      chosenTranscript targetTrans gene2tran geneB = some t) ∧
    (∀ t rest, targetTrans geneA = .null → gene2tran geneA = some (t :: rest) →
      chosenTranscript targetTrans gene2tran geneA = some t) ∧
    (∀ t rest, targetTrans geneB = .null → gene2tran geneB = some (t :: rest) →
      chosenTranscript targetTrans gene2tran geneB = some t) ∧
    (∀ tA tB, chosenTranscript targetTrans gene2tran geneA = some tA →
      chosenTranscript targetTrans gene2tran geneB = some tB →
      recordParser variant svtype tran2info gene2tran targetTrans
        = resolve h sample.PE sample.SR variant.Id geneA geneB tA tB tran2info) ∧
    (((targetTrans geneA = .null ∧ gene2tran geneA = none) ∨
        (targetTrans geneB = .null ∧ gene2tran geneB = none)) →
      recordParser variant svtype tran2info gene2tran targetTrans
        = .error "No Gene Symbol Found".toList) := by
  have sA := selectTrans_eq targetTrans gene2tran geneA hovA hidxA
  have sB := selectTrans_eq targetTrans gene2tran geneB hovB hidxB
  refine ⟨?_, ?_, ?_, ?_, ?_, ?_⟩
  · intro t ht
    simp only [chosenTranscript, ht]
  · intro t ht
    simp only [chosenTranscript, ht]
  · intro t rest ht hg
    simp only [chosenTranscript, ht, hg]
  · intro t rest ht hg
    simp only [chosenTranscript, ht, hg]
  · intro tA tB hA hB
    rw [hA] at sA
    rw [hB] at sB
    exact recordParser_eq_resolve variant svtype tran2info gene2tran targetTrans h sample
      annTarget cell geneA geneB tA tB hh hs ha hc hamp hgA hgB sA sB
  · intro hmiss
    unfold recordParser
    simp only [hh, hs, ha, hc, hamp, hgA, hgB, if_true]
    rcases hmiss with ⟨ht, hg⟩ | ⟨ht, hg⟩
    · have hA : chosenTranscript targetTrans gene2tran geneA = none := by
        simp only [chosenTranscript, ht, hg]
      rw [hA] at sA
      simp only [sA]
    · have hB : chosenTranscript targetTrans gene2tran geneB = none := by
        simp only [chosenTranscript, ht, hg]
      rw [hB] at sB
      cases hA : chosenTranscript targetTrans gene2tran geneA with
      | none =>
        rw [hA] at sA
        simp only [sA]
      | some tA =>
        rw [hA] at sA
        simp only [sA, sB]

/-- Witness of C7 (scenario E): the record `recAbsent` names gene Z, which has an entry
in neither map, and `recordParser` returns the error; with the override map
`overrideG`, gene G is on transcript T2 although the gene index lists T1. -/
theorem recordParser_selection_witness :
    recordParser recAbsent "BND".toList dbTwo geneIdx noOverride
        = .error "No Gene Symbol Found".toList ∧
      chosenTranscript overrideG geneIdx "G".toList = some "T2".toList ∧
      chosenTranscript noOverride geneIdx "G".toList = some "T1".toList :=
  ⟨(recordParser_selection recAbsent "BND".toList dbTwo geneIdx noOverride
      ⟨"chr1:350".toList, "chr5:550".toList, mkOri "GENE_A" ">" "GENE_B" "<", "BND".toList⟩
      ⟨"7".toList, "3".toList⟩ "N]CHR5:550]|bnd|HIGH|G&Z|x".toList "G&Z".toList
      "G".toList "Z".toList
      (by decide) (by decide) (by decide) (by decide) (by decide) (by decide) (by decide)
      (by decide) (by decide) (by decide) (by decide)).2.2.2.2.2
      (Or.inr ⟨by decide, by decide⟩),
    by decide, by decide⟩


/-! ## C9: scenario A -/

/-- C9, as stated, fails. With the ALT text N[chr5:550[ the pattern `CHR.+:\d+` finds
no mate position, breakpoint B is empty and the record is rejected (Not Fusion); with
the mate written in upper case, N[CHR5:550[, the template of the form t[p[ is
(GENE_A, >, GENE_B, >), the `-` strand of Y reverses slot 4 and the record is
rejected by the consistency test. No fusion call is returned in either case. -/
theorem scenarioA_as_stated_rejected :
    recordParser (recA "N[chr5:550[") "BND".toList dbA geneIdxA noOverride
        = .error "Not Fusion".toList ∧
      recordParser (recA "N[CHR5:550[") "BND".toList dbA geneIdxA noOverride
        = .error "Not Invalid fusion".toList := by
  decide

/-- C9, amended. In scenario A with the ALT text N]CHR5:550] (mate in upper case,
bracket form t]p]), `recordParser` returns the fusion call with fused name X-Y and
detail X:transcriptX:Ex2*>Y:transcriptY:Ex1*. -/
theorem scenarioA_amended :
    recordParser (recA "N]CHR5:550]") "BND".toList dbA geneIdxA noOverride
      = .ok (join "\t".toList
          ["X-Y".toList, "X:transcriptX:Ex2*>Y:transcriptY:Ex1*".toList, "BND".toList,
            "callA".toList, "chr1:250".toList, "chr5:550".toList, "5:2".toList]) := by
  decide


/-! ## C10: the two hypotheses of an INV record -/

theorem resolve_ok_fields (h : Hypothesis) (pe sr callID geneA geneB transA transB : Str)
    (tran2info : TranInfo) (line : Str)
    (hr : resolve h pe sr callID geneA geneB transA transB tran2info = .ok line) :
    ∃ name detail,
      line = join "\t".toList (outStrList name detail h.svtype callID h.breakA h.breakB pe sr) := by
  simp only [resolve] at hr
  repeat' split at hr
  all_goals
    first
      | exact Res.noConfusion hr
      | (simp only [Res.ok.injEq] at hr
         exact ⟨_, _, hr.symm⟩)

theorem recordParser_ok_fields (variant : Variant) (svtype : Str) (tran2info : TranInfo)
    (gene2tran : GeneTran) (targetTrans : Str → JVal) (line : Str)
    (hr : recordParser variant svtype tran2info gene2tran targetTrans = .ok line) :
    ∃ h name detail pe sr, hypothesisOf variant svtype = some h ∧
      line = join "\t".toList
        (outStrList name detail h.svtype variant.Id h.breakA h.breakB pe sr) := by
  simp only [recordParser] at hr
  split at hr
  · exact Res.noConfusion hr
  · rename_i h hh
    repeat' split at hr
    all_goals
      first
        | exact Res.noConfusion hr
        | (obtain ⟨name, detail, hl⟩ := resolve_ok_fields _ _ _ _ _ _ _ _ _ _ hr
           exact ⟨h, name, detail, _, _, hh, hl⟩)

theorem hypothesisOf_inv (variant : Variant) (svtype : Str)
    (ht : svtype = "INV_1".toList ∨ svtype = "INV_2".toList) (h : Hypothesis)
    (hh : hypothesisOf variant svtype = some h) : h.svtype = "INV".toList := by
  have hb : svtype ≠ "BND".toList := by
    rcases ht with e | e <;> rw [e] <;> decide
  simp only [hypothesisOf, hb, if_false, Option.some.injEq] at hh
  rw [← hh]
  simp only [intraOrientation]
  have hne : ¬ ("INV_2".toList = "INV_1".toList) := by decide
  rcases ht with e | e
  · subst e
    split_ifs <;> first | rfl | exact absurd rfl (by assumption)
  · subst e
    split_ifs <;> first | rfl | exact absurd rfl (by assumption)


/-- C10 (scenario D). For an INV record that is not flagged SECONDARY and on which
neither call of `recordParser` panics, `run` evaluates both hypotheses, INV_2 also when
INV_1 returned an error, and writes what INV_1 wrote, then what INV_2 wrote, then the
lines of the following records. Each hypothesis writes its line (with a newline) when
`recordParser` succeeds and nothing when it returns an error, so the record yields
zero, one or two lines; the third field of every such line is INV. -/
theorem run_inv_record (tran2info : TranInfo) (gene2tran : GeneTran)
    (targetTrans : Str → JVal) (variant : Variant) (rest : List Variant)
    (hsec : variant.SECONDARY = false) (hsv : variant.SVTYPE = .str "INV".toList)
    (h1 : recordParser variant "INV_1".toList tran2info gene2tran targetTrans ≠ .panic)
    (h2 : recordParser variant "INV_2".toList tran2info gene2tran targetTrans ≠ .panic) :
    run tran2info gene2tran targetTrans (variant :: rest)
      = (run tran2info gene2tran targetTrans rest).after
          (written (recordParser variant "INV_1".toList tran2info gene2tran targetTrans) ++
            written (recordParser variant "INV_2".toList tran2info gene2tran targetTrans)) ∧
    ∀ tag, tag = "INV_1".toList ∨ tag = "INV_2".toList →
      (∀ line, recordParser variant tag tran2info gene2tran targetTrans = .ok line →
        written (recordParser variant tag tran2info gene2tran targetTrans)
            = [line ++ "\n".toList] ∧
          ∃ name detail breakA breakB support,
            line = join "\t".toList
              [name, detail, "INV".toList, variant.Id, breakA, breakB, support]) ∧
      (∀ e, recordParser variant tag tran2info gene2tran targetTrans = .error e →
        written (recordParser variant tag tran2info gene2tran targetTrans) = []) := by
  constructor
  · cases hr1 : recordParser variant "INV_1".toList tran2info gene2tran targetTrans with
    | panic => exact absurd hr1 h1
    | ok l1 =>
      cases hr2 : recordParser variant "INV_2".toList tran2info gene2tran targetTrans with
      | panic => exact absurd hr2 h2
      | ok l2 => simp only [run, hsec, hsv, Bool.false_eq_true, if_false, if_true, hr1, hr2]
      | error e2 => simp only [run, hsec, hsv, Bool.false_eq_true, if_false, if_true, hr1, hr2]
    | error e1 =>
      cases hr2 : recordParser variant "INV_2".toList tran2info gene2tran targetTrans with
      | panic => exact absurd hr2 h2
      | ok l2 => simp only [run, hsec, hsv, Bool.false_eq_true, if_false, if_true, hr1, hr2]
      | error e2 => simp only [run, hsec, hsv, Bool.false_eq_true, if_false, if_true, hr1, hr2]
  · intro tag htag
    constructor
    · intro line hl
      obtain ⟨h, name, detail, pe, sr, hh, hline⟩ :=
        recordParser_ok_fields variant tag tran2info gene2tran targetTrans line hl
      have hinv := hypothesisOf_inv variant tag htag h hh
      refine ⟨?_, name, detail, h.breakA, h.breakB, join ":".toList [pe, sr], ?_⟩
      · rw [hl]
        simp [written, join]
      · rw [hline, hinv]
        rfl
    · intro e he
      rw [he]
      rfl

/-- Witness of C10: on the record `recINV`, whose genes lie on strands `+` and `-`,
both hypotheses succeed and `run` writes two lines, the line of INV_1 first; both
carry the SV type INV. -/
theorem run_inv_record_witness :
    run dbInv geneIdx noOverride [recINV]
      = ⟨["G-H\tG:T1:Ex1*>H:T2:Ex2*\tINV\tcall2\tchr1:150\tchr1:350\t4:1\n".toList,
          "H-G\tH:T2:Ex2*>G:T1:Ex1*\tINV\tcall2\tchr1:150\tchr1:350\t4:1\n".toList],
          false⟩ :=
  (run_inv_record dbInv geneIdx noOverride recINV [] rfl rfl (by decide) (by decide)).1.trans
    (by decide)


/-! ## Lemmas on `reverSlice` and the lists that `getDB` builds -/

theorem swapAt_middle (front mid back : List (List Int)) (x y : List Int) :
    swapAt (front ++ x :: (mid ++ y :: back)) front.length (front.length + 1 + mid.length)
      = front ++ y :: (mid ++ x :: back) := by
  have h1 : (front ++ x :: (mid ++ y :: back))[front.length]? = some x := by
    rw [List.getElem?_append_right (Nat.le_refl _)]
    simp
  have h2 : (front ++ x :: (mid ++ y :: back))[front.length + 1 + mid.length]? = some y := by
    rw [List.getElem?_append_right (by omega)]
    have : front.length + 1 + mid.length - front.length = mid.length + 1 := by omega
    rw [this, List.getElem?_cons_succ, List.getElem?_append_right (by omega)]
    simp
  unfold swapAt
  rw [h1, h2]
  simp only
  rw [List.set_append_right _ _ (by omega)]
  simp only [Nat.sub_self, List.set_cons_zero]
  rw [List.set_append_right _ _ (by omega)]
  have : front.length + 1 + mid.length - front.length = mid.length + 1 := by omega
  rw [this, List.set_cons_succ, List.set_append_right _ _ (by omega)]
  simp

/-- The swap loop with `k` iterations left reverses the outer `k` positions on each
side. -/
theorem reverSliceLoop_eq (k : Nat) : ∀ (front mid back : List (List Int)),
    front.length = k → back.length = k →
    reverSliceLoop (front ++ mid ++ back) k = back.reverse ++ mid ++ front.reverse := by
  induction k with
  | zero =>
    intro front mid back hf hb
    have e1 : front = [] := List.length_eq_zero.mp hf
    have e2 : back = [] := List.length_eq_zero.mp hb
    subst e1; subst e2
    simp [reverSliceLoop]
  | succ k ih =>
    intro front mid back hf hb
    obtain ⟨f1, x, rfl⟩ : ∃ f1 x, front = f1 ++ [x] := by
      have hne : front ≠ [] := by intro e; rw [e] at hf; simp at hf
      exact ⟨front.dropLast, front.getLast hne, (List.dropLast_append_getLast hne).symm⟩
    cases back with
    | nil => simp at hb
    | cons y b1 =>
      have hf1 : f1.length = k := by simpa using hf
      have hb1 : b1.length = k := by simpa using hb
      have hlen : (f1 ++ [x] ++ mid ++ y :: b1).length - 1 - k = f1.length + 1 + mid.length := by
        simp only [List.length_append, List.length_cons, List.length_nil]
        omega
      simp only [reverSliceLoop]
      rw [hlen]
      have e : f1 ++ [x] ++ mid ++ y :: b1 = f1 ++ x :: (mid ++ y :: b1) := by simp
      rw [e]
      subst hf1
      rw [swapAt_middle]
      have e2 : f1 ++ y :: (mid ++ x :: b1) = f1 ++ (y :: (mid ++ [x])) ++ b1 := by simp
      rw [e2, ih f1 (y :: (mid ++ [x])) b1 rfl hb1]
      simp

/-- The function `reverSlice` reverses its argument. -/
theorem reverSlice_eq_reverse (a : List (List Int)) : reverSlice a = a.reverse := by
  unfold reverSlice
  have e : a = a.take (a.length / 2) ++ (a.drop (a.length / 2)).take (a.length - 2 * (a.length / 2))
      ++ a.drop (a.length - a.length / 2) := by
    rw [List.append_assoc]
    conv_lhs => rw [← List.take_append_drop (a.length / 2) a]
    congr 1
    conv_lhs => rw [← List.take_append_drop (a.length - 2 * (a.length / 2)) (a.drop (a.length / 2))]
    congr 1
    rw [List.drop_drop]
    congr 1
    omega
  have hmid : ((a.drop (a.length / 2)).take (a.length - 2 * (a.length / 2))).reverse
      = (a.drop (a.length / 2)).take (a.length - 2 * (a.length / 2)) := by
    have hl : ((a.drop (a.length / 2)).take (a.length - 2 * (a.length / 2))).length ≤ 1 := by
      simp only [List.length_take, List.length_drop]
      omega
    match h : (a.drop (a.length / 2)).take (a.length - 2 * (a.length / 2)), hl with
    | [], _ => rfl
    | [_], _ => rfl
  conv_lhs => rw [e]
  conv_lhs =>
    rw [show (List.take (a.length / 2) a ++ List.take (a.length - 2 * (a.length / 2)) (List.drop (a.length / 2) a) ++
        List.drop (a.length - a.length / 2) a).length = a.length from by rw [← e]]
  rw [reverSliceLoop_eq (a.length / 2) _ _ _ (by simp; omega) (by simp; omega)]
  conv_rhs => rw [e]
  simp only [List.reverse_append, hmid, List.append_assoc]

theorem minusOrder_snoc (l : List (List Int)) (x : List Int) :
    minusOrder (l ++ [x]) = x :: (minusOrder l).reverse := by
  simp [minusOrder, List.foldl_append]

theorem builtOrder_snoc (rev : Bool) (l : List (List Int)) (x : List Int) :
    builtOrder rev (l ++ [x])
      = if rev then reverSlice (builtOrder rev l ++ [x]) else builtOrder rev l ++ [x] := by
  cases rev
  · simp [builtOrder]
  · simp [builtOrder, minusOrder_snoc, reverSlice_eq_reverse]

theorem mem_minusOrder (l : List (List Int)) (e : List Int) : e ∈ minusOrder l ↔ e ∈ l := by
  induction l using List.reverseRecOn with
  | nil => simp [minusOrder]
  | append_singleton l x ih =>
    rw [minusOrder_snoc]
    simp only [List.mem_cons, List.mem_reverse, ih, List.mem_append, List.mem_singleton]
    tauto

theorem mem_builtOrder (rev : Bool) (l : List (List Int)) (e : List Int) :
    e ∈ builtOrder rev l ↔ e ∈ l := by
  cases rev
  · simp [builtOrder]
  · simp [builtOrder, mem_minusOrder]


theorem getD_of_getElem? (l : List Int) (i : Nat) (v : Int) (h : l[i]? = some v) :
    l.getD i 0 = v := by
  simp [List.getD, h]

/-- One step of the build loop, when it does not panic, appends the file-order exon
and, except at the last index, the file-order intron. -/
theorem buildStep_some (rev : Bool) (starts ends frames : List Int)
    (st st1 : List (List Int) × List (List Int)) (k : Nat)
    (h : buildStep rev starts ends frames st k = some st1) :
    st1.1 = (if rev then reverSlice (st.1 ++ [fileExon starts ends frames k])
        else st.1 ++ [fileExon starts ends frames k]) ∧
      st1.2 = (if k ≠ starts.length - 1 then
          (if rev then reverSlice (st.2 ++ [fileIntron starts ends k])
            else st.2 ++ [fileIntron starts ends k])
        else st.2) := by
  unfold buildStep at h
  cases hs : starts[k]? with
  | none => simp [hs] at h
  | some s =>
    cases he : ends[k]? with
    | none => simp [hs, he] at h
    | some e =>
      cases hf : frames[k]? with
      | none => simp [hs, he, hf] at h
      | some f =>
        have e1 : fileExon starts ends frames k = [s, e, f] := by
          simp only [fileExon, getD_of_getElem? _ _ _ hs, getD_of_getElem? _ _ _ he,
            getD_of_getElem? _ _ _ hf]
        simp only [hs, he, hf] at h
        by_cases hk : k ≠ starts.length - 1
        · rw [if_pos hk] at h
          cases hs2 : starts[k + 1]? with
          | none => simp [hs2] at h
          | some s2 =>
            have e2 : fileIntron starts ends k = [e, s2] := by
              simp only [fileIntron, getD_of_getElem? _ _ _ he, getD_of_getElem? _ _ _ hs2]
            simp only [hs2, Option.some.injEq] at h
            rw [← h, e1, e2, if_pos hk]
            exact ⟨rfl, rfl⟩
        · rw [if_neg hk] at h
          simp only [Option.some.injEq] at h
          rw [← h, e1, if_neg hk]
          exact ⟨rfl, rfl⟩

theorem buildFold_eq (rev : Bool) (starts ends frames : List Int) :
    ∀ (k : Nat) (st : List (List Int) × List (List Int)), k ≤ starts.length →
      (List.range k).foldlM (buildStep rev starts ends frames) ([], []) = some st →
      st = (builtOrder rev ((List.range k).map (fileExon starts ends frames)),
        builtOrder rev
          ((List.range (min k (starts.length - 1))).map (fileIntron starts ends))) := by
  intro k
  induction k with
  | zero =>
    intro st _ h
    simp only [List.range_zero, List.foldlM, pure, Option.some.injEq] at h
    rw [← h]
    cases rev <;> simp [builtOrder, minusOrder]
  | succ k ih =>
    intro st hk h
    rw [List.range_succ, List.foldlM_append] at h
    cases h0 : (List.range k).foldlM (buildStep rev starts ends frames) ([], []) with
    | none => simp [h0] at h
    | some st0 =>
      have hst0 := ih st0 (by omega) h0
      simp only [h0, List.foldlM, bind, Option.bind, pure] at h
      have hstep : buildStep rev starts ends frames st0 k = some st := by
        cases hb : buildStep rev starts ends frames st0 k with
        | none => simp [hb] at h
        | some st1 =>
          simp only [hb, Option.some.injEq] at h
          rw [h]
      obtain ⟨h1, h2⟩ := buildStep_some rev starts ends frames st0 st k hstep
      rw [hst0] at h1 h2
      simp only at h1 h2
      have hex : st.1 = builtOrder rev
          ((List.range (k + 1)).map (fileExon starts ends frames)) := by
        rw [List.range_succ, List.map_append, List.map_singleton, builtOrder_snoc]
        exact h1
      have hin : st.2 = builtOrder rev
          ((List.range (min (k + 1) (starts.length - 1))).map (fileIntron starts ends)) := by
        by_cases hlast : k ≠ starts.length - 1
        · have m1 : min (k + 1) (starts.length - 1) = k + 1 := by omega
          have m0 : min k (starts.length - 1) = k := by omega
          rw [m1, List.range_succ, List.map_append, List.map_singleton, builtOrder_snoc]
          rw [m0, if_pos hlast] at h2
          exact h2
        · have m1 : min (k + 1) (starts.length - 1) = min k (starts.length - 1) := by omega
          rw [m1]
          rw [if_neg hlast] at h2
          exact h2
      exact Prod.ext hex hin

/-- The lists that lines 95-111 build, when the loop does not panic: the file-order
exons and introns, in file order on strand `+` and in the order `minusOrder` on any
other strand. -/
theorem buildExons_some (strand : Str) (starts ends frames : List Int)
    (ex intr : List (List Int))
    (h : buildExons strand starts ends frames = some (ex, intr)) :
    ex = builtOrder (decide (strand ≠ "+".toList)) (fileExons starts ends frames) ∧
      intr = builtOrder (decide (strand ≠ "+".toList)) (fileIntrons starts ends) := by
  have hb := buildFold_eq (decide (strand ≠ "+".toList)) starts ends frames starts.length
    (ex, intr) (Nat.le_refl _) h
  have m : min starts.length (starts.length - 1) = starts.length - 1 := by omega
  rw [m] at hb
  simp only [Prod.mk.injEq] at hb
  exact hb


theorem getD_of_getElem?_str (l : List Str) (i : Nat) (v : Str) (h : l[i]? = some v) :
    l.getD i [] = v := by
  simp [List.getD, h]

/-- What a row adds to the two maps when `getDB` does not panic on it. -/
theorem getDBRow_some (db db1 : TranInfo × GeneTran) (line : Str)
    (h : getDBRow db line = some db1) :
    ∃ ex intr,
      buildExons (rowStrand line) (rowStarts line) (rowEnds line) (rowFrames line)
        = some (ex, intr) ∧
      db1.1 = mapPut db.1 (rowTrans line)
        { exon := ex, intron := intr, transRegion := rowTransRegion line,
          cdsRegion := rowCdsRegion line, chr := rowChr line, strand := rowStrand line,
          geneSymbol := rowGene line } ∧
      db1.2 = (if (db.1 (rowGene line)).isSome then mapPut db.2 (rowGene line) [rowTrans line]
        else mapPut db.2 (rowGene line) (((db.2 (rowGene line)).getD []) ++ [rowTrans line])) := by
  simp only [getDBRow, bind, Option.bind, pure] at h
  cases h1 : (split '\t' (trimSpace line))[1]? with
  | none => simp only [h1] at h; exact Option.noConfusion h
  | some trans =>
  simp only [h1] at h
  cases h12 : (split '\t' (trimSpace line))[12]? with
  | none => simp only [h12] at h; exact Option.noConfusion h
  | some gene =>
  simp only [h12] at h
  cases h3 : (split '\t' (trimSpace line))[3]? with
  | none => simp only [h3] at h; exact Option.noConfusion h
  | some strand =>
  simp only [h3] at h
  cases h2 : (split '\t' (trimSpace line))[2]? with
  | none => simp only [h2] at h; exact Option.noConfusion h
  | some chr =>
  simp only [h2] at h
  cases h4 : (split '\t' (trimSpace line))[4]? with
  | none => simp only [h4] at h; exact Option.noConfusion h
  | some c4 =>
  simp only [h4] at h
  cases h5 : (split '\t' (trimSpace line))[5]? with
  | none => simp only [h5] at h; exact Option.noConfusion h
  | some c5 =>
  simp only [h5] at h
  cases h6 : (split '\t' (trimSpace line))[6]? with
  | none => simp only [h6] at h; exact Option.noConfusion h
  | some c6 =>
  simp only [h6] at h
  cases h7 : (split '\t' (trimSpace line))[7]? with
  | none => simp only [h7] at h; exact Option.noConfusion h
  | some c7 =>
  simp only [h7] at h
  cases h9 : (split '\t' (trimSpace line))[9]? with
  | none => simp only [h9] at h; exact Option.noConfusion h
  | some c9 =>
  simp only [h9] at h
  cases h10 : (split '\t' (trimSpace line))[10]? with
  | none => simp only [h10] at h; exact Option.noConfusion h
  | some c10 =>
  simp only [h10] at h
  cases h15 : (split '\t' (trimSpace line))[15]? with
  | none => simp only [h15] at h; exact Option.noConfusion h
  | some c15 =>
  simp only [h15] at h
  cases hb : buildExons strand (string2int (split ',' c9)).1 (string2int (split ',' c10)).1
      (string2int (split ',' c15)).1 with
  | none => simp only [hb] at h; exact Option.noConfusion h
  | some r =>
  obtain ⟨ex, intr⟩ := r
  simp only [hb, Option.some.injEq] at h
  have e1 : rowTrans line = trans := getD_of_getElem?_str _ _ _ h1
  have e12 : rowGene line = gene := getD_of_getElem?_str _ _ _ h12
  have e3 : rowStrand line = strand := getD_of_getElem?_str _ _ _ h3
  have e2 : rowChr line = chr := getD_of_getElem?_str _ _ _ h2
  have e4 : (rowCols line).getD 4 [] = c4 := getD_of_getElem?_str _ _ _ h4
  have e5 : (rowCols line).getD 5 [] = c5 := getD_of_getElem?_str _ _ _ h5
  have e6 : (rowCols line).getD 6 [] = c6 := getD_of_getElem?_str _ _ _ h6
  have e7 : (rowCols line).getD 7 [] = c7 := getD_of_getElem?_str _ _ _ h7
  have e9 : (rowCols line).getD 9 [] = c9 := getD_of_getElem?_str _ _ _ h9
  have e10 : (rowCols line).getD 10 [] = c10 := getD_of_getElem?_str _ _ _ h10
  have e15 : (rowCols line).getD 15 [] = c15 := getD_of_getElem?_str _ _ _ h15
  refine ⟨ex, intr, ?_, ?_, ?_⟩
  · simp only [rowStarts, rowEnds, rowFrames, e3, e9, e10, e15, hb]
  · rw [← h]
    simp only [rowTransRegion, rowCdsRegion, e1, e12, e3, e2, e4, e5, e6, e7]
  · rw [← h]
    simp only [e1, e12]


theorem infoOf_mapPut (m : TranInfo) (key : Str) (r : geneRecord) :
    infoOf (mapPut m key r) key = r := by
  simp [infoOf, mapPut]

theorem parseInt_range (s : Str) : -(2 ^ 63) ≤ (parseInt s).1 ∧ (parseInt s).1 < 2 ^ 63 := by
  unfold parseInt
  split
  · simp
  · rename_i c cs
    simp only
    generalize parseUint (if c = '+' ∨ c = '-' then cs else c :: cs) = r
    obtain ⟨un, ok⟩ := r
    simp only
    by_cases hA : (!ok && decide (un ≠ maxUint64)) = true
    · rw [if_pos hA]
      simp
    · rw [if_neg hA]
      by_cases hB : (!decide (c = '-') && decide (un ≥ 2 ^ 63)) = true
      · rw [if_pos hB]
        simp
      · rw [if_neg hB]
        by_cases hC : (decide (c = '-') && decide (un > 2 ^ 63)) = true
        · rw [if_pos hC]
          simp
        · rw [if_neg hC]
          by_cases hneg : c = '-'
          · have hle : ¬ (un > 2 ^ 63) := by
              intro hgt
              apply hC
              simp only [hneg, decide_True, Bool.true_and, decide_eq_true_eq]
              exact hgt
            rw [if_pos hneg]
            simp only
            constructor <;> omega
          · have hlt : ¬ (un ≥ 2 ^ 63) := by
              intro hge
              apply hB
              simp only [hneg, decide_False, Bool.not_false, Bool.true_and, decide_eq_true_eq]
              exact hge
            rw [if_neg hneg]
            simp only
            constructor <;> omega

theorem string2int_range (l : List Str) :
    ∀ x ∈ (string2int l).1, -(2 ^ 63) ≤ x ∧ x < 2 ^ 63 := by
  induction l with
  | nil => simp [string2int]
  | cons a rest ih =>
    intro x hx
    unfold string2int at hx
    split_ifs at hx
    · simp only [List.mem_cons] at hx
      rcases hx with hx | hx
      · rw [hx]
        exact parseInt_range a
      · exact ih x hx
    · simp at hx

theorem getD_range (l : List Int) (i : Nat)
    (h : ∀ x ∈ l, -(2 ^ 63) ≤ x ∧ x < (2 : Int) ^ 63) :
    -(2 ^ 63) ≤ l.getD i 0 ∧ l.getD i 0 < (2 : Int) ^ 63 := by
  cases hi : l[i]? with
  | none => simp [List.getD, hi]
  | some v =>
    rw [getD_of_getElem? l i v hi]
    obtain ⟨hlt, hv⟩ := List.getElem?_eq_some_iff.mp hi
    exact h v (hv ▸ List.getElem_mem hlt)

/-- A position inside the first exon of a model is located as Ex1. -/
theorem breakSearch_first_exon (chr : Str) (p : Int) (info : geneRecord) (lo hi : Int)
    (tl : List Int) (rest : List (List Int)) (hchr : ':' ∉ chr) (hc : info.chr = chr)
    (hex : info.exon = (lo :: hi :: tl) :: rest)
    (hlo : -(2 ^ 63) ≤ p) (hhi : p < 2 ^ 63) (h1 : lo ≤ p) (h2 : p < hi) :
    breakSearch (chr ++ ':' :: itoa p) info = some ("Ex1".toList, true) := by
  unfold breakSearch
  rw [split_append_sep ':' chr (itoa p) hchr, split_of_not_mem ':' (itoa p)
    (colon_not_mem_itoa p)]
  simp only [List.getElem?_cons_zero, List.getElem?_cons_succ, parseInt_itoa p hlo hhi, hc,
    hex, searchEdges, ne_eq, not_true_eq_false, if_false, h1, h2, if_true]
  rfl


/-! ## C17: index 1 is the first transcribed exon -/

theorem head_fileExons (starts ends frames : List Int) (hn : 1 ≤ starts.length) :
    (fileExons starts ends frames).head? = some (fileExon starts ends frames 0) := by
  unfold fileExons
  obtain ⟨m, hm⟩ : ∃ m, starts.length = m + 1 := ⟨starts.length - 1, by omega⟩
  rw [hm, List.range_succ_eq_map]
  rfl

theorem head_minusOrder_fileExons (starts ends frames : List Int) (hn : 1 ≤ starts.length) :
    (minusOrder (fileExons starts ends frames)).head?
      = some (fileExon starts ends frames (starts.length - 1)) := by
  unfold fileExons
  obtain ⟨m, hm⟩ : ∃ m, starts.length = m + 1 := ⟨starts.length - 1, by omega⟩
  rw [hm, List.range_succ, List.map_append, List.map_singleton, minusOrder_snoc]
  rfl

/-- The first element of the exon list that a row builds. -/
theorem head_built_exons (strand : Str) (starts ends frames : List Int)
    (ex intr : List (List Int)) (hn : 1 ≤ starts.length)
    (hs : strand = "+".toList ∨ strand = "-".toList)
    (h : buildExons strand starts ends frames = some (ex, intr)) :
    ex.head? = some (fileExon starts ends frames
      (if strand = "+".toList then 0 else starts.length - 1)) := by
  obtain ⟨hex, _⟩ := buildExons_some strand starts ends frames ex intr h
  rw [hex]
  rcases hs with e | e
  · subst e
    simp only [builtOrder, ne_eq, not_true_eq_false, decide_False, Bool.false_eq_true,
      if_false, if_true]
    exact head_fileExons starts ends frames hn
  · subst e
    have hne : ¬ ("-".toList = "+".toList) := by decide
    simp only [builtOrder, ne_eq, hne, not_false_eq_true, decide_True, if_true, if_false]
    exact head_minusOrder_fileExons starts ends frames hn

/-- C17. Index 1 is the first transcribed exon. For every annotation row with at least
one exon on which `getDB` does not panic, the first element of the exon list of the
model is the first file-order exon when the strand is `+` and the last file-order exon
when the strand is `-`; hence every position inside that exon, on the chromosome of the
row (a name without a colon), is located as Ex1. -/
theorem getDBRow_first_exon (db db1 : TranInfo × GeneTran) (line : Str)
    (h : getDBRow db line = some db1) (hn : 1 ≤ (rowStarts line).length)
    (hs : rowStrand line = "+".toList ∨ rowStrand line = "-".toList)
    (hchr : ':' ∉ rowChr line) :
    (infoOf db1.1 (rowTrans line)).exon.head?
        = some (fileExon (rowStarts line) (rowEnds line) (rowFrames line)
            (if rowStrand line = "+".toList then 0 else (rowStarts line).length - 1)) ∧
      ∀ p : Int,
        (rowStarts line).getD
            (if rowStrand line = "+".toList then 0 else (rowStarts line).length - 1) 0 ≤ p →
        p < (rowEnds line).getD
            (if rowStrand line = "+".toList then 0 else (rowStarts line).length - 1) 0 →
        breakSearch (rowChr line ++ ':' :: itoa p) (infoOf db1.1 (rowTrans line))
          = some ("Ex1".toList, true) := by
  obtain ⟨ex, intr, hb, h1, _⟩ := getDBRow_some db db1 line h
  have hhead := head_built_exons _ _ _ _ ex intr hn hs hb
  rw [h1, infoOf_mapPut]
  refine ⟨hhead, ?_⟩
  intro p hlo hhi
  cases hex : ex with
  | nil => rw [hex] at hhead; simp at hhead
  | cons first rest =>
    rw [hex] at hhead
    simp only [List.head?_cons, Option.some.injEq] at hhead
    have hs1 := getD_range (rowStarts line)
      (if rowStrand line = "+".toList then 0 else (rowStarts line).length - 1)
      (string2int_range _)
    have he1 := getD_range (rowEnds line)
      (if rowStrand line = "+".toList then 0 else (rowStarts line).length - 1)
      (string2int_range _)
    exact breakSearch_first_exon (rowChr line) p _ _ _ _ rest hchr rfl
      (by rw [hhead]; rfl) (by omega) (by omega) hlo hhi


/-- Witness of C17: on the row `rowMinus3` (strand `-`, exons [100,200), [300,400),
[500,600) in file order) the first element of the exon list is [500,600), and the
position 550 is located as Ex1. -/
theorem getDBRow_first_exon_witness :
    ∃ db1, getDBRow emptyDB rowMinus3 = some db1 ∧
      (infoOf db1.1 "T1".toList).exon.head? = some [500, 600, 0] ∧
      breakSearch "chr1:550".toList (infoOf db1.1 "T1".toList)
        = some ("Ex1".toList, true) := by
  have hs : (getDBRow emptyDB rowMinus3).isSome = true := by decide
  obtain ⟨db1, h⟩ := Option.isSome_iff_exists.mp hs
  obtain ⟨h1, h2⟩ := getDBRow_first_exon emptyDB db1 rowMinus3 h (by decide)
    (Or.inr (by decide)) (by decide)
  have e : rowTrans rowMinus3 = "T1".toList := by decide
  have e2 : fileExon (rowStarts rowMinus3) (rowEnds rowMinus3) (rowFrames rowMinus3)
      (if rowStrand rowMinus3 = "+".toList then 0 else (rowStarts rowMinus3).length - 1)
      = [500, 600, 0] := by decide
  have e3 : rowChr rowMinus3 ++ ':' :: itoa 550 = "chr1:550".toList := by decide
  rw [e] at h1 h2
  rw [e2] at h1
  have h3 := h2 550 (by decide) (by decide)
  rw [e3] at h3
  exact ⟨db1, h, h1, h3⟩

/-! ## C12: interval contiguity -/

/-- C12, as stated, fails on strand `-`. For the row `rowMinus2` (exons [100,200) and
[300,400), strand `-`) the model has the exon list [[300,400), [100,200)] and the intron
list [[200,300)]: exons[0].end is 400 and introns[0].start is 200, and introns[0].end
is 300 while exons[1].start is 100. -/
theorem contiguity_fails_on_minus :
    ((getDB rowMinus2).bind (fun db => db.1 "T1".toList)).map
        (fun r => (r.exon, r.intron))
      = some ([[300, 400, 0], [100, 200, 0]], [[200, 300]]) ∧
    ((getDB rowMinus2).bind (fun db => db.1 "T1".toList)).map
        (fun r => ((r.exon[0]?.bind (fun e => e[1]?), r.intron[0]?.bind (fun e => e[0]?)),
          (r.intron[0]?.bind (fun e => e[1]?), r.exon[1]?.bind (fun e => e[0]?))))
      = some ((some 400, some 200), (some 300, some 100)) := by
  decide

theorem getElem?_fileExons (starts ends frames : List Int) (i : Nat) (hi : i < starts.length) :
    (fileExons starts ends frames)[i]? = some (fileExon starts ends frames i) := by
  simp [fileExons, List.getElem?_map, List.getElem?_range hi]

theorem getElem?_fileIntrons (starts ends : List Int) (i : Nat) (hi : i < starts.length - 1) :
    (fileIntrons starts ends)[i]? = some (fileIntron starts ends i) := by
  simp [fileIntrons, List.getElem?_map, List.getElem?_range hi]

theorem length_fileIntrons (starts ends : List Int) :
    (fileIntrons starts ends).length = starts.length - 1 := by
  simp [fileIntrons]

/-- C12, amended. For every annotation row of strand `+` on which `getDB` does not
panic, the model is contiguous: for every index i of the intron list, exons[i] is
(s, e, f), introns[i] is (e, s2) and exons[i+1] is (s2, e2, f2), that is
exons[i].end = introns[i].start and introns[i].end = exons[i+1].start. For a row of
another strand with exactly two exons the lists are reversed and the equalities hold
mirrored: exons[0].start = introns[0].end and introns[0].start = exons[1].end. -/
theorem getDBRow_contiguity (db db1 : TranInfo × GeneTran) (line : Str)
    (h : getDBRow db line = some db1) :
    (rowStrand line = "+".toList →
      ∀ i, i < (infoOf db1.1 (rowTrans line)).intron.length →
        ∃ s e f s2 e2 f2 : Int,
          (infoOf db1.1 (rowTrans line)).exon[i]? = some [s, e, f] ∧
          (infoOf db1.1 (rowTrans line)).intron[i]? = some [e, s2] ∧
          (infoOf db1.1 (rowTrans line)).exon[i + 1]? = some [s2, e2, f2]) ∧
    (rowStrand line ≠ "+".toList → (rowStarts line).length = 2 →
      ∃ s e f s2 e2 f2 : Int,
        (infoOf db1.1 (rowTrans line)).exon = [[s2, e2, f2], [s, e, f]] ∧
        (infoOf db1.1 (rowTrans line)).intron = [[e, s2]]) := by
  obtain ⟨ex, intr, hb, h1, _⟩ := getDBRow_some db db1 line h
  obtain ⟨hex, hin⟩ := buildExons_some _ _ _ _ ex intr hb
  rw [h1, infoOf_mapPut]
  constructor
  · intro hs i hi
    have hd : decide (rowStrand line ≠ "+".toList) = false :=
      decide_eq_false (fun hne => hne hs)
    rw [hd] at hex hin
    simp only [builtOrder, Bool.false_eq_true, if_false] at hex hin
    simp only [hin, length_fileIntrons] at hi
    refine ⟨(rowStarts line).getD i 0, (rowEnds line).getD i 0, (rowFrames line).getD i 0,
      (rowStarts line).getD (i + 1) 0, (rowEnds line).getD (i + 1) 0,
      (rowFrames line).getD (i + 1) 0, ?_, ?_, ?_⟩
    · simp only [hex]
      exact getElem?_fileExons _ _ _ i (by omega)
    · simp only [hin]
      exact getElem?_fileIntrons _ _ i hi
    · simp only [hex]
      exact getElem?_fileExons _ _ _ (i + 1) (by omega)
  · intro hs hn
    have hd : decide (rowStrand line ≠ "+".toList) = true := decide_eq_true hs
    rw [hd] at hex hin
    refine ⟨(rowStarts line).getD 0 0, (rowEnds line).getD 0 0, (rowFrames line).getD 0 0,
      (rowStarts line).getD 1 0, (rowEnds line).getD 1 0, (rowFrames line).getD 1 0, ?_, ?_⟩
    · simp only [hex, builtOrder, if_true, fileExons, hn, minusOrder]
      rfl
    · simp only [hin, builtOrder, if_true, fileIntrons, hn, minusOrder]
      rfl


/-- Witness of C12: on the row `rowPlus3` (strand `+`, exons [100,200), [300,400),
[500,600)) the model is contiguous at index 0, and its lists are the file-order
exons and the gaps between them. -/
theorem getDBRow_contiguity_witness :
    (∃ db1, getDBRow emptyDB rowPlus3 = some db1 ∧
      ∃ s e f s2 e2 f2 : Int,
        (infoOf db1.1 (rowTrans rowPlus3)).exon[0]? = some [s, e, f] ∧
        (infoOf db1.1 (rowTrans rowPlus3)).intron[0]? = some [e, s2] ∧
        (infoOf db1.1 (rowTrans rowPlus3)).exon[0 + 1]? = some [s2, e2, f2]) ∧
    ((getDB rowPlus3).bind (fun db => db.1 "T1".toList)).map (fun r => (r.exon, r.intron))
      = some ([[100, 200, 0], [300, 400, 0], [500, 600, 0]], [[200, 300], [400, 500]]) := by
  refine ⟨?_, by decide⟩
  have hs : (getDBRow emptyDB rowPlus3).isSome = true := by decide
  obtain ⟨db1, h⟩ := Option.isSome_iff_exists.mp hs
  have hlen : (getDBRow emptyDB rowPlus3).map
      (fun db => (infoOf db.1 (rowTrans rowPlus3)).intron.length) = some 2 := by decide
  rw [h] at hlen
  simp only [Option.map_some', Option.some.injEq] at hlen
  exact ⟨db1, h, (getDBRow_contiguity emptyDB db1 rowPlus3 h).1 (by decide) 0 (by omega)⟩

/-! ## C11: `locate` is total on the transcribed region -/

/-- Every position between the first start and an end lies in an exon or in a gap
between two consecutive exons. -/
theorem cover_upto (starts ends : List Int) (p : Int) (h0 : starts.getD 0 0 ≤ p) :
    ∀ k, p < ends.getD k 0 →
      ∃ i, i ≤ k ∧ ((starts.getD i 0 ≤ p ∧ p < ends.getD i 0) ∨
        (i < k ∧ ends.getD i 0 ≤ p ∧ p < starts.getD (i + 1) 0)) := by
  intro k
  induction k with
  | zero =>
    intro hk
    exact ⟨0, Nat.le_refl _, Or.inl ⟨h0, hk⟩⟩
  | succ k ih =>
    intro hk
    by_cases h1 : starts.getD (k + 1) 0 ≤ p
    · exact ⟨k + 1, Nat.le_refl _, Or.inl ⟨h1, hk⟩⟩
    · by_cases h2 : ends.getD k 0 ≤ p
      · exact ⟨k, by omega, Or.inr ⟨by omega, h2, by omega⟩⟩
      · obtain ⟨i, hi, hcase⟩ := ih (by omega)
        refine ⟨i, by omega, ?_⟩
        rcases hcase with hc | ⟨hlt, hc⟩
        · exact Or.inl hc
        · exact Or.inr ⟨by omega, hc⟩

theorem inside_fileExon (starts ends frames : List Int) (i : Nat) (p : Int)
    (h1 : starts.getD i 0 ≤ p) (h2 : p < ends.getD i 0) :
    inside p (fileExon starts ends frames i) = true := by
  simp only [inside, fileExon, h1, h2, decide_True, Bool.and_self]

theorem inside_fileIntron (starts ends : List Int) (i : Nat) (p : Int)
    (h1 : ends.getD i 0 ≤ p) (h2 : p < starts.getD (i + 1) 0) :
    inside p (fileIntron starts ends i) = true := by
  simp only [inside, fileIntron, h1, h2, decide_True, Bool.and_self]

theorem mem_fileExons (starts ends frames : List Int) (i : Nat) (hi : i < starts.length) :
    fileExon starts ends frames i ∈ fileExons starts ends frames := by
  unfold fileExons
  exact List.mem_map.mpr ⟨i, List.mem_range.mpr hi, rfl⟩

theorem mem_fileIntrons (starts ends : List Int) (i : Nat) (hi : i < starts.length - 1) :
    fileIntron starts ends i ∈ fileIntrons starts ends := by
  unfold fileIntrons
  exact List.mem_map.mpr ⟨i, List.mem_range.mpr hi, rfl⟩

theorem length_of_mem_fileExons (starts ends frames : List Int) (e : List Int)
    (h : e ∈ fileExons starts ends frames) : 2 ≤ e.length := by
  unfold fileExons at h
  obtain ⟨i, _, hi⟩ := List.mem_map.mp h
  rw [← hi]
  simp [fileExon]

theorem length_of_mem_fileIntrons (starts ends : List Int) (e : List Int)
    (h : e ∈ fileIntrons starts ends) : 2 ≤ e.length := by
  unfold fileIntrons at h
  obtain ⟨i, _, hi⟩ := List.mem_map.mp h
  rw [← hi]
  simp [fileIntron]

/-- The search of `breakSearch` on a model with two-bound intervals, for a breakpoint
text `chr:pos`, is the reference `locate`. -/
theorem breakSearch_locate (chr : Str) (pos : Int) (info : geneRecord)
    (hchr : ':' ∉ chr) (hlo : -(2 ^ 63) ≤ pos) (hhi : pos < 2 ^ 63)
    (hwf : wellFormed info) :
    breakSearch (chr ++ ':' :: itoa pos) info = some (locate chr pos info) := by
  unfold breakSearch locate
  rw [split_append_sep ':' chr (itoa pos) hchr, split_of_not_mem ':' (itoa pos)
    (colon_not_mem_itoa pos)]
  simp only [List.getElem?_cons_zero, List.getElem?_cons_succ, parseInt_itoa pos hlo hhi,
    searchEdges_eq pos info.exon 0 hwf.1, searchEdges_eq pos info.intron 0 hwf.2]
  by_cases hc : chr = info.chr
  · simp only [hc, ne_eq, not_true_eq_false, if_false]
    cases info.exon.findIdx? (inside pos) <;> cases info.intron.findIdx? (inside pos) <;> rfl
  · simp [hc]

/-- When some exon or intron of the model contains the position, `locate` returns an
Ex or an In location. -/
theorem locate_found (chr : Str) (pos : Int) (info : geneRecord) (hc : chr = info.chr)
    (h : (∃ e ∈ info.exon, inside pos e = true) ∨ (∃ e ∈ info.intron, inside pos e = true)) :
    ∃ loc, locate chr pos info = (loc, true) ∧
      ((∃ k : Int, loc = "Ex".toList ++ itoa k) ∨ (∃ k : Int, loc = "In".toList ++ itoa k)) := by
  unfold locate
  simp only [hc, ne_eq, not_true_eq_false, if_false]
  cases he : info.exon.findIdx? (inside pos) with
  | some i => exact ⟨_, rfl, Or.inl ⟨_, rfl⟩⟩
  | none =>
    cases hi : info.intron.findIdx? (inside pos) with
    | some j => exact ⟨_, rfl, Or.inr ⟨_, rfl⟩⟩
    | none =>
      exfalso
      rw [List.findIdx?_eq_none_iff] at he hi
      rcases h with ⟨e, hmem, hin⟩ | ⟨e, hmem, hin⟩
      · have := he e hmem
        rw [hin] at this
        exact absurd this (by decide)
      · have := hi e hmem
        rw [hin] at this
        exact absurd this (by decide)


/-- C11. `locate` is total on the transcribed region. For every annotation row on which
`getDB` does not panic, whose first exon starts at the transcript start and whose last
exon ends at the transcript end, on either strand, and for every position p with
transcript start <= p < transcript end on the chromosome of the model (a name without a
colon), `breakSearch` returns an Ex or an In location, never not-found. The order of the
exons is not needed for this. -/
theorem getDBRow_locate_total (db db1 : TranInfo × GeneTran) (line : Str)
    (h : getDBRow db line = some db1) (hchr : ':' ∉ rowChr line)
    (hfirst : (rowStarts line)[0]? = some (rowTransRegion line).1)
    (hlast : (rowEnds line)[(rowStarts line).length - 1]? = some (rowTransRegion line).2)
    (p : Int)
    (hlo : (infoOf db1.1 (rowTrans line)).transRegion.1 ≤ p)
    (hhi : p < (infoOf db1.1 (rowTrans line)).transRegion.2) :
    ∃ loc,
      breakSearch ((infoOf db1.1 (rowTrans line)).chr ++ ':' :: itoa p)
          (infoOf db1.1 (rowTrans line)) = some (loc, true) ∧
      ((∃ k : Int, loc = "Ex".toList ++ itoa k) ∨ (∃ k : Int, loc = "In".toList ++ itoa k)) := by
  obtain ⟨ex, intr, hb, h1, _⟩ := getDBRow_some db db1 line h
  obtain ⟨hex, hin⟩ := buildExons_some _ _ _ _ ex intr hb
  rw [h1, infoOf_mapPut] at hlo hhi ⊢
  simp only at hlo hhi ⊢
  have hn : 1 ≤ (rowStarts line).length := by
    have := (List.getElem?_eq_some_iff.mp hfirst).1
    omega
  have e0 : (rowStarts line).getD 0 0 = (rowTransRegion line).1 :=
    getD_of_getElem? _ _ _ hfirst
  have e1 : (rowEnds line).getD ((rowStarts line).length - 1) 0 = (rowTransRegion line).2 :=
    getD_of_getElem? _ _ _ hlast
  obtain ⟨i, hi, hcase⟩ := cover_upto (rowStarts line) (rowEnds line) p (by omega)
    ((rowStarts line).length - 1) (by omega)
  have hr1 : -(2 ^ 63) ≤ (rowTransRegion line).1 := (parseInt_range _).1
  have hr2 : (rowTransRegion line).2 < 2 ^ 63 := (parseInt_range _).2
  have hwf : wellFormed
      { exon := ex, intron := intr, transRegion := rowTransRegion line,
        cdsRegion := rowCdsRegion line, chr := rowChr line, strand := rowStrand line,
        geneSymbol := rowGene line } := by
    constructor
    · intro e he
      simp only [hex, mem_builtOrder] at he
      exact length_of_mem_fileExons _ _ _ e he
    · intro e he
      simp only [hin, mem_builtOrder] at he
      exact length_of_mem_fileIntrons _ _ e he
  rw [breakSearch_locate (rowChr line) p _ hchr (by omega) (by omega) hwf]
  have hfound := locate_found (rowChr line) p
    { exon := ex, intron := intr, transRegion := rowTransRegion line,
      cdsRegion := rowCdsRegion line, chr := rowChr line, strand := rowStrand line,
      geneSymbol := rowGene line } rfl
    (by
      rcases hcase with ⟨c1, c2⟩ | ⟨hlt, c1, c2⟩
      · refine Or.inl ⟨fileExon (rowStarts line) (rowEnds line) (rowFrames line) i, ?_,
          inside_fileExon _ _ _ i p c1 c2⟩
        simp only [hex, mem_builtOrder]
        exact mem_fileExons _ _ _ i (by omega)
      · refine Or.inr ⟨fileIntron (rowStarts line) (rowEnds line) i, ?_,
          inside_fileIntron _ _ i p c1 c2⟩
        simp only [hin, mem_builtOrder]
        exact mem_fileIntrons _ _ i (by omega))
  obtain ⟨loc, hl, hform⟩ := hfound
  exact ⟨loc, by rw [hl], hform⟩

/-- Witness of C11: on the row `rowMinus3` (strand `-`, transcribed region [100,600))
the position 250, which lies in the gap between the first two file-order exons, is
found; the evaluation gives the location In2. -/
theorem getDBRow_locate_total_witness :
    (∃ db1, getDBRow emptyDB rowMinus3 = some db1 ∧
      ∃ loc, breakSearch ((infoOf db1.1 (rowTrans rowMinus3)).chr ++ ':' :: itoa 250)
          (infoOf db1.1 (rowTrans rowMinus3)) = some (loc, true) ∧
        ((∃ k : Int, loc = "Ex".toList ++ itoa k) ∨
          (∃ k : Int, loc = "In".toList ++ itoa k))) ∧
    (getDB rowMinus3).bind (fun db => (db.1 "T1".toList).bind
        (fun r => breakSearch "chr1:250".toList r)) = some ("In2".toList, true) := by
  refine ⟨?_, by decide⟩
  have hs : (getDBRow emptyDB rowMinus3).isSome = true := by decide
  obtain ⟨db1, h⟩ := Option.isSome_iff_exists.mp hs
  have hreg : (getDBRow emptyDB rowMinus3).map
      (fun db => (infoOf db.1 (rowTrans rowMinus3)).transRegion) = some (100, 600) := by
    decide
  rw [h] at hreg
  simp only [Option.map_some', Option.some.injEq] at hreg
  exact ⟨db1, h, getDBRow_locate_total emptyDB db1 rowMinus3 h (by decide) (by decide)
    (by decide) 250 (by rw [hreg]; decide) (by rw [hreg]; decide)⟩


/-! ## C13: strand correction is an involution -/

theorem reverse_reverse (d : Str) : reverse (reverse d) = d := by
  unfold reverse
  by_cases h1 : d = ">".toList
  · subst h1
    decide
  · by_cases h2 : d = "<".toList
    · subst h2
      decide
    · simp only [h1, h2, if_false]

theorem corrDir_corrDir (strandA strandB gene d : Str) :
    corrDir strandA strandB gene (corrDir strandA strandB gene d) = d := by
  unfold corrDir
  split_ifs <;> simp only [reverse_reverse]

/-- C13. Strand correction is an involution. For every tuple (gene, dir, gene, dir)
with genes among GENE_A, GENE_B and directions among `>`, `<`, and every pair of
strands, the strand-correction step returns a tuple on which the same step returns the
original tuple; and `reverse (reverse d) = d` for every text d. -/
theorem strandCorrect_involution (o : Ori) (strandA strandB : Str)
    (h0 : isPlaceholder o.s0) (h2 : isPlaceholder o.s2)
    (hd1 : o.s1 = ">".toList ∨ o.s1 = "<".toList)
    (hd3 : o.s3 = ">".toList ∨ o.s3 = "<".toList) :
    (∃ m, strandCorrect strandA strandB o = some m ∧
      strandCorrect strandA strandB m = some o) ∧
    ∀ d : Str, reverse (reverse d) = d := by
  have g0 : geneSlot o.s0 := h0.elim Or.inl (fun h => Or.inr (Or.inl h))
  have g2 : geneSlot o.s2 := h2.elim Or.inl (fun h => Or.inr (Or.inl h))
  have d1 : dirSlot o.s1 := hd1.elim Or.inl (fun h => Or.inr (Or.inl h))
  have d3 : dirSlot o.s3 := hd3.elim Or.inl (fun h => Or.inr (Or.inl h))
  refine ⟨⟨_, strandCorrect_eq strandA strandB o ⟨g0, d1, g2, d3⟩, ?_⟩, reverse_reverse⟩
  rw [strandCorrect_eq strandA strandB
    ⟨o.s0, corrDir strandA strandB o.s0 o.s1, o.s2, corrDir strandA strandB o.s2 o.s3⟩
    ⟨g0, corrDir_dirSlot _ _ _ d1, g2, corrDir_dirSlot _ _ _ d3⟩]
  simp only [corrDir_corrDir]

/-- Witness of C13: the tuple (GENE_A, >, GENE_B, <) with strands `-` and `+` is
corrected to (GENE_A, <, GENE_B, <), and correcting again gives the tuple back. -/
theorem strandCorrect_involution_witness :
    (∃ m, strandCorrect "-".toList "+".toList (mkOri "GENE_A" ">" "GENE_B" "<") = some m ∧
      strandCorrect "-".toList "+".toList m = some (mkOri "GENE_A" ">" "GENE_B" "<")) ∧
    strandCorrect "-".toList "+".toList (mkOri "GENE_A" ">" "GENE_B" "<")
      = some (mkOri "GENE_A" "<" "GENE_B" "<") :=
  ⟨(strandCorrect_involution (mkOri "GENE_A" ">" "GENE_B" "<") "-".toList "+".toList
    (Or.inl rfl) (Or.inr rfl) (Or.inl rfl) (Or.inr rfl)).1, by decide⟩

/-! ## C14: fusion within a single gene -/

/-- C14. Fusion within a single gene. For every record that is read without panic up to
its annotation and whose ANN gene field (4th pipe-delimited field of the annotation
text) contains no ampersand, `recordParser` returns the error Fusion within single
gene, hence no line, whatever the SV type, the breakpoints and the maps are. -/
theorem recordParser_single_gene (variant : Variant) (svtype : Str) (tran2info : TranInfo)
    (gene2tran : GeneTran) (targetTrans : Str → JVal) (h : Hypothesis) (sample : Sample)
    (annTarget cell : Str)
    (hh : hypothesisOf variant svtype = some h)
    (hs : variant.Samples[0]? = some sample)
    (ha : annTargetOf variant.ANN = some annTarget)
    (hc : (split '|' annTarget)[3]? = some cell)
    (hamp : contains cell "&".toList = false) :
    recordParser variant svtype tran2info gene2tran targetTrans
      = .error "Fusion within single gene".toList := by
  unfold recordParser
  simp only [hh, hs, ha, hc, hamp, Bool.false_eq_true, if_false]

/-- Witness of C14 (scenario C): the record `recSingle` names the single gene G. -/
theorem recordParser_single_gene_witness :
    recordParser recSingle "BND".toList dbTwo geneIdx noOverride
      = .error "Fusion within single gene".toList :=
  recordParser_single_gene recSingle "BND".toList dbTwo geneIdx noOverride
    ⟨"chr1:350".toList, "chr5:550".toList, mkOri "GENE_A" ">" "GENE_B" "<", "BND".toList⟩
    ⟨"7".toList, "3".toList⟩ "N]CHR5:550]|bnd|HIGH|G|x".toList "G".toList
    (by decide) (by decide) (by decide) (by decide) (by decide)

/-! ## C15: population of the gene index -/

/-- C15. On the file `fileGG`, whose two rows belong to gene G and whose first
transcript is itself named G, the gene index of G after `getDB` is [T2]: the second row
replaces the list, because line 72 looks the gene symbol up in `tran2info`, where the
first row has stored the transcript G. On the file `fileTG` (transcripts T1 and T2) the
list is [T1, T2]. -/
theorem getDB_gene_index_replaced :
    (getDB fileGG).bind (fun db => db.2 "G".toList) = some ["T2".toList] ∧
      (getDB fileTG).bind (fun db => db.2 "G".toList) = some ["T1".toList, "T2".toList] := by
  decide


/-! ## Lemmas on `resolve`: what a returned line is made of -/

/-- When `resolve` returns a line, the breakpoints reconciled, strand correction
returned a tuple with equal directions, promotion returned, and the line is made of the
seven fields. -/
theorem resolve_ok_inv (h : Hypothesis) (pe sr callID geneA geneB transA transB : Str)
    (tran2info : TranInfo) (line : Str)
    (hr : resolve h pe sr callID geneA geneB transA transB tran2info = .ok line) :
    ∃ locates consist modOri locates1,
      breakCheck h.breakA h.breakB transA transB tran2info = some (locates, consist, true) ∧
      strandCorrect
          (if consist = "wrong".toList then (infoOf tran2info transB).strand
            else (infoOf tran2info transA).strand)
          (if consist = "wrong".toList then (infoOf tran2info transA).strand
            else (infoOf tran2info transB).strand)
          h.orientation = some modOri ∧
      modOri.s1 = modOri.s3 ∧
      promote modOri locates = some locates1 ∧
      line = join "\t".toList (outStrList
        (fuseGeneOf modOri (if consist = "wrong".toList then geneB else geneA)
          (if consist = "wrong".toList then geneA else geneB))
        (fuseDetailOf modOri (if consist = "wrong".toList then geneB else geneA)
          (if consist = "wrong".toList then geneA else geneB)
          (if consist = "wrong".toList then transB else transA)
          (if consist = "wrong".toList then transA else transB) locates1)
        h.svtype callID h.breakA h.breakB pe sr) := by
  simp only [resolve] at hr
  cases hbc : breakCheck h.breakA h.breakB transA transB tran2info with
  | none => simp only [hbc] at hr; exact Res.noConfusion hr
  | some r =>
    obtain ⟨locates, consist, ok⟩ := r
    simp only [hbc] at hr
    cases ok with
    | false => simp only [Bool.not_false, if_true] at hr; exact Res.noConfusion hr
    | true =>
      simp only [Bool.not_true, Bool.false_eq_true, if_false] at hr
      cases hsc : strandCorrect
          (if consist = "wrong".toList then (infoOf tran2info transB).strand
            else (infoOf tran2info transA).strand)
          (if consist = "wrong".toList then (infoOf tran2info transA).strand
            else (infoOf tran2info transB).strand)
          h.orientation with
      | none => simp only [hsc] at hr; exact Res.noConfusion hr
      | some modOri =>
        simp only [hsc] at hr
        by_cases hcons : modOri.s1 = modOri.s3
        · rw [if_pos hcons] at hr
          cases hp : promote modOri locates with
          | none => simp only [hp] at hr; exact Res.noConfusion hr
          | some locates1 =>
            simp only [hp, Res.ok.injEq] at hr
            exact ⟨locates, consist, modOri, locates1, rfl, hsc, hcons, hp, hr.symm⟩
        · rw [if_neg hcons] at hr
          exact Res.noConfusion hr

/-- The fused name and the detail string of a tuple with placeholders in slots 1 and 3
and a direction in slot 2, for gene symbols, transcript IDs and locations free of the
placeholder texts. -/
theorem fuse_fields (modOri : Ori) (geneA geneB transA transB : Str) (locates : Locates)
    (hp0 : isPlaceholder modOri.s0) (hp2 : isPlaceholder modOri.s2)
    (hd : modOri.s1 = ">".toList ∨ modOri.s1 = "<".toList)
    (hcA : clean geneA) (htA : clean transA) (htB : clean transB) (hng : noG locates) :
    fuseGeneOf modOri geneA geneB =
        (if modOri.s1 = ">".toList then
          join "-".toList [pairMapGet geneA geneB modOri.s0, pairMapGet geneA geneB modOri.s2]
        else
          join "-".toList [pairMapGet geneA geneB modOri.s2, pairMapGet geneA geneB modOri.s0]) ∧
      fuseDetailOf modOri geneA geneB transA transB locates =
        (if modOri.s1 = ">".toList then
          join ">".toList [sideText geneA geneB transA transB locates modOri.s0,
            sideText geneA geneB transA transB locates modOri.s2]
        else
          join ">".toList [sideText geneA geneB transA transB locates modOri.s2,
            sideText geneA geneB transA transB locates modOri.s0]) := by
  have hloc : ∀ p, clean (pairMapGet (locGet locates "breakA".toList)
      (locGet locates "breakB".toList) p) := fun p =>
    pairMapGet_clean _ _ p (clean_of_not_mem _ (hng _)) (clean_of_not_mem _ (hng _))
  have htr : ∀ p, clean (pairMapGet transA transB p) := fun p =>
    pairMapGet_clean _ _ p htA htB
  have hne : ¬ ("<".toList = ">".toList) := by decide
  rcases hd with hd | hd
  · simp only [fuseGeneOf, fuseDetailOf, detailSide, hd, if_true, sideText]
    rw [geneRep_name _ _ _ _ hp0 hp2 hcA,
      geneRep_detail _ _ _ _ _ _ _ _ hp0 hp2 hcA (htr _) (hloc _) (htr _) (hloc _)]
    exact ⟨rfl, rfl⟩
  · simp only [fuseGeneOf, fuseDetailOf, detailSide, hd, hne, if_false, if_true, sideText]
    rw [geneRep_name _ _ _ _ hp2 hp0 hcA,
      geneRep_detail _ _ _ _ _ _ _ _ hp2 hp0 hcA (htr _) (hloc _) (htr _) (hloc _)]
    exact ⟨rfl, rfl⟩

theorem Ori.isTemplate.shaped {o : Ori} (ho : o.isTemplate) : o.shaped := by
  obtain ⟨hg, h1, h3⟩ := ho
  refine ⟨?_, h1.elim Or.inl (fun h => Or.inr (Or.inl h)), ?_,
    h3.elim Or.inl (fun h => Or.inr (Or.inl h))⟩
  · rcases hg with ⟨a, _⟩ | ⟨a, _⟩
    · exact Or.inl a
    · exact Or.inr (Or.inl a)
  · rcases hg with ⟨_, b⟩ | ⟨_, b⟩
    · exact Or.inr (Or.inl b)
    · exact Or.inl b

theorem reverse_dir {d : Str} (hd : d = ">".toList ∨ d = "<".toList) :
    reverse d = ">".toList ∨ reverse d = "<".toList := by
  rcases hd with h | h <;> subst h
  · exact Or.inr (by decide)
  · exact Or.inl (by decide)

theorem corrDir_dir (strandA strandB gene : Str) {d : Str}
    (hd : d = ">".toList ∨ d = "<".toList) :
    corrDir strandA strandB gene d = ">".toList ∨ corrDir strandA strandB gene d = "<".toList := by
  unfold corrDir
  split_ifs
  · exact reverse_dir (reverse_dir hd)
  · exact reverse_dir hd
  · exact reverse_dir hd
  · exact hd


/-! ## C18: the strand-parity rule -/

/-- A template passes the consistency test exactly when its two directions are equal
and the strands have the same sign, or its directions differ and the strands differ. -/
theorem corrDir_parity (strandA strandB : Str) (o : Ori) (ho : o.isTemplate) :
    corrDir strandA strandB o.s0 o.s1 = corrDir strandA strandB o.s2 o.s3 ↔
      (o.s1 = o.s3 ↔ sameStrand strandA strandB) := by
  obtain ⟨hg, h1, h3⟩ := ho
  unfold sameStrand
  rcases hg with ⟨a, b⟩ | ⟨a, b⟩ <;> rcases h1 with c | c <;> rcases h3 with d | d <;>
    rw [a, b, c, d] <;>
    by_cases hA : strandA = "-".toList <;> by_cases hB : strandB = "-".toList <;>
    simp only [corrDir, hA, hB, true_and, false_and, if_false] <;> decide

/-- For reconciled breakpoints and a tuple of the shape (gene, dir, gene, dir),
`resolve` returns a line exactly when the corrected directions are equal. -/
theorem resolve_ok_iff (h : Hypothesis) (pe sr callID geneA geneB transA transB : Str)
    (tran2info : TranInfo) (locates : Locates) (consist : Str)
    (hbc : breakCheck h.breakA h.breakB transA transB tran2info
      = some (locates, consist, true))
    (ho : h.orientation.shaped) :
    (∃ line, resolve h pe sr callID geneA geneB transA transB tran2info = .ok line) ↔
      corrDir (postStrandA tran2info transA transB consist)
          (postStrandB tran2info transA transB consist) h.orientation.s0 h.orientation.s1
        = corrDir (postStrandA tran2info transA transB consist)
          (postStrandB tran2info transA transB consist) h.orientation.s2 h.orientation.s3 := by
  have hsc := strandCorrect_eq (postStrandA tran2info transA transB consist)
    (postStrandB tran2info transA transB consist) h.orientation ho
  unfold postStrandA postStrandB at hsc ⊢
  simp only [resolve, hbc, hsc, Bool.not_true, Bool.false_eq_true, if_false]
  constructor
  · rintro ⟨line, hl⟩
    by_contra hne
    rw [if_neg hne] at hl
    exact Res.noConfusion hl
  · intro heq
    obtain ⟨l, hp⟩ := promote_isSome
      ⟨h.orientation.s0, corrDir _ _ h.orientation.s0 h.orientation.s1, h.orientation.s2,
        corrDir _ _ h.orientation.s2 h.orientation.s3⟩ locates
      (corrDir_dirSlot _ _ _ ho.2.1) (corrDir_dirSlot _ _ _ ho.2.2.2)
    rw [if_pos heq, hp]
    exact ⟨_, rfl⟩

theorem contains_mid (pre sub post : Str) : contains (pre ++ (sub ++ post)) sub = true := by
  induction pre with
  | nil => exact contains_append_self sub post
  | cons c cs ih =>
    show (sub.isPrefixOf (c :: (cs ++ (sub ++ post))) || contains (cs ++ (sub ++ post)) sub)
      = true
    rw [ih, Bool.or_true]

theorem intraOrientation_del_dup (posA posB : Nat) (svtype : Str)
    (ht : svtype = "DEL".toList ∨ svtype = "DUP".toList) :
    (intraOrientation posA posB svtype).1.isTemplate ∧
      (intraOrientation posA posB svtype).1.s1 = (intraOrientation posA posB svtype).1.s3 := by
  have n1 : ¬ ("DEL".toList = "INV_1".toList) := by decide
  have n2 : ¬ ("DEL".toList = "INV_2".toList) := by decide
  have n3 : ¬ ("DUP".toList = "INV_1".toList) := by decide
  have n4 : ¬ ("DUP".toList = "INV_2".toList) := by decide
  have n5 : ¬ ("DUP".toList = "DEL".toList) := by decide
  rcases ht with e | e <;> subst e <;>
    simp only [intraOrientation, n1, n2, n3, n4, n5, if_false, if_true] <;>
    split_ifs <;>
    first
      | exact ⟨⟨Or.inl ⟨rfl, rfl⟩, Or.inl rfl, Or.inl rfl⟩, rfl⟩
      | exact ⟨⟨Or.inr ⟨rfl, rfl⟩, Or.inl rfl, Or.inl rfl⟩, rfl⟩

theorem intraOrientation_inv (posA posB : Nat) (svtype : Str)
    (ht : svtype = "INV_1".toList ∨ svtype = "INV_2".toList) :
    (intraOrientation posA posB svtype).1.isTemplate ∧
      (intraOrientation posA posB svtype).1.s1 ≠ (intraOrientation posA posB svtype).1.s3 := by
  have n1 : ¬ ("INV_2".toList = "INV_1".toList) := by decide
  rcases ht with e | e <;> subst e <;>
    simp only [intraOrientation, n1, if_false, if_true] <;>
    split_ifs <;>
    first
      | exact ⟨⟨Or.inl ⟨rfl, rfl⟩, Or.inl rfl, Or.inr rfl⟩, by decide⟩
      | exact ⟨⟨Or.inl ⟨rfl, rfl⟩, Or.inr rfl, Or.inl rfl⟩, by decide⟩
      | exact ⟨⟨Or.inr ⟨rfl, rfl⟩, Or.inl rfl, Or.inr rfl⟩, by decide⟩
      | exact ⟨⟨Or.inr ⟨rfl, rfl⟩, Or.inr rfl, Or.inl rfl⟩, by decide⟩

theorem hypothesisOf_intra (variant : Variant) (svtype : Str) (h : Hypothesis)
    (hne : svtype ≠ "BND".toList) (hh : hypothesisOf variant svtype = some h) :
    h.orientation = (intraOrientation variant.Pos variant.End svtype).1 ∧
      h.svtype = (intraOrientation variant.Pos variant.End svtype).2 := by
  simp only [hypothesisOf, hne, if_false, Option.some.injEq] at hh
  rw [← hh]
  exact ⟨rfl, rfl⟩

theorem hypothesisOf_bnd (variant : Variant) (h : Hypothesis) (alt : Str)
    (ha : variant.Alt[0]? = some alt) (hh : hypothesisOf variant "BND".toList = some h) :
    h.orientation = bndOrientation alt := by
  simp only [hypothesisOf, if_true, ha, Option.some.injEq] at hh
  rw [← hh]


theorem bnd_t_open (t rest : Str) (ht : t ≠ []) (hno : '[' ∉ t) :
    bndOrientation (t ++ '[' :: rest) = mkOri "GENE_A" ">" "GENE_B" ">" := by
  have hc : contains (t ++ '[' :: rest) "[".toList = true := contains_mid t ['['] rest
  have hsp : (split '[' (t ++ '[' :: rest))[0]? = some t := by
    rw [split_append_sep '[' t rest hno]
    exact List.getElem?_cons_zero
  have hne : ¬ (some t = some ([] : Str)) := by
    intro e
    exact ht (Option.some.inj e)
  simp only [bndOrientation, hc, if_true, hsp, hne, if_false]

theorem bnd_open_first (rest : Str) :
    bndOrientation ('[' :: rest) = mkOri "GENE_B" "<" "GENE_A" ">" := by
  have hc : contains ('[' :: rest) "[".toList = true := contains_mid [] ['['] rest
  have hsp : (split '[' ('[' :: rest))[0]? = some [] := by
    simp [split]
  simp only [bndOrientation, hc, if_true, hsp]

theorem bnd_close_first (rest : Str) (hno : '[' ∉ rest) :
    bndOrientation (']' :: rest) = mkOri "GENE_B" ">" "GENE_A" ">" := by
  have hc : contains (']' :: rest) "[".toList = false := by
    apply contains_of_not_mem
    intro hm
    rcases List.mem_cons.mp hm with e | e
    · exact absurd e (by decide)
    · exact hno e
  have hc2 : contains (']' :: rest) "]".toList = true := contains_mid [] [']'] rest
  have hsp : (split ']' (']' :: rest))[0]? = some [] := by
    simp [split]
  simp only [bndOrientation, hc, Bool.false_eq_true, if_false, hc2, if_true, hsp]

theorem bnd_t_close (t rest : Str) (ht : t ≠ []) (h1 : '[' ∉ t) (h2 : ']' ∉ t)
    (h3 : '[' ∉ rest) :
    bndOrientation (t ++ ']' :: rest) = mkOri "GENE_A" ">" "GENE_B" "<" := by
  have hc : contains (t ++ ']' :: rest) "[".toList = false := by
    apply contains_of_not_mem
    intro hm
    rcases List.mem_append.mp hm with e | e
    · exact h1 e
    · rcases List.mem_cons.mp e with e | e
      · exact absurd e (by decide)
      · exact h3 e
  have hc2 : contains (t ++ ']' :: rest) "]".toList = true := contains_mid t [']'] rest
  have hsp : (split ']' (t ++ ']' :: rest))[0]? = some t := by
    rw [split_append_sep ']' t rest h2]
    exact List.getElem?_cons_zero
  have hne : ¬ (some t = some ([] : Str)) := by
    intro e
    exact ht (Option.some.inj e)
  simp only [bndOrientation, hc, Bool.false_eq_true, if_false, hc2, if_true, hsp, hne]

/-- For a record whose genes resolve and whose breakpoints reconcile, and a template
with equal directions, a line is returned exactly when the strands have the same
sign. -/
theorem ok_iff_same (variant : Variant) (svtype : Str) (tran2info : TranInfo)
    (gene2tran : GeneTran) (targetTrans : Str → JVal) (h : Hypothesis) (sample : Sample)
    (annTarget cell geneA geneB transA transB : Str) (locates : Locates) (consist : Str)
    (hh : hypothesisOf variant svtype = some h)
    (hs : variant.Samples[0]? = some sample)
    (ha : annTargetOf variant.ANN = some annTarget)
    (hc : (split '|' annTarget)[3]? = some cell)
    (hamp : contains cell "&".toList = true)
    (hgA : (split '&' cell)[0]? = some geneA)
    (hgB : (split '&' cell)[1]? = some geneB)
    (htA : selectTrans targetTrans gene2tran geneA = .ok transA)
    (htB : selectTrans targetTrans gene2tran geneB = .ok transB)
    (hbc : breakCheck h.breakA h.breakB transA transB tran2info
      = some (locates, consist, true))
    (ho : h.orientation.isTemplate) (heq : h.orientation.s1 = h.orientation.s3) :
    (∃ line, recordParser variant svtype tran2info gene2tran targetTrans = .ok line) ↔
      sameStrand (postStrandA tran2info transA transB consist)
        (postStrandB tran2info transA transB consist) := by
  rw [recordParser_eq_resolve variant svtype tran2info gene2tran targetTrans h sample
    annTarget cell geneA geneB transA transB hh hs ha hc hamp hgA hgB htA htB,
    resolve_ok_iff h _ _ _ _ _ _ _ tran2info locates consist hbc ho.shaped,
    corrDir_parity _ _ _ ho]
  simp only [heq, true_iff]

/-- The same for a template with different directions: a line is returned exactly when
the strands differ in sign. -/
theorem ok_iff_differ (variant : Variant) (svtype : Str) (tran2info : TranInfo)
    (gene2tran : GeneTran) (targetTrans : Str → JVal) (h : Hypothesis) (sample : Sample)
    (annTarget cell geneA geneB transA transB : Str) (locates : Locates) (consist : Str)
    (hh : hypothesisOf variant svtype = some h)
    (hs : variant.Samples[0]? = some sample)
    (ha : annTargetOf variant.ANN = some annTarget)
    (hc : (split '|' annTarget)[3]? = some cell)
    (hamp : contains cell "&".toList = true)
    (hgA : (split '&' cell)[0]? = some geneA)
    (hgB : (split '&' cell)[1]? = some geneB)
    (htA : selectTrans targetTrans gene2tran geneA = .ok transA)
    (htB : selectTrans targetTrans gene2tran geneB = .ok transB)
    (hbc : breakCheck h.breakA h.breakB transA transB tran2info
      = some (locates, consist, true))
    (ho : h.orientation.isTemplate) (hne : h.orientation.s1 ≠ h.orientation.s3) :
    (∃ line, recordParser variant svtype tran2info gene2tran targetTrans = .ok line) ↔
      ¬ sameStrand (postStrandA tran2info transA transB consist)
        (postStrandB tran2info transA transB consist) := by
  rw [recordParser_eq_resolve variant svtype tran2info gene2tran targetTrans h sample
    annTarget cell geneA geneB transA transB hh hs ha hc hamp hgA hgB htA htB,
    resolve_ok_iff h _ _ _ _ _ _ _ tran2info locates consist hbc ho.shaped,
    corrDir_parity _ _ _ ho]
  simp only [hne, false_iff]


/-- C18. Strand-parity rule. For every record that is read without panic, whose genes
resolve and whose breakpoints reconcile, with the strands taken after the swap:
`recordParser` returns a line exactly when both strands are `-` or neither is, for the
SV types DEL and DUP and for a BND record whose ALT text has the form t[p[ (a
non-empty text without `[`, then `[`) or ]p]t (a leading `]` and no `[`); and exactly
when one strand is `-` and the other is not, for the hypotheses INV_1 and INV_2 and for
a BND record whose ALT text has the form [p[t (a leading `[`) or t]p] (a non-empty
text without brackets, then `]`, and no `[`). The start/end order plays no role. -/
theorem recordParser_parity (variant : Variant) (svtype : Str) (tran2info : TranInfo)
    (gene2tran : GeneTran) (targetTrans : Str → JVal) (h : Hypothesis) (sample : Sample)
    (annTarget cell geneA geneB transA transB : Str) (locates : Locates) (consist : Str)
    (hh : hypothesisOf variant svtype = some h)
    (hs : variant.Samples[0]? = some sample)
    (ha : annTargetOf variant.ANN = some annTarget)
    (hc : (split '|' annTarget)[3]? = some cell)
    (hamp : contains cell "&".toList = true)
    (hgA : (split '&' cell)[0]? = some geneA)
    (hgB : (split '&' cell)[1]? = some geneB)
    (htA : selectTrans targetTrans gene2tran geneA = .ok transA)
    (htB : selectTrans targetTrans gene2tran geneB = .ok transB)
    (hbc : breakCheck h.breakA h.breakB transA transB tran2info
      = some (locates, consist, true)) :
    ((svtype = "DEL".toList ∨ svtype = "DUP".toList) →
      ((∃ line, recordParser variant svtype tran2info gene2tran targetTrans = .ok line) ↔
        sameStrand (postStrandA tran2info transA transB consist)
          (postStrandB tran2info transA transB consist))) ∧
    ((svtype = "INV_1".toList ∨ svtype = "INV_2".toList) →
      ((∃ line, recordParser variant svtype tran2info gene2tran targetTrans = .ok line) ↔
        ¬ sameStrand (postStrandA tran2info transA transB consist)
          (postStrandB tran2info transA transB consist))) ∧
    (svtype = "BND".toList → ∀ alt, variant.Alt[0]? = some alt →
      ((∃ t rest, t ≠ [] ∧ '[' ∉ t ∧ alt = t ++ '[' :: rest) →
        ((∃ line, recordParser variant svtype tran2info gene2tran targetTrans = .ok line) ↔
          sameStrand (postStrandA tran2info transA transB consist)
          (postStrandB tran2info transA transB consist))) ∧
      ((∃ rest, '[' ∉ rest ∧ alt = ']' :: rest) →
        ((∃ line, recordParser variant svtype tran2info gene2tran targetTrans = .ok line) ↔
          sameStrand (postStrandA tran2info transA transB consist)
          (postStrandB tran2info transA transB consist))) ∧
      ((∃ rest, alt = '[' :: rest) →
        ((∃ line, recordParser variant svtype tran2info gene2tran targetTrans = .ok line) ↔
          ¬ sameStrand (postStrandA tran2info transA transB consist)
          (postStrandB tran2info transA transB consist))) ∧
      ((∃ t rest, t ≠ [] ∧ '[' ∉ t ∧ ']' ∉ t ∧ '[' ∉ rest ∧ alt = t ++ ']' :: rest) →
        ((∃ line, recordParser variant svtype tran2info gene2tran targetTrans = .ok line) ↔
          ¬ sameStrand (postStrandA tran2info transA transB consist)
          (postStrandB tran2info transA transB consist)))) := by
  refine ⟨?_, ?_, ?_⟩
  · intro ht
    have hne : svtype ≠ "BND".toList := by
      rcases ht with e | e <;> rw [e] <;> decide
    obtain ⟨ho, _⟩ := hypothesisOf_intra variant svtype h hne hh
    obtain ⟨h1, h2⟩ := intraOrientation_del_dup variant.Pos variant.End svtype ht
    rw [← ho] at h1 h2
    exact ok_iff_same variant svtype tran2info gene2tran targetTrans h sample annTarget cell
      geneA geneB transA transB locates consist hh hs ha hc hamp hgA hgB htA htB hbc h1 h2
  · intro ht
    have hne : svtype ≠ "BND".toList := by
      rcases ht with e | e <;> rw [e] <;> decide
    obtain ⟨ho, _⟩ := hypothesisOf_intra variant svtype h hne hh
    obtain ⟨h1, h2⟩ := intraOrientation_inv variant.Pos variant.End svtype ht
    rw [← ho] at h1 h2
    exact ok_iff_differ variant svtype tran2info gene2tran targetTrans h sample annTarget cell
      geneA geneB transA transB locates consist hh hs ha hc hamp hgA hgB htA htB hbc h1 h2
  · intro ht alt halt
    subst ht
    have ho := hypothesisOf_bnd variant h alt halt hh
    refine ⟨?_, ?_, ?_, ?_⟩
    · rintro ⟨t, rest, hne, hno, rfl⟩
      rw [bnd_t_open t rest hne hno] at ho
      exact ok_iff_same variant "BND".toList tran2info gene2tran targetTrans h sample
        annTarget cell geneA geneB transA transB locates consist hh hs ha hc hamp hgA hgB htA htB hbc
        (by rw [ho]; exact ⟨Or.inl ⟨rfl, rfl⟩, Or.inl rfl, Or.inl rfl⟩) (by rw [ho]; rfl)
    · rintro ⟨rest, hno, rfl⟩
      rw [bnd_close_first rest hno] at ho
      exact ok_iff_same variant "BND".toList tran2info gene2tran targetTrans h sample
        annTarget cell geneA geneB transA transB locates consist hh hs ha hc hamp hgA hgB htA htB hbc
        (by rw [ho]; exact ⟨Or.inr ⟨rfl, rfl⟩, Or.inl rfl, Or.inl rfl⟩) (by rw [ho]; rfl)
    · rintro ⟨rest, rfl⟩
      rw [bnd_open_first rest] at ho
      exact ok_iff_differ variant "BND".toList tran2info gene2tran targetTrans h sample
        annTarget cell geneA geneB transA transB locates consist hh hs ha hc hamp hgA hgB htA htB hbc
        (by rw [ho]; exact ⟨Or.inr ⟨rfl, rfl⟩, Or.inr rfl, Or.inl rfl⟩)
        (by rw [ho]; decide)
    · rintro ⟨t, rest, hne, h1, h2, h3, rfl⟩
      rw [bnd_t_close t rest hne h1 h2 h3] at ho
      exact ok_iff_differ variant "BND".toList tran2info gene2tran targetTrans h sample
        annTarget cell geneA geneB transA transB locates consist hh hs ha hc hamp hgA hgB htA htB hbc
        (by rw [ho]; exact ⟨Or.inl ⟨rfl, rfl⟩, Or.inl rfl, Or.inr rfl⟩)
        (by rw [ho]; decide)

/-- Witness of C18: the record `recBND` has an ALT text of the form t]p] and its genes
lie on the strands `+` and `-`, so a line is returned. -/
theorem recordParser_parity_witness :
    ∃ line, recordParser recBND "BND".toList dbTwo geneIdx noOverride = .ok line :=
  (((recordParser_parity recBND "BND".toList dbTwo geneIdx noOverride
    ⟨"chr1:350".toList, "chr5:550".toList, mkOri "GENE_A" ">" "GENE_B" "<", "BND".toList⟩
    ⟨"7".toList, "3".toList⟩ "N]CHR5:550]|bnd|HIGH|G&H|x".toList "G&H".toList
    "G".toList "H".toList "T1".toList "T2".toList
    (locPut (locPut [] "breakA".toList "Ex2".toList) "breakB".toList "Ex1".toList)
    "right".toList
    (by decide) (by decide) (by decide) (by decide) (by decide) (by decide) (by decide)
    (by decide) (by decide) (by decide)).2.2 rfl "N]CHR5:550]".toList (by decide)).2.2.2
    ⟨"N".toList, "CHR5:550]".toList, by decide, by decide, by decide, by decide,
      by decide⟩).mpr
    (by unfold sameStrand; decide)


/-! ## C19: the two hypotheses of an inversion agree -/

/-- When `recordParser` returns a line, every step of the reading returned, and the
line is the line of `resolve`. -/
theorem recordParser_ok_inv (variant : Variant) (svtype : Str) (tran2info : TranInfo)
    (gene2tran : GeneTran) (targetTrans : Str → JVal) (line : Str)
    (hr : recordParser variant svtype tran2info gene2tran targetTrans = .ok line) :
    ∃ h sample annTarget cell geneA geneB transA transB,
      hypothesisOf variant svtype = some h ∧
      variant.Samples[0]? = some sample ∧
      annTargetOf variant.ANN = some annTarget ∧
      (split '|' annTarget)[3]? = some cell ∧
      contains cell "&".toList = true ∧
      (split '&' cell)[0]? = some geneA ∧
      (split '&' cell)[1]? = some geneB ∧
      selectTrans targetTrans gene2tran geneA = .ok transA ∧
      selectTrans targetTrans gene2tran geneB = .ok transB ∧
      resolve h sample.PE sample.SR variant.Id geneA geneB transA transB tran2info
        = .ok line := by
  unfold recordParser at hr
  cases hh : hypothesisOf variant svtype with
  | none => simp only [hh] at hr; exact Res.noConfusion hr
  | some h =>
  simp only [hh] at hr
  cases hs : variant.Samples[0]? with
  | none => simp only [hs] at hr; exact Res.noConfusion hr
  | some sample =>
  simp only [hs] at hr
  cases ha : annTargetOf variant.ANN with
  | none => simp only [ha] at hr; exact Res.noConfusion hr
  | some annTarget =>
  simp only [ha] at hr
  cases hc : (split '|' annTarget)[3]? with
  | none => simp only [hc] at hr; exact Res.noConfusion hr
  | some cell =>
  simp only [hc] at hr
  by_cases hamp : contains cell "&".toList = true
  · rw [if_pos hamp] at hr
    cases hgA : (split '&' cell)[0]? with
    | none => simp only [hgA] at hr; exact Res.noConfusion hr
    | some geneA =>
    cases hgB : (split '&' cell)[1]? with
    | none => simp only [hgA, hgB] at hr; exact Res.noConfusion hr
    | some geneB =>
    simp only [hgA, hgB] at hr
    cases htA : selectTrans targetTrans gene2tran geneA with
    | panic => simp only [htA] at hr; exact Res.noConfusion hr
    | error e => simp only [htA] at hr; exact Res.noConfusion hr
    | ok transA =>
    simp only [htA] at hr
    cases htB : selectTrans targetTrans gene2tran geneB with
    | panic => simp only [htB] at hr; exact Res.noConfusion hr
    | error e => simp only [htB] at hr; exact Res.noConfusion hr
    | ok transB =>
    simp only [htB] at hr
    exact ⟨h, sample, annTarget, cell, geneA, geneB, transA, transB, rfl, rfl, rfl, hc,
      hamp, hgA, hgB, htA, htB, hr⟩
  · rw [if_neg hamp] at hr
    exact Res.noConfusion hr

/-- The two hypotheses of an INV record: the same breakpoints, the same placeholders,
and in both slots the opposite directions; both templates are filled and have
different directions. -/
theorem inv_hypotheses (variant : Variant) :
    ∃ h1 h2, hypothesisOf variant "INV_1".toList = some h1 ∧
      hypothesisOf variant "INV_2".toList = some h2 ∧
      h2.breakA = h1.breakA ∧ h2.breakB = h1.breakB ∧
      h1.svtype = "INV".toList ∧ h2.svtype = "INV".toList ∧
      h1.orientation.isTemplate ∧ h2.orientation.isTemplate ∧
      h1.orientation.s1 ≠ h1.orientation.s3 ∧ h2.orientation.s1 ≠ h2.orientation.s3 ∧
      h2.orientation.s0 = h1.orientation.s0 ∧ h2.orientation.s2 = h1.orientation.s2 ∧
      h2.orientation.s1 = reverse h1.orientation.s1 ∧
      h2.orientation.s3 = reverse h1.orientation.s3 := by
  have n1 : ¬ ("INV_1".toList = "BND".toList) := by decide
  have n2 : ¬ ("INV_2".toList = "BND".toList) := by decide
  have n3 : ¬ ("INV_2".toList = "INV_1".toList) := by decide
  refine ⟨⟨join ":".toList [variant.Chromosome, formatUint variant.Pos],
      join ":".toList [variant.Chromosome, formatUint variant.End],
      (intraOrientation variant.Pos variant.End "INV_1".toList).1,
      (intraOrientation variant.Pos variant.End "INV_1".toList).2⟩,
    ⟨join ":".toList [variant.Chromosome, formatUint variant.Pos],
      join ":".toList [variant.Chromosome, formatUint variant.End],
      (intraOrientation variant.Pos variant.End "INV_2".toList).1,
      (intraOrientation variant.Pos variant.End "INV_2".toList).2⟩,
    by simp only [hypothesisOf, n1, if_false],
    by simp only [hypothesisOf, n2, if_false], rfl, rfl, ?_⟩
  by_cases hp : variant.Pos > variant.End
  · have e1 : intraOrientation variant.Pos variant.End "INV_1".toList
        = (mkOri "GENE_A" ">" "GENE_B" "<", "INV".toList) := by
      simp only [intraOrientation, hp, if_true]
    have e2 : intraOrientation variant.Pos variant.End "INV_2".toList
        = (mkOri "GENE_A" "<" "GENE_B" ">", "INV".toList) := by
      simp only [intraOrientation, hp, if_true, n3, if_false]
    dsimp only
    rw [e1, e2]
    exact ⟨rfl, rfl, ⟨Or.inl ⟨rfl, rfl⟩, Or.inl rfl, Or.inr rfl⟩,
      ⟨Or.inl ⟨rfl, rfl⟩, Or.inr rfl, Or.inl rfl⟩, by decide, by decide, rfl, rfl,
      by decide, by decide⟩
  · have e1 : intraOrientation variant.Pos variant.End "INV_1".toList
        = (mkOri "GENE_B" ">" "GENE_A" "<", "INV".toList) := by
      simp only [intraOrientation, hp, if_true, if_false]
    have e2 : intraOrientation variant.Pos variant.End "INV_2".toList
        = (mkOri "GENE_B" "<" "GENE_A" ">", "INV".toList) := by
      simp only [intraOrientation, hp, if_true, n3, if_false]
    dsimp only
    rw [e1, e2]
    exact ⟨rfl, rfl, ⟨Or.inr ⟨rfl, rfl⟩, Or.inl rfl, Or.inr rfl⟩,
      ⟨Or.inr ⟨rfl, rfl⟩, Or.inr rfl, Or.inl rfl⟩, by decide, by decide, rfl, rfl,
      by decide, by decide⟩

/-- A line is returned for one hypothesis of an inversion when one is returned for the
other: both test the sign of the same two strands. -/
theorem inv_ok_of_ok (variant : Variant) (tran2info : TranInfo) (gene2tran : GeneTran)
    (targetTrans : Str → JVal) (ha hb : Hypothesis) (ta tb : Str)
    (hha : hypothesisOf variant ta = some ha) (hhb : hypothesisOf variant tb = some hb)
    (hbA : hb.breakA = ha.breakA) (hbB : hb.breakB = ha.breakB)
    (hta : ha.orientation.isTemplate) (htb : hb.orientation.isTemplate)
    (hna : ha.orientation.s1 ≠ ha.orientation.s3)
    (hnb : hb.orientation.s1 ≠ hb.orientation.s3)
    (hok : ∃ line, recordParser variant ta tran2info gene2tran targetTrans = .ok line) :
    ∃ line, recordParser variant tb tran2info gene2tran targetTrans = .ok line := by
  obtain ⟨line, hr⟩ := hok
  obtain ⟨h, sample, annTarget, cell, geneA, geneB, transA, transB, hh, hs, han, hc, hamp,
    hgA, hgB, htA, htB, hres⟩ := recordParser_ok_inv _ _ _ _ _ _ hr
  have he : h = ha := Option.some.inj (hh.symm.trans hha)
  subst he
  obtain ⟨locates, consist, _, _, hbc, _⟩ := resolve_ok_inv _ _ _ _ _ _ _ _ _ _ hres
  have hbc2 : breakCheck hb.breakA hb.breakB transA transB tran2info
      = some (locates, consist, true) := by rw [hbA, hbB]; exact hbc
  have e1 := ok_iff_differ variant ta tran2info gene2tran targetTrans h sample annTarget cell
    geneA geneB transA transB locates consist hh hs han hc hamp hgA hgB htA htB hbc hta hna
  have e2 := ok_iff_differ variant tb tran2info gene2tran targetTrans hb sample annTarget cell
    geneA geneB transA transB locates consist hhb hs han hc hamp hgA hgB htA htB hbc2 htb hnb
  exact e2.mpr (e1.mp ⟨line, hr⟩)

theorem inv_ok_iff (variant : Variant) (tran2info : TranInfo) (gene2tran : GeneTran)
    (targetTrans : Str → JVal) :
    (∃ line, recordParser variant "INV_1".toList tran2info gene2tran targetTrans = .ok line) ↔
      (∃ line, recordParser variant "INV_2".toList tran2info gene2tran targetTrans
        = .ok line) := by
  obtain ⟨h1, h2, hh1, hh2, hbA, hbB, _, _, ht1, ht2, hn1, hn2, _⟩ := inv_hypotheses variant
  exact ⟨inv_ok_of_ok variant tran2info gene2tran targetTrans h1 h2 _ _ hh1 hh2 hbA hbB
      ht1 ht2 hn1 hn2,
    inv_ok_of_ok variant tran2info gene2tran targetTrans h2 h1 _ _ hh2 hh1 hbA.symm hbB.symm
      ht2 ht1 hn2 hn1⟩


theorem corrDir_reverse (strandA strandB gene d : Str) :
    corrDir strandA strandB gene (reverse d) = reverse (corrDir strandA strandB gene d) := by
  unfold corrDir
  split_ifs <;> rfl

theorem reverse_gt : reverse ">".toList = "<".toList := by decide

theorem reverse_lt : reverse "<".toList = ">".toList := by decide

theorem pairMapGet_geneA (a b : Str) : pairMapGet a b "GENE_A".toList = a := by
  simp only [pairMapGet, if_true]

theorem pairMapGet_geneB (a b : Str) : pairMapGet a b "GENE_B".toList = b := by
  have hne : ¬ ("GENE_B".toList = "GENE_A".toList) := by decide
  simp only [pairMapGet, hne, if_false, if_true]

/-- The fused name of a tuple with placeholders in slots 1 and 3 and a direction in
slot 2, when the gene symbol that replaces GENE_A holds no placeholder text. -/
theorem fuseGeneOf_eq (modOri : Ori) (geneA geneB : Str)
    (hp0 : isPlaceholder modOri.s0) (hp2 : isPlaceholder modOri.s2) (hcA : clean geneA) :
    (modOri.s1 = ">".toList → fuseGeneOf modOri geneA geneB =
      join "-".toList [pairMapGet geneA geneB modOri.s0, pairMapGet geneA geneB modOri.s2]) ∧
    (modOri.s1 = "<".toList → fuseGeneOf modOri geneA geneB =
      join "-".toList [pairMapGet geneA geneB modOri.s2, pairMapGet geneA geneB modOri.s0]) := by
  have hne : ¬ ("<".toList = ">".toList) := by decide
  constructor
  · intro hd
    simp only [fuseGeneOf, hd, if_true]
    exact geneRep_name _ _ _ _ hp0 hp2 hcA
  · intro hd
    simp only [fuseGeneOf, hd, hne, if_false, if_true]
    exact geneRep_name _ _ _ _ hp2 hp0 hcA

theorem Ori.isTemplate.placeholders {o : Ori} (ho : o.isTemplate) :
    isPlaceholder o.s0 ∧ isPlaceholder o.s2 := by
  rcases ho.1 with ⟨a, b⟩ | ⟨a, b⟩
  · exact ⟨Or.inl a, Or.inr b⟩
  · exact ⟨Or.inr a, Or.inl b⟩

/-- The two lines of an inversion name the two genes in opposite order, when the gene
symbols hold no placeholder text. -/
theorem resolve_inv_names (h1 h2 : Hypothesis) (pe sr callID geneA geneB transA transB : Str)
    (tran2info : TranInfo) (l1 l2 : Str)
    (hbA : h2.breakA = h1.breakA) (hbB : h2.breakB = h1.breakB)
    (hsv1 : h1.svtype = "INV".toList) (hsv2 : h2.svtype = "INV".toList)
    (ht1 : h1.orientation.isTemplate) (ht2 : h2.orientation.isTemplate)
    (e0 : h2.orientation.s0 = h1.orientation.s0) (e2 : h2.orientation.s2 = h1.orientation.s2)
    (e1 : h2.orientation.s1 = reverse h1.orientation.s1)
    (hcA : clean geneA) (hcB : clean geneB)
    (r1 : resolve h1 pe sr callID geneA geneB transA transB tran2info = .ok l1)
    (r2 : resolve h2 pe sr callID geneA geneB transA transB tran2info = .ok l2) :
    ∃ x y, ((x = geneA ∧ y = geneB) ∨ (x = geneB ∧ y = geneA)) ∧
      ∃ detail1 detail2,
        l1 = join "\t".toList (outStrList (join "-".toList [x, y]) detail1 "INV".toList
          callID h1.breakA h1.breakB pe sr) ∧
        l2 = join "\t".toList (outStrList (join "-".toList [y, x]) detail2 "INV".toList
          callID h1.breakA h1.breakB pe sr) := by
  obtain ⟨loc, consist, m1, loc1, hbc1, hsc1, _, _, hl1⟩ :=
    resolve_ok_inv _ _ _ _ _ _ _ _ _ _ r1
  obtain ⟨loc', consist', m2, loc2, hbc2, hsc2, _, _, hl2⟩ :=
    resolve_ok_inv _ _ _ _ _ _ _ _ _ _ r2
  rw [hbA, hbB, hbc1] at hbc2
  have hc' : consist' = consist := by
    have := Option.some.inj hbc2
    exact (congrArg (fun r => r.2.1) this).symm
  subst hc'
  rw [strandCorrect_eq _ _ _ ht1.shaped] at hsc1
  rw [strandCorrect_eq _ _ _ ht2.shaped, e0, e2, e1, corrDir_reverse] at hsc2
  have hm1 := (Option.some.inj hsc1).symm
  have hm2 := (Option.some.inj hsc2).symm
  obtain ⟨hp0, hp2⟩ := ht1.placeholders
  have hg : clean (if consist' = "wrong".toList then geneB else geneA) :=
    clean_ite _ _ _ hcB hcA
  have f1 := fuseGeneOf_eq m1 (if consist' = "wrong".toList then geneB else geneA)
    (if consist' = "wrong".toList then geneA else geneB)
    (by rw [hm1]; exact hp0) (by rw [hm1]; exact hp2) hg
  have f2 := fuseGeneOf_eq m2 (if consist' = "wrong".toList then geneB else geneA)
    (if consist' = "wrong".toList then geneA else geneB)
    (by rw [hm2]; exact hp0) (by rw [hm2]; exact hp2) hg
  have hs0 : m1.s0 = h1.orientation.s0 := by rw [hm1]
  have hs2 : m1.s2 = h1.orientation.s2 := by rw [hm1]
  have ht0 : m2.s0 = h1.orientation.s0 := by rw [hm2]
  have ht2' : m2.s2 = h1.orientation.s2 := by rw [hm2]
  have hd1 : m1.s1 = corrDir
      (if consist' = "wrong".toList then (infoOf tran2info transB).strand
        else (infoOf tran2info transA).strand)
      (if consist' = "wrong".toList then (infoOf tran2info transA).strand
        else (infoOf tran2info transB).strand) h1.orientation.s0 h1.orientation.s1 := by
    rw [hm1]
  have hd2 : m2.s1 = reverse m1.s1 := by rw [hd1, hm2]
  rw [hs0, hs2] at f1
  rw [ht0, ht2'] at f2
  have hpair : ∀ a b : Str,
      (pairMapGet a b h1.orientation.s0 = a ∧ pairMapGet a b h1.orientation.s2 = b) ∨
      (pairMapGet a b h1.orientation.s0 = b ∧ pairMapGet a b h1.orientation.s2 = a) := by
    intro a b
    rcases ht1.1 with ⟨u, v⟩ | ⟨u, v⟩
    · exact Or.inl ⟨by rw [u, pairMapGet_geneA], by rw [v, pairMapGet_geneB]⟩
    · exact Or.inr ⟨by rw [u, pairMapGet_geneB], by rw [v, pairMapGet_geneA]⟩
  have hset : ∀ u v : Str,
      ((u = (if consist' = "wrong".toList then geneB else geneA) ∧
          v = (if consist' = "wrong".toList then geneA else geneB)) ∨
        (u = (if consist' = "wrong".toList then geneA else geneB) ∧
          v = (if consist' = "wrong".toList then geneB else geneA))) →
      ((u = geneA ∧ v = geneB) ∨ (u = geneB ∧ v = geneA)) := by
    intro u v huv
    by_cases hw : consist' = "wrong".toList
    · simp only [hw, if_true] at huv
      exact huv.symm
    · simp only [hw, if_false] at huv
      exact huv
  rw [hsv1] at hl1
  rw [hsv2, hbA, hbB] at hl2
  rcases corrDir_dir _ _ h1.orientation.s0 ht1.2.1 with hd | hd
  · rw [← hd1] at hd
    have hdd : m2.s1 = "<".toList := by rw [hd2, hd, reverse_gt]
    rw [f1.1 hd] at hl1
    rw [f2.2 hdd] at hl2
    refine ⟨_, _, hset _ _ ?_, _, _, hl1, hl2⟩
    rcases hpair (if consist' = "wrong".toList then geneB else geneA)
      (if consist' = "wrong".toList then geneA else geneB) with ⟨a, b⟩ | ⟨a, b⟩
    · exact Or.inl ⟨a, b⟩
    · exact Or.inr ⟨a, b⟩
  · rw [← hd1] at hd
    have hdd : m2.s1 = ">".toList := by rw [hd2, hd, reverse_lt]
    rw [f1.2 hd] at hl1
    rw [f2.1 hdd] at hl2
    refine ⟨_, _, hset _ _ ?_, _, _, hl1, hl2⟩
    rcases hpair (if consist' = "wrong".toList then geneB else geneA)
      (if consist' = "wrong".toList then geneA else geneB) with ⟨a, b⟩ | ⟨a, b⟩
    · exact Or.inr ⟨b, a⟩
    · exact Or.inl ⟨b, a⟩


/-- What `run` writes for a single INV record: nothing or two lines. -/
theorem run_inv_lines (variant : Variant) (tran2info : TranInfo) (gene2tran : GeneTran)
    (targetTrans : Str → JVal) (hsv : variant.SVTYPE = .str "INV".toList) :
    (run tran2info gene2tran targetTrans [variant]).lines.length = 0 ∨
      (run tran2info gene2tran targetTrans [variant]).lines.length = 2 := by
  have hiff := inv_ok_iff variant tran2info gene2tran targetTrans
  cases hsec : variant.SECONDARY with
  | true =>
    left
    simp only [run, hsec, if_true, List.length_nil]
  | false =>
    cases hr1 : recordParser variant "INV_1".toList tran2info gene2tran targetTrans with
    | panic =>
      left
      simp only [run, hsec, hsv, Bool.false_eq_true, if_false, if_true, hr1, List.length_nil]
    | ok l1 =>
      obtain ⟨l2, hr2⟩ := hiff.mp ⟨l1, hr1⟩
      right
      simp only [run, hsec, hsv, Bool.false_eq_true, if_false, if_true, hr1, hr2, RunOut.after,
        written, List.append_nil, List.singleton_append, List.length_cons, List.length_nil]
    | error e1 =>
      left
      cases hr2 : recordParser variant "INV_2".toList tran2info gene2tran targetTrans with
      | panic =>
        simp only [run, hsec, hsv, Bool.false_eq_true, if_false, if_true, hr1, hr2, written,
          List.length_nil]
      | ok l2 =>
        obtain ⟨l1, hl1⟩ := hiff.mpr ⟨l2, hr2⟩
        rw [hr1] at hl1
        exact Res.noConfusion hl1
      | error e2 =>
        simp only [run, hsec, hsv, Bool.false_eq_true, if_false, if_true, hr1, hr2,
          RunOut.after, written, List.append_nil, List.length_nil]

/-- C19, as stated, fails: with the gene symbols GENE_B and H in the annotation of an
INV record, both hypotheses return a line, and both lines carry the fused name H-H,
not the two symbols in opposite order. -/
theorem inv_names_not_opposite :
    ((split '|' "<INV>|inv|HIGH|GENE_B&H|x".toList)[3]?).map (split '&')
      = some ["GENE_B".toList, "H".toList] ∧
    recordParser recInvP "INV_1".toList dbInv geneIdxP noOverride
      = .ok "H-H\tH:T1:Ex1*>H:T2:Ex2*\tINV\tcall2\tchr1:150\tchr1:350\t4:1".toList ∧
    recordParser recInvP "INV_2".toList dbInv geneIdxP noOverride
      = .ok "H-H\tH:T2:Ex2*>H:T1:Ex1*\tINV\tcall2\tchr1:150\tchr1:350\t4:1".toList := by
  decide

/-- C19. The two hypotheses of an inversion agree. For every record and all annotation
and override data, `recordParser` returns a line for INV_1 exactly when it returns one
for INV_2, so `run` writes no line or two lines for an INV record, never exactly one.
When both calls return a line and the two gene symbols of the annotation hold neither
the text GENE_A nor the text GENE_B, the fused names of the two lines are x-y and y-x,
where x and y are the two gene symbols in some order; the other six fields are the
detail string, INV, the call ID, the two breakpoints and the support. -/
theorem recordParser_inv_agree (variant : Variant) (tran2info : TranInfo)
    (gene2tran : GeneTran) (targetTrans : Str → JVal) :
    ((∃ line, recordParser variant "INV_1".toList tran2info gene2tran targetTrans = .ok line) ↔
      (∃ line, recordParser variant "INV_2".toList tran2info gene2tran targetTrans
        = .ok line)) ∧
    (variant.SVTYPE = .str "INV".toList →
      (run tran2info gene2tran targetTrans [variant]).lines.length = 0 ∨
        (run tran2info gene2tran targetTrans [variant]).lines.length = 2) ∧
    (∀ annTarget cell geneA geneB l1 l2,
      annTargetOf variant.ANN = some annTarget →
      (split '|' annTarget)[3]? = some cell →
      (split '&' cell)[0]? = some geneA →
      (split '&' cell)[1]? = some geneB →
      clean geneA → clean geneB →
      recordParser variant "INV_1".toList tran2info gene2tran targetTrans = .ok l1 →
      recordParser variant "INV_2".toList tran2info gene2tran targetTrans = .ok l2 →
      ∃ x y, ((x = geneA ∧ y = geneB) ∨ (x = geneB ∧ y = geneA)) ∧
        ∃ detail1 detail2 breakA breakB support,
          l1 = join "\t".toList [join "-".toList [x, y], detail1, "INV".toList, variant.Id,
            breakA, breakB, support] ∧
          l2 = join "\t".toList [join "-".toList [y, x], detail2, "INV".toList, variant.Id,
            breakA, breakB, support]) := by
  refine ⟨inv_ok_iff variant tran2info gene2tran targetTrans,
    run_inv_lines variant tran2info gene2tran targetTrans, ?_⟩
  intro annTarget cell geneA geneB l1 l2 ha hc hgA hgB hcA hcB hr1 hr2
  obtain ⟨h1, h2, hh1, hh2, hbA, hbB, hsv1, hsv2, ht1, ht2, _, _, e0, e2, e1, _⟩ :=
    inv_hypotheses variant
  obtain ⟨h, sample, annT, cell1, gA, gB, transA, transB, hh, hs, han, hc1, hamp, hgA1, hgB1,
    htA, htB, hres1⟩ := recordParser_ok_inv _ _ _ _ _ _ hr1
  have x1 : h = h1 := Option.some.inj (hh.symm.trans hh1)
  have x2 : annT = annTarget := Option.some.inj (han.symm.trans ha)
  subst x1 x2
  have x3 : cell1 = cell := Option.some.inj (hc1.symm.trans hc)
  subst x3
  have x4 : gA = geneA := Option.some.inj (hgA1.symm.trans hgA)
  have x5 : gB = geneB := Option.some.inj (hgB1.symm.trans hgB)
  subst x4 x5
  rw [recordParser_eq_resolve variant _ tran2info gene2tran targetTrans h2 sample annT cell1
    gA gB transA transB hh2 hs han hc1 hamp hgA1 hgB1 htA htB] at hr2
  obtain ⟨x, y, hxy, d1, d2, hl1, hl2⟩ := resolve_inv_names h h2 sample.PE sample.SR
    variant.Id gA gB transA transB tran2info l1 l2 hbA hbB hsv1 hsv2 ht1 ht2 e0 e2 e1
    hcA hcB hres1 hr2
  exact ⟨x, y, hxy, d1, d2, h.breakA, h.breakB, join ":".toList [sample.PE, sample.SR],
    hl1, hl2⟩

/-- Witness of C19: on the record `recINV` with the genes G and H both hypotheses
return a line, and the fused names are G-H and H-G. -/
theorem recordParser_inv_agree_witness :
    ∃ x y, ((x = "G".toList ∧ y = "H".toList) ∨ (x = "H".toList ∧ y = "G".toList)) ∧
      ∃ detail1 detail2 breakA breakB support,
        "G-H\tG:T1:Ex1*>H:T2:Ex2*\tINV\tcall2\tchr1:150\tchr1:350\t4:1".toList
          = join "\t".toList [join "-".toList [x, y], detail1, "INV".toList, recINV.Id,
            breakA, breakB, support] ∧
        "H-G\tH:T2:Ex2*>G:T1:Ex1*\tINV\tcall2\tchr1:150\tchr1:350\t4:1".toList
          = join "\t".toList [join "-".toList [y, x], detail2, "INV".toList, recINV.Id,
            breakA, breakB, support] :=
  (recordParser_inv_agree recINV dbInv geneIdx noOverride).2.2
    "<INV>|inv|HIGH|G&H|x".toList "G&H".toList "G".toList "H".toList _ _
    (by decide) (by decide) (by decide) (by decide) ⟨by decide, by decide⟩
    ⟨by decide, by decide⟩ (by decide) (by decide)


/-! ## C16 and C20: the fields of a returned line -/

theorem corrDir_geneA (strandA strandB d : Str) :
    corrDir strandA strandB "GENE_A".toList d = dirWith strandA d := by
  have hne : ¬ ("GENE_A".toList = "GENE_B".toList) := by decide
  simp only [corrDir, dirWith, and_true, hne, and_false, if_false]

theorem corrDir_geneB (strandA strandB d : Str) :
    corrDir strandA strandB "GENE_B".toList d = dirWith strandB d := by
  have hne : ¬ ("GENE_B".toList = "GENE_A".toList) := by decide
  simp only [corrDir, dirWith, and_true, hne, and_false, if_false]

/-- In a corrected template the direction of GENE_A is corrected with strand A and
the direction of GENE_B with strand B, whatever the order of the placeholders. -/
theorem template_dirOf (strandA strandB : Str) (o : Ori) (ho : o.isTemplate) :
    Ori.dirOf ⟨o.s0, corrDir strandA strandB o.s0 o.s1, o.s2, corrDir strandA strandB o.s2 o.s3⟩
        "GENE_A".toList = dirWith strandA (o.dirOf "GENE_A".toList) ∧
      Ori.dirOf ⟨o.s0, corrDir strandA strandB o.s0 o.s1, o.s2,
          corrDir strandA strandB o.s2 o.s3⟩
        "GENE_B".toList = dirWith strandB (o.dirOf "GENE_B".toList) := by
  have n1 : ¬ ("GENE_A".toList = "GENE_B".toList) := by decide
  have n2 : ¬ ("GENE_B".toList = "GENE_A".toList) := by decide
  rcases ho.1 with ⟨a, b⟩ | ⟨a, b⟩
  · simp only [Ori.dirOf, a, b, if_true, n1, if_false, corrDir_geneA, corrDir_geneB, and_self]
  · simp only [Ori.dirOf, a, b, if_true, n2, if_false, corrDir_geneA, corrDir_geneB, and_self]

/-- The promotion loop on a tuple with the two placeholders and two directions: it
returns, and each side follows the rule `PromotedAs` with the direction of its gene. -/
theorem promote_template (modOri : Ori) (locates : Locates) (ho : modOri.isTemplate) :
    ∃ locates1, promote modOri locates = some locates1 ∧
      PromotedAs (modOri.dirOf "GENE_A".toList) (locGet locates "breakA".toList)
        (locGet locates1 "breakA".toList) ∧
      PromotedAs (modOri.dirOf "GENE_B".toList) (locGet locates "breakB".toList)
        (locGet locates1 "breakB".toList) := by
  obtain ⟨hg, hd1, hd3⟩ := ho
  have d1 : dirSlot modOri.s1 := hd1.elim Or.inl (fun h => Or.inr (Or.inl h))
  have d3 : dirSlot modOri.s3 := hd3.elim Or.inl (fun h => Or.inr (Or.inl h))
  rcases hg with ⟨h0, h2⟩ | ⟨h0, h2⟩
  · obtain ⟨l, hp, pA, pB⟩ := promote_two modOri locates "breakA".toList "breakB".toList
      (by rw [h0]; decide) (by rw [h2]; decide) (by rw [h0]; decide) (by rw [h2]; decide)
      (by decide) d1 d3
    have hne : ¬ ("GENE_A".toList = "GENE_B".toList) := by decide
    refine ⟨l, hp, ?_, ?_⟩
    · simp only [Ori.dirOf, h0, if_true]
      exact pA
    · simp only [Ori.dirOf, h0, hne, if_false]
      exact pB
  · obtain ⟨l, hp, pB, pA⟩ := promote_two modOri locates "breakB".toList "breakA".toList
      (by rw [h0]; decide) (by rw [h2]; decide) (by rw [h0]; decide) (by rw [h2]; decide)
      (by decide) d1 d3
    have hne : ¬ ("GENE_B".toList = "GENE_A".toList) := by decide
    refine ⟨l, hp, ?_, ?_⟩
    · simp only [Ori.dirOf, h0, hne, if_false]
      exact pA
    · simp only [Ori.dirOf, h0, if_true]
      exact pB

/-- The verdict wrong of `breakCheck`: breakpoint A was found in the transcript of gene
B and breakpoint B in the transcript of gene A, and these are the two locations. -/
theorem breakCheck_wrong (breakA breakB transA transB : Str) (tran2info : TranInfo)
    (locates : Locates) (ok : Bool)
    (h : breakCheck breakA breakB transA transB tran2info
      = some (locates, "wrong".toList, ok)) :
    breakSearch breakA (infoOf tran2info transB)
        = some (locGet locates "breakA".toList, true) ∧
      breakSearch breakB (infoOf tran2info transA)
        = some (locGet locates "breakB".toList, true) := by
  unfold breakCheck at h
  cases hAA : breakSearch breakA (infoOf tran2info transA) with
  | none => simp [hAA] at h
  | some rAA =>
  cases hAB : breakSearch breakA (infoOf tran2info transB) with
  | none => simp [hAA, hAB] at h
  | some rAB =>
  cases hBB : breakSearch breakB (infoOf tran2info transB) with
  | none => simp [hAA, hAB, hBB] at h
  | some rBB =>
  cases hBA : breakSearch breakB (infoOf tran2info transA) with
  | none => simp [hAA, hAB, hBB, hBA] at h
  | some rBA =>
    obtain ⟨lAA, fAA⟩ := rAA
    obtain ⟨lAB, fAB⟩ := rAB
    obtain ⟨lBB, fBB⟩ := rBB
    obtain ⟨lBA, fBA⟩ := rBA
    simp only [hAA, hAB, hBB, hBA] at h
    have n1 : ¬ ("right".toList = "wrong".toList) := by decide
    have n2 : ¬ (([] : Str) = "wrong".toList) := by decide
    split_ifs at h with c1 c2
    · simp only [Option.some.injEq, Prod.mk.injEq] at h
      exact absurd h.2.1 n1
    · simp only [Option.some.injEq, Prod.mk.injEq] at h
      simp only [Bool.and_eq_true] at c2
      rw [← h.1, c2.1, c2.2]
      refine ⟨?_, ?_⟩
      · rw [locGet_locPut_ne _ _ _ _ (by decide), locGet_locPut_self]
      · rw [locGet_locPut_self]
    · simp only [Option.some.injEq, Prod.mk.injEq] at h
      exact absurd h.2.1 n2

theorem bndOrientation_cases (alt : Str) :
    (bndOrientation alt).isTemplate ∨ bndOrientation alt = Ori.empty := by
  unfold bndOrientation
  split_ifs
  · exact Or.inl ⟨Or.inr ⟨rfl, rfl⟩, Or.inr rfl, Or.inl rfl⟩
  · exact Or.inl ⟨Or.inl ⟨rfl, rfl⟩, Or.inl rfl, Or.inl rfl⟩
  · exact Or.inl ⟨Or.inr ⟨rfl, rfl⟩, Or.inl rfl, Or.inl rfl⟩
  · exact Or.inl ⟨Or.inl ⟨rfl, rfl⟩, Or.inl rfl, Or.inr rfl⟩
  · exact Or.inr rfl

theorem bndOrientation_template (alt : Str)
    (hb : contains alt "[".toList = true ∨ contains alt "]".toList = true) :
    (bndOrientation alt).isTemplate := by
  unfold bndOrientation
  split_ifs with c1 c2 c3 c4
  · exact ⟨Or.inr ⟨rfl, rfl⟩, Or.inr rfl, Or.inl rfl⟩
  · exact ⟨Or.inl ⟨rfl, rfl⟩, Or.inl rfl, Or.inl rfl⟩
  · exact ⟨Or.inr ⟨rfl, rfl⟩, Or.inl rfl, Or.inl rfl⟩
  · exact ⟨Or.inl ⟨rfl, rfl⟩, Or.inl rfl, Or.inr rfl⟩
  · rcases hb with e | e
    · exact absurd e c1
    · exact absurd e c3

theorem intraOrientation_cases (posA posB : Nat) (svtype : Str) :
    (intraOrientation posA posB svtype).1.isTemplate ∨
      (intraOrientation posA posB svtype).1 = Ori.empty := by
  unfold intraOrientation
  split_ifs
  · exact Or.inl ⟨Or.inl ⟨rfl, rfl⟩, Or.inl rfl, Or.inr rfl⟩
  · exact Or.inl ⟨Or.inl ⟨rfl, rfl⟩, Or.inr rfl, Or.inl rfl⟩
  · exact Or.inl ⟨Or.inr ⟨rfl, rfl⟩, Or.inl rfl, Or.inl rfl⟩
  · exact Or.inl ⟨Or.inl ⟨rfl, rfl⟩, Or.inl rfl, Or.inl rfl⟩
  · exact Or.inr rfl
  · exact Or.inl ⟨Or.inr ⟨rfl, rfl⟩, Or.inl rfl, Or.inr rfl⟩
  · exact Or.inl ⟨Or.inr ⟨rfl, rfl⟩, Or.inr rfl, Or.inl rfl⟩
  · exact Or.inl ⟨Or.inl ⟨rfl, rfl⟩, Or.inl rfl, Or.inl rfl⟩
  · exact Or.inl ⟨Or.inr ⟨rfl, rfl⟩, Or.inl rfl, Or.inl rfl⟩
  · exact Or.inr rfl

/-- Every orientation that lines 206-318 leave is a filled template or the zero value
of the array. -/
theorem hypothesisOf_cases (variant : Variant) (svtype : Str) (h : Hypothesis)
    (hh : hypothesisOf variant svtype = some h) :
    h.orientation.isTemplate ∨ h.orientation = Ori.empty := by
  by_cases hb : svtype = "BND".toList
  · subst hb
    cases ha : variant.Alt[0]? with
    | none => simp only [hypothesisOf, if_true, ha] at hh; exact Option.noConfusion hh
    | some alt =>
      rw [hypothesisOf_bnd variant h alt ha hh]
      exact bndOrientation_cases alt
  · rw [(hypothesisOf_intra variant svtype h hb hh).1]
    exact intraOrientation_cases _ _ _


theorem corrDir_nil (strandA strandB d : Str) : corrDir strandA strandB [] d = d := by
  have n1 : ¬ (([] : Str) = "GENE_A".toList) := by decide
  have n2 : ¬ (([] : Str) = "GENE_B".toList) := by decide
  simp only [corrDir, n1, n2, and_false, if_false]

theorem strandCorrect_empty (strandA strandB : Str) :
    strandCorrect strandA strandB Ori.empty = some Ori.empty := by
  rw [strandCorrect_eq strandA strandB Ori.empty
    ⟨Or.inr (Or.inr rfl), Or.inr (Or.inr rfl), Or.inr (Or.inr rfl), Or.inr (Or.inr rfl)⟩]
  simp only [Ori.empty, corrDir_nil]

/-- A line returned for an array that no template has filled has an empty fused name
and an empty detail string. -/
theorem resolve_empty_line (h : Hypothesis) (pe sr callID geneA geneB transA transB : Str)
    (tran2info : TranInfo) (line : Str) (ho : h.orientation = Ori.empty)
    (hr : resolve h pe sr callID geneA geneB transA transB tran2info = .ok line) :
    line = join "\t".toList (outStrList [] [] h.svtype callID h.breakA h.breakB pe sr) := by
  obtain ⟨loc, consist, modOri, locates1, _, hsc, _, _, hline⟩ :=
    resolve_ok_inv _ _ _ _ _ _ _ _ _ _ hr
  rw [ho, strandCorrect_empty] at hsc
  have hm := (Option.some.inj hsc).symm
  subst hm
  have n1 : ¬ (([] : Str) = ">".toList) := by decide
  have n2 : ¬ (([] : Str) = "<".toList) := by decide
  have hg : ∀ a b : Str, geneRep [] a b = [] := fun a b => rfl
  simp only [fuseGeneOf, fuseDetailOf, Ori.empty, n1, n2, if_false, hg] at hline
  exact hline

/-- A line returned for a filled template, gene symbols and transcript IDs being free
of the placeholder texts: the corrected tuple, the promoted locations and the two
sides, with the values taken after the swap. -/
theorem resolve_template_line (h : Hypothesis) (pe sr callID geneA geneB transA transB : Str)
    (tran2info : TranInfo) (locates : Locates) (consist line : Str)
    (hbc : breakCheck h.breakA h.breakB transA transB tran2info
      = some (locates, consist, true))
    (ho : h.orientation.isTemplate)
    (hcA : clean geneA) (hcB : clean geneB) (htA : clean transA) (htB : clean transB)
    (hr : resolve h pe sr callID geneA geneB transA transB tran2info = .ok line) :
    ∃ modOri locates1,
      strandCorrect (postStrandA tran2info transA transB consist)
        (postStrandB tran2info transA transB consist) h.orientation = some modOri ∧
      modOri.dirOf "GENE_A".toList
        = dirWith (postStrandA tran2info transA transB consist)
            (h.orientation.dirOf "GENE_A".toList) ∧
      modOri.dirOf "GENE_B".toList
        = dirWith (postStrandB tran2info transA transB consist)
            (h.orientation.dirOf "GENE_B".toList) ∧
      promote modOri locates = some locates1 ∧
      PromotedAs (modOri.dirOf "GENE_A".toList) (locGet locates "breakA".toList)
        (locGet locates1 "breakA".toList) ∧
      PromotedAs (modOri.dirOf "GENE_B".toList) (locGet locates "breakB".toList)
        (locGet locates1 "breakB".toList) ∧
      ∃ p q, ((p = "GENE_A".toList ∧ q = "GENE_B".toList) ∨
          (p = "GENE_B".toList ∧ q = "GENE_A".toList)) ∧
        line = join "\t".toList (outStrList
          (join "-".toList
            [pairMapGet (if consist = "wrong".toList then geneB else geneA)
                (if consist = "wrong".toList then geneA else geneB) p,
              pairMapGet (if consist = "wrong".toList then geneB else geneA)
                (if consist = "wrong".toList then geneA else geneB) q])
          (join ">".toList
            [sideText (if consist = "wrong".toList then geneB else geneA)
                (if consist = "wrong".toList then geneA else geneB)
                (if consist = "wrong".toList then transB else transA)
                (if consist = "wrong".toList then transA else transB) locates1 p,
              sideText (if consist = "wrong".toList then geneB else geneA)
                (if consist = "wrong".toList then geneA else geneB)
                (if consist = "wrong".toList then transB else transA)
                (if consist = "wrong".toList then transA else transB) locates1 q])
          h.svtype callID h.breakA h.breakB pe sr) := by
  obtain ⟨loc, consist1, modOri, locates1, hbc1, hsc, _, hprom, hline⟩ :=
    resolve_ok_inv _ _ _ _ _ _ _ _ _ _ hr
  rw [hbc] at hbc1
  have hinj := Option.some.inj hbc1
  have x1 : loc = locates := (congrArg (fun r => r.1) hinj).symm
  have x2 : consist1 = consist := (congrArg (fun r => r.2.1) hinj).symm
  subst x1 x2
  have hsc1 := strandCorrect_eq (postStrandA tran2info transA transB consist1)
    (postStrandB tran2info transA transB consist1) h.orientation ho.shaped
  have hsc2 : strandCorrect (postStrandA tran2info transA transB consist1)
      (postStrandB tran2info transA transB consist1) h.orientation = some modOri := hsc
  have hm : modOri = ⟨h.orientation.s0,
      corrDir (postStrandA tran2info transA transB consist1)
        (postStrandB tran2info transA transB consist1) h.orientation.s0 h.orientation.s1,
      h.orientation.s2,
      corrDir (postStrandA tran2info transA transB consist1)
        (postStrandB tran2info transA transB consist1) h.orientation.s2 h.orientation.s3⟩ :=
    Option.some.inj (hsc2.symm.trans hsc1)
  have hmt : modOri.isTemplate := by
    rw [hm]
    exact ⟨ho.1, corrDir_dir _ _ _ ho.2.1, corrDir_dir _ _ _ ho.2.2⟩
  obtain ⟨l1, hp1, pA, pB⟩ := promote_template modOri loc hmt
  rw [hprom] at hp1
  have x3 := Option.some.inj hp1
  subst x3
  have hdir := template_dirOf (postStrandA tran2info transA transB consist1)
    (postStrandB tran2info transA transB consist1) h.orientation ho
  rw [← hm] at hdir
  have hng := promote_noG _ loc locates1 (breakCheck_noG _ _ _ _ _ _ _ _ hbc) hprom
  obtain ⟨hp0, hp2⟩ := hmt.placeholders
  obtain ⟨fg, fd⟩ := fuse_fields modOri (if consist1 = "wrong".toList then geneB else geneA)
    (if consist1 = "wrong".toList then geneA else geneB)
    (if consist1 = "wrong".toList then transB else transA)
    (if consist1 = "wrong".toList then transA else transB) locates1 hp0 hp2 hmt.2.1
    (clean_ite _ _ _ hcB hcA) (clean_ite _ _ _ htB htA) (clean_ite _ _ _ htA htB) hng
  rw [fg, fd] at hline
  refine ⟨modOri, locates1, hsc2, hdir.1, hdir.2, hprom, pA, pB, ?_⟩
  have hne : ¬ ("<".toList = ">".toList) := by decide
  rcases hmt.2.1 with hd | hd
  · rw [if_pos hd, if_pos hd] at hline
    exact ⟨_, _, hmt.1, hline⟩
  · have hn : ¬ (modOri.s1 = ">".toList) := by rw [hd]; exact hne
    rw [if_neg hn, if_neg hn] at hline
    refine ⟨_, _, ?_, hline⟩
    rcases hmt.1 with ⟨a, b⟩ | ⟨a, b⟩
    · exact Or.inr ⟨b, a⟩
    · exact Or.inl ⟨b, a⟩


theorem postStrandA_wrong (tran2info : TranInfo) (transA transB : Str) :
    postStrandA tran2info transA transB "wrong".toList = (infoOf tran2info transB).strand :=
  if_pos rfl

theorem postStrandB_wrong (tran2info : TranInfo) (transA transB : Str) :
    postStrandB tran2info transA transB "wrong".toList = (infoOf tran2info transA).strand :=
  if_pos rfl

theorem sideText_geneA (geneA geneB transA transB : Str) (locates : Locates) :
    sideText geneA geneB transA transB locates "GENE_A".toList
      = sideOf geneA transA (locGet locates "breakA".toList) := by
  simp only [sideText, sideOf, pairMapGet_geneA]

theorem sideText_geneB (geneA geneB transA transB : Str) (locates : Locates) :
    sideText geneA geneB transA transB locates "GENE_B".toList
      = sideOf geneB transB (locGet locates "breakB".toList) := by
  simp only [sideText, sideOf, pairMapGet_geneB]

/-- C16, as stated, fails: for the annotated pair H and GENE_B, with H on transcript T2
and GENE_B on T1, `breakCheck` reports the swapped pairing and the detail string of the
returned line is H:T1:Ex2*>H:T2:Ex1*, whose first side pairs the symbol H with T1, the
transcript selected for the other gene. -/
theorem swap_detail_mispaired :
    selectTrans noOverride geneIdxP "H".toList = .ok "T2".toList ∧
    selectTrans noOverride geneIdxP "GENE_B".toList = .ok "T1".toList ∧
    breakCheck "chr1:350".toList "chr5:550".toList "T2".toList "T1".toList dbTwo
      = some (locPut (locPut [] "breakA".toList "Ex2".toList) "breakB".toList "Ex1".toList,
          "wrong".toList, true) ∧
    recordParser recSwapP "BND".toList dbTwo geneIdxP noOverride
      = .ok "H-H\tH:T1:Ex2*>H:T2:Ex1*\tBND\tcall1\tchr1:350\tchr5:550\t7:3".toList := by
  decide

/-- C16. Swap consistency of the output. Take a record that is read without panic, whose
genes geneA and geneB select the transcripts transA and transB, none of these four
texts holding GENE_A or GENE_B, and for which `breakCheck` reports the swapped pairing.
Then `breakSearch` found breakpoint A inside transB (location locA) and breakpoint B
inside transA (location locB). When `recordParser` returns a line, either no template
was filled and the line has no name and no detail, or: strand correction ran with the
strand of transB for GENE_A and the strand of transA for GENE_B, so the direction that
follows GENE_A is reversed exactly when transB, which contains breakpoint A, is on
strand `-` (likewise GENE_B and transA); and the detail string consists of the two sides
geneB:transB:repA and geneA:transA:repB, in one order or the other, where repA and repB
are locA and locB promoted or starred by the rule `PromotedAs`. -/
theorem recordParser_swap (variant : Variant) (svtype : Str) (tran2info : TranInfo)
    (gene2tran : GeneTran) (targetTrans : Str → JVal) (h : Hypothesis) (sample : Sample)
    (annTarget cell geneA geneB transA transB : Str) (locates : Locates) (line : Str)
    (hh : hypothesisOf variant svtype = some h)
    (hs : variant.Samples[0]? = some sample)
    (ha : annTargetOf variant.ANN = some annTarget)
    (hc : (split '|' annTarget)[3]? = some cell)
    (hamp : contains cell "&".toList = true)
    (hgA : (split '&' cell)[0]? = some geneA)
    (hgB : (split '&' cell)[1]? = some geneB)
    (htA : selectTrans targetTrans gene2tran geneA = .ok transA)
    (htB : selectTrans targetTrans gene2tran geneB = .ok transB)
    (hbc : breakCheck h.breakA h.breakB transA transB tran2info
      = some (locates, "wrong".toList, true))
    (hcA : clean geneA) (hcB : clean geneB) (hctA : clean transA) (hctB : clean transB)
    (hr : recordParser variant svtype tran2info gene2tran targetTrans = .ok line) :
    ∃ locA locB,
      breakSearch h.breakA (infoOf tran2info transB) = some (locA, true) ∧
      breakSearch h.breakB (infoOf tran2info transA) = some (locB, true) ∧
      ((h.orientation = Ori.empty ∧
          line = join "\t".toList (outStrList [] [] h.svtype variant.Id h.breakA
            h.breakB sample.PE sample.SR)) ∨
        ∃ modOri repA repB name first second,
          strandCorrect (infoOf tran2info transB).strand (infoOf tran2info transA).strand
            h.orientation = some modOri ∧
          modOri.dirOf "GENE_A".toList
            = dirWith (infoOf tran2info transB).strand (h.orientation.dirOf "GENE_A".toList) ∧
          modOri.dirOf "GENE_B".toList
            = dirWith (infoOf tran2info transA).strand (h.orientation.dirOf "GENE_B".toList) ∧
          PromotedAs (modOri.dirOf "GENE_A".toList) locA repA ∧
          PromotedAs (modOri.dirOf "GENE_B".toList) locB repB ∧
          ((first = sideOf geneB transB repA ∧ second = sideOf geneA transA repB) ∨
            (first = sideOf geneA transA repB ∧ second = sideOf geneB transB repA)) ∧
          line = join "\t".toList (outStrList name (join ">".toList [first, second])
            h.svtype variant.Id h.breakA h.breakB sample.PE sample.SR)) := by
  rw [recordParser_eq_resolve variant svtype tran2info gene2tran targetTrans h sample
    annTarget cell geneA geneB transA transB hh hs ha hc hamp hgA hgB htA htB] at hr
  obtain ⟨bsA, bsB⟩ := breakCheck_wrong _ _ _ _ _ _ _ hbc
  refine ⟨locGet locates "breakA".toList, locGet locates "breakB".toList, bsA, bsB, ?_⟩
  rcases hypothesisOf_cases variant svtype h hh with ho | ho
  · right
    obtain ⟨modOri, locates1, hsc, dA, dB, _, pA, pB, p, q, hpq, hline⟩ :=
      resolve_template_line h sample.PE sample.SR variant.Id geneA geneB transA transB
        tran2info locates "wrong".toList line hbc ho hcA hcB hctA hctB hr
    rw [postStrandA_wrong, postStrandB_wrong] at hsc
    rw [postStrandA_wrong] at dA
    rw [postStrandB_wrong] at dB
    simp only [eq_self_iff_true, if_true] at hline
    refine ⟨modOri, locGet locates1 "breakA".toList, locGet locates1 "breakB".toList, _, _, _,
      hsc, dA, dB, pA, pB, ?_, hline⟩
    rcases hpq with ⟨e1, e2⟩ | ⟨e1, e2⟩
    · rw [e1, e2, sideText_geneA, sideText_geneB]
      exact Or.inl ⟨rfl, rfl⟩
    · rw [e1, e2, sideText_geneA, sideText_geneB]
      exact Or.inr ⟨rfl, rfl⟩
  · left
    exact ⟨ho, resolve_empty_line _ _ _ _ _ _ _ _ _ _ ho hr⟩

/-- Witness of C16: the record `recSwap` names the genes H (transcript T2, chr5) and G
(transcript T1, chr1) while breakpoint A lies on chr1: the pairing is swapped, and the
line G-H with the detail G:T1:Ex2*>H:T2:Ex1* is returned. -/
theorem recordParser_swap_witness :
    ∃ locA locB,
      breakSearch "chr1:350".toList (infoOf dbTwo "T1".toList) = some (locA, true) ∧
      breakSearch "chr5:550".toList (infoOf dbTwo "T2".toList) = some (locB, true) ∧
      ((mkOri "GENE_A" ">" "GENE_B" "<" = Ori.empty ∧
          "G-H\tG:T1:Ex2*>H:T2:Ex1*\tBND\tcall1\tchr1:350\tchr5:550\t7:3".toList = join "\t".toList (outStrList [] [] "BND".toList "call1".toList "chr1:350".toList
            "chr5:550".toList "7".toList "3".toList)) ∨
        ∃ modOri repA repB name first second,
          strandCorrect (infoOf dbTwo "T1".toList).strand (infoOf dbTwo "T2".toList).strand
            (mkOri "GENE_A" ">" "GENE_B" "<") = some modOri ∧
          modOri.dirOf "GENE_A".toList
            = dirWith (infoOf dbTwo "T1".toList).strand ((mkOri "GENE_A" ">" "GENE_B" "<").dirOf "GENE_A".toList) ∧
          modOri.dirOf "GENE_B".toList
            = dirWith (infoOf dbTwo "T2".toList).strand ((mkOri "GENE_A" ">" "GENE_B" "<").dirOf "GENE_B".toList) ∧
          PromotedAs (modOri.dirOf "GENE_A".toList) locA repA ∧
          PromotedAs (modOri.dirOf "GENE_B".toList) locB repB ∧
          ((first = sideOf "G".toList "T1".toList repA ∧ second = sideOf "H".toList "T2".toList repB) ∨
            (first = sideOf "H".toList "T2".toList repB ∧ second = sideOf "G".toList "T1".toList repA)) ∧
          "G-H\tG:T1:Ex2*>H:T2:Ex1*\tBND\tcall1\tchr1:350\tchr5:550\t7:3".toList = join "\t".toList (outStrList name (join ">".toList [first, second])
            "BND".toList "call1".toList "chr1:350".toList "chr5:550".toList "7".toList "3".toList)) :=
  recordParser_swap recSwap "BND".toList dbTwo geneIdx noOverride
    ⟨"chr1:350".toList, "chr5:550".toList, mkOri "GENE_A" ">" "GENE_B" "<", "BND".toList⟩
    ⟨"7".toList, "3".toList⟩ "N]CHR5:550]|bnd|HIGH|H&G|x".toList "H&G".toList
    "H".toList "G".toList "T2".toList "T1".toList
    (locPut (locPut [] "breakA".toList "Ex2".toList) "breakB".toList "Ex1".toList)
    "G-H\tG:T1:Ex2*>H:T2:Ex1*\tBND\tcall1\tchr1:350\tchr5:550\t7:3".toList
    (by decide) (by decide) (by decide) (by decide) (by decide) (by decide) (by decide)
    (by decide) (by decide) (by decide) ⟨by decide, by decide⟩ ⟨by decide, by decide⟩
    ⟨by decide, by decide⟩ ⟨by decide, by decide⟩ (by decide)


theorem detail_contains (x tx lx y ty ly : Str) :
    contains (join ">".toList [sideOf x tx lx, sideOf y ty ly]) x = true ∧
      contains (join ">".toList [sideOf x tx lx, sideOf y ty ly]) y = true := by
  have e1 : join ">".toList [sideOf x tx lx, sideOf y ty ly]
      = [] ++ (x ++ (':' :: (tx ++ ':' :: lx) ++ '>' :: sideOf y ty ly)) := by
    simp [join, sideOf]
  have e2 : join ">".toList [sideOf x tx lx, sideOf y ty ly]
      = (sideOf x tx lx ++ ['>']) ++ (y ++ (':' :: (ty ++ ':' :: ly))) := by
    simp [join, sideOf]
  exact ⟨by rw [e1]; exact contains_mid _ _ _, by rw [e2]; exact contains_mid _ _ _⟩

theorem join2_ne_nil (sep a b : Str) (hsep : sep ≠ []) : join sep [a, b] ≠ [] := by
  intro h
  simp only [join, List.append_eq_nil] at h
  exact hsep h.1.2

/-- The SV types and ALT texts that fill the orientation template. -/
theorem hypothesisOf_template (variant : Variant) (svtype : Str) (h : Hypothesis)
    (hsv : svtype = "DEL".toList ∨ svtype = "DUP".toList ∨ svtype = "INV_1".toList ∨
      svtype = "INV_2".toList ∨
      (svtype = "BND".toList ∧ ∃ alt, variant.Alt[0]? = some alt ∧
        (contains alt "[".toList = true ∨ contains alt "]".toList = true)))
    (hh : hypothesisOf variant svtype = some h) : h.orientation.isTemplate := by
  rcases hsv with e | e | e | e | ⟨e, alt, ha, hb⟩
  · rw [(hypothesisOf_intra variant svtype h (by rw [e]; decide) hh).1]
    exact (intraOrientation_del_dup _ _ _ (Or.inl e)).1
  · rw [(hypothesisOf_intra variant svtype h (by rw [e]; decide) hh).1]
    exact (intraOrientation_del_dup _ _ _ (Or.inr e)).1
  · rw [(hypothesisOf_intra variant svtype h (by rw [e]; decide) hh).1]
    exact (intraOrientation_inv _ _ _ (Or.inl e)).1
  · rw [(hypothesisOf_intra variant svtype h (by rw [e]; decide) hh).1]
    exact (intraOrientation_inv _ _ _ (Or.inr e)).1
  · subst e
    rw [hypothesisOf_bnd variant h alt ha hh]
    exact bndOrientation_template alt hb

/-- C20, as stated, fails. For the SV type INS, and for a BND record whose ALT text has
no bracket, `recordParser` returns a line whose fused name and detail are empty; and for
the annotated pair GENE_B and H the fused name is H-H and the detail does not contain
the symbol GENE_B. -/
theorem unnamed_fusion_lines :
    recordParser recINV "INS".toList dbInv geneIdx noOverride
      = .ok "\t\tINS\tcall2\tchr1:150\tchr1:350\t4:1".toList ∧
    recordParser recNoBracket "BND".toList dbTwo geneIdx noOverride
      = .ok "\t\tBND\tcall1\tchr1:350\tchr5:550\t7:3".toList ∧
    recordParser recBndP "BND".toList dbTwo geneIdxP noOverride
      = .ok "H-H\tH:T1:Ex2*>H:T2:Ex1*\tBND\tcall1\tchr1:350\tchr5:550\t7:3".toList ∧
    contains "H:T1:Ex2*>H:T2:Ex1*".toList "GENE_B".toList = false := by
  decide

/-- C20. Every emitted call names a fusion, for the filled templates. Take a record and
an SV type among DEL, DUP, INV_1, INV_2, or BND with an ALT text that holds a bracket;
let geneA and geneB be the two gene symbols of the annotated pair, transA and transB
the transcripts selected for them, none of the four texts holding GENE_A or GENE_B.
Whenever `recordParser` returns a line, its fused name is x-y and its detail is
x:tx:lx>y:ty:ly, where (x, y) is (geneA, geneB) or (geneB, geneA) and tx, ty are the
transcripts of x and y; name and detail are not empty and the detail contains both gene
symbols. -/
theorem recordParser_names_fusion (variant : Variant) (svtype : Str) (tran2info : TranInfo)
    (gene2tran : GeneTran) (targetTrans : Str → JVal)
    (annTarget cell geneA geneB transA transB line : Str)
    (hsv : svtype = "DEL".toList ∨ svtype = "DUP".toList ∨ svtype = "INV_1".toList ∨
      svtype = "INV_2".toList ∨
      (svtype = "BND".toList ∧ ∃ alt, variant.Alt[0]? = some alt ∧
        (contains alt "[".toList = true ∨ contains alt "]".toList = true)))
    (ha : annTargetOf variant.ANN = some annTarget)
    (hc : (split '|' annTarget)[3]? = some cell)
    (hgA : (split '&' cell)[0]? = some geneA)
    (hgB : (split '&' cell)[1]? = some geneB)
    (htA : selectTrans targetTrans gene2tran geneA = .ok transA)
    (htB : selectTrans targetTrans gene2tran geneB = .ok transB)
    (hcA : clean geneA) (hcB : clean geneB) (hctA : clean transA) (hctB : clean transB)
    (hr : recordParser variant svtype tran2info gene2tran targetTrans = .ok line) :
    ∃ x tx lx y ty ly svt breakA breakB support,
      ((x = geneA ∧ tx = transA ∧ y = geneB ∧ ty = transB) ∨
        (x = geneB ∧ tx = transB ∧ y = geneA ∧ ty = transA)) ∧
      line = join "\t".toList [join "-".toList [x, y],
        join ">".toList [sideOf x tx lx, sideOf y ty ly], svt, variant.Id, breakA, breakB,
        support] ∧
      join "-".toList [x, y] ≠ [] ∧
      join ">".toList [sideOf x tx lx, sideOf y ty ly] ≠ [] ∧
      contains (join ">".toList [sideOf x tx lx, sideOf y ty ly]) geneA = true ∧
      contains (join ">".toList [sideOf x tx lx, sideOf y ty ly]) geneB = true := by
  obtain ⟨h, sample, annT, cell1, gA, gB, tA, tB, hh, hs, han, hc1, hamp, hgA1, hgB1,
    htA1, htB1, hres⟩ := recordParser_ok_inv _ _ _ _ _ _ hr
  have x2 : annT = annTarget := Option.some.inj (han.symm.trans ha)
  subst x2
  have x3 : cell1 = cell := Option.some.inj (hc1.symm.trans hc)
  subst x3
  have x4 : gA = geneA := Option.some.inj (hgA1.symm.trans hgA)
  have x5 : gB = geneB := Option.some.inj (hgB1.symm.trans hgB)
  subst x4 x5
  have x6 : tA = transA := Res.ok.inj (htA1.symm.trans htA)
  have x7 : tB = transB := Res.ok.inj (htB1.symm.trans htB)
  subst x6 x7
  have ho := hypothesisOf_template variant svtype h hsv hh
  obtain ⟨locates, consist, _, _, hbc, _⟩ := resolve_ok_inv _ _ _ _ _ _ _ _ _ _ hres
  obtain ⟨modOri, locates1, _, _, _, _, _, _, p, q, hpq, hline⟩ :=
    resolve_template_line h sample.PE sample.SR variant.Id gA gB tA tB
      tran2info locates consist line hbc ho hcA hcB hctA hctB hres
  have hsep1 : "-".toList ≠ [] := by decide
  have hsep2 : ">".toList ≠ [] := by decide
  by_cases hw : consist = "wrong".toList
  · simp only [hw, eq_self_iff_true, if_true] at hline
    rcases hpq with ⟨e1, e2⟩ | ⟨e1, e2⟩
    · rw [e1, e2, sideText_geneA, sideText_geneB, pairMapGet_geneA, pairMapGet_geneB]
        at hline
      exact ⟨gB, tB, _, gA, tA, _, _, _, _, _, Or.inr ⟨rfl, rfl, rfl, rfl⟩, hline,
        join2_ne_nil _ _ _ hsep1, join2_ne_nil _ _ _ hsep2,
        (detail_contains _ _ _ _ _ _).2, (detail_contains _ _ _ _ _ _).1⟩
    · rw [e1, e2, sideText_geneA, sideText_geneB, pairMapGet_geneA, pairMapGet_geneB]
        at hline
      exact ⟨gA, tA, _, gB, tB, _, _, _, _, _, Or.inl ⟨rfl, rfl, rfl, rfl⟩, hline,
        join2_ne_nil _ _ _ hsep1, join2_ne_nil _ _ _ hsep2,
        (detail_contains _ _ _ _ _ _).1, (detail_contains _ _ _ _ _ _).2⟩
  · simp only [hw, if_false] at hline
    rcases hpq with ⟨e1, e2⟩ | ⟨e1, e2⟩
    · rw [e1, e2, sideText_geneA, sideText_geneB, pairMapGet_geneA, pairMapGet_geneB]
        at hline
      exact ⟨gA, tA, _, gB, tB, _, _, _, _, _, Or.inl ⟨rfl, rfl, rfl, rfl⟩, hline,
        join2_ne_nil _ _ _ hsep1, join2_ne_nil _ _ _ hsep2,
        (detail_contains _ _ _ _ _ _).1, (detail_contains _ _ _ _ _ _).2⟩
    · rw [e1, e2, sideText_geneA, sideText_geneB, pairMapGet_geneA, pairMapGet_geneB]
        at hline
      exact ⟨gB, tB, _, gA, tA, _, _, _, _, _, Or.inr ⟨rfl, rfl, rfl, rfl⟩, hline,
        join2_ne_nil _ _ _ hsep1, join2_ne_nil _ _ _ hsep2,
        (detail_contains _ _ _ _ _ _).2, (detail_contains _ _ _ _ _ _).1⟩

/-- Witness of C20: the line of the record `recBND`, with the genes G and H, has the
fused name G-H and the detail G:T1:Ex2*>H:T2:Ex1*. -/
theorem recordParser_names_fusion_witness :
    ∃ x tx lx y ty ly svt breakA breakB support,
      ((x = "G".toList ∧ tx = "T1".toList ∧ y = "H".toList ∧ ty = "T2".toList) ∨
        (x = "H".toList ∧ tx = "T2".toList ∧ y = "G".toList ∧ ty = "T1".toList)) ∧
      "G-H\tG:T1:Ex2*>H:T2:Ex1*\tBND\tcall1\tchr1:350\tchr5:550\t7:3".toList = join "\t".toList [join "-".toList [x, y],
        join ">".toList [sideOf x tx lx, sideOf y ty ly], svt, "call1".toList, breakA, breakB,
        support] ∧
      join "-".toList [x, y] ≠ [] ∧
      join ">".toList [sideOf x tx lx, sideOf y ty ly] ≠ [] ∧
      contains (join ">".toList [sideOf x tx lx, sideOf y ty ly]) "G".toList = true ∧
      contains (join ">".toList [sideOf x tx lx, sideOf y ty ly]) "H".toList = true :=
  recordParser_names_fusion recBND "BND".toList dbTwo geneIdx noOverride
    "N]CHR5:550]|bnd|HIGH|G&H|x".toList "G&H".toList "G".toList "H".toList "T1".toList
    "T2".toList "G-H\tG:T1:Ex2*>H:T2:Ex1*\tBND\tcall1\tchr1:350\tchr5:550\t7:3".toList
    (Or.inr (Or.inr (Or.inr (Or.inr ⟨rfl, "N]CHR5:550]".toList, by decide,
      Or.inr (by decide)⟩))))
    (by decide) (by decide) (by decide) (by decide) (by decide) (by decide)
    ⟨by decide, by decide⟩ ⟨by decide, by decide⟩ ⟨by decide, by decide⟩
    ⟨by decide, by decide⟩ (by decide)

end FUEX
